import Mathlib

/-!
# CMDScript interpreter: a shallow embedding of `src/app.py`

This file embeds the core of the CMDScript interpreter (`app.py`) in Lean 4:
the indentation analyzer (`get_indent_level` / `find_block`), the value
resolver (`resolve_value`), the condition evaluator (`evaluate_condition`),
the typed variable store, the statement executor (`execute_line`), the
conditional and loop block executors (`execute_if_else` /
`execute_while_loop`), the parse pass (`parse_script`) and the driver loop
(`main`'s execution part, here `runScript`).

Modelling conventions:
* Python strings are Lean `String`s; all operations are implemented over
  `String.data` (lists of characters) with executable definitions mirroring
  the Python string methods and the concrete regular expressions of the
  source (including their greedy/lazy backtracking behaviour).  Regular
  expressions' `.` is modelled as "any character"; interpreter lines never
  contain a newline (they are produced by `parse_script`, which strips
  them), so the difference from "any character except newline" is
  unobservable in the embedding's use.
* Python floats are modelled by exact rational pairs `PFloat` (numerator /
  positive denominator, compared by cross multiplication).  This is exact
  for every value the claims exercise; IEEE rounding, `inf`/`nan` literals
  and underscore digit separators are outside the model.  `str(float)` is
  modelled by `pyFloatStr`, which (like Python) always prints a decimal
  point; for non-terminating expansions it truncates at 17 fractional
  digits where Python would round, which no claim exercises.
* Effects (stdout, sleeping, clearing the console, toast notifications)
  are recorded as a list of events in the interpreter state; `print(x)`
  appends `x ++ "\n"`, `print(x, end="")` appends `x`.
* Errors (`error(msg, line_num)` → `sys.exit(1)`) are the `.fail` outcome
  carrying an error kind, the originating line number and the state at the
  point of failure; `sys.exit(0)` (the terminator sentinel) is `.halt`.
  Out-of-range list indexing (an uncaught Python `IndexError`) is the
  `.indexError` kind.
* The mutually recursive executors take a fuel parameter (the Python
  originals can genuinely diverge, e.g. when `execute_if_else` returns its
  start index unchanged); fuel exhaustion is the distinct outcome
  `.fuelOut`, never confused with an interpreter error.
-/

namespace CMDScript

/-! ## Python string primitives -/

/-- The characters Python's `str.strip()` removes (ASCII whitespace). -/
def isPyWs (c : Char) : Bool :=
  c = ' ' || c = '\t' || c = '\n' || c = '\r' || c = '\x0b' || c = '\x0c'

/-- Drop trailing characters satisfying `p` (model of `str.rstrip` with one
character class). -/
def dropTrailing (p : Char → Bool) (l : List Char) : List Char :=
  (l.reverse.dropWhile p).reverse

/-- Python `str.strip()` on a character list. -/
def pyStripL (l : List Char) : List Char :=
  dropTrailing isPyWs (l.dropWhile isPyWs)

/-- Python `str.strip()`. -/
def pyStrip (s : String) : String := ⟨pyStripL s.data⟩

/-- `line.rstrip("\n").rstrip("\r")` from `parse_script`. -/
def pyRstripNewline (s : String) : String :=
  ⟨dropTrailing (· = '\r') (dropTrailing (· = '\n') s.data)⟩

/-- Length of the leading whitespace run (used to model greedy `\s*`/`\s+`). -/
def wsCount (l : List Char) : Nat := (l.takeWhile isPyWs).length

/-- Python `s.startswith(pre)`. -/
def strStarts (s pre : String) : Bool := pre.data.isPrefixOf s.data

/-- `needle in hay` for Python strings (substring containment). -/
def subList : List Char → List Char → Bool
  | _, [] => true
  | [], _ :: _ => false
  | c :: hay, needle => needle.isPrefixOf (c :: hay) || subList hay needle

/-- Python `needle in hay` on strings. -/
def strIn (hay needle : String) : Bool := subList hay.data needle.data

/-- Python `str.lower()` (ASCII, as the scripts use). -/
def strLower (s : String) : String := ⟨s.data.map Char.toLower⟩

def isDigitC (c : Char) : Bool := '0' ≤ c && c ≤ '9'

/-- `\w` in the source's regexes: `[A-Za-z0-9_]` (scripts are ASCII). -/
def isWordC (c : Char) : Bool :=
  ('A' ≤ c && c ≤ 'Z') || ('a' ≤ c && c ≤ 'z') || isDigitC c || c = '_'

def digitsToNat (l : List Char) : Nat :=
  l.foldl (fun a c => a * 10 + (c.toNat - '0'.toNat)) 0

/-- Decimal digits of `n`, most significant first (`fuel` bounds the digit
count; `n + 1` always suffices since `n / 10 < n` for positive `n`). -/
def natDigitsGo : Nat → Nat → List Char
  | 0, _ => []
  | fuel + 1, n =>
    if n < 10 then [Char.ofNat (n + '0'.toNat)]
    else natDigitsGo fuel (n / 10) ++ [Char.ofNat (n % 10 + '0'.toNat)]

/-- Decimal digits of `n`, most significant first. -/
def natDigits (n : Nat) : List Char := natDigitsGo (n + 1) n

/-- Python `str(int)`. -/
def intStr (i : Int) : String :=
  if i < 0 then ⟨'-' :: natDigits i.natAbs⟩ else ⟨natDigits i.natAbs⟩

/-- Python `int(string)`: optional surrounding whitespace, optional sign,
then a non-empty run of decimal digits (underscore separators are not
modelled).  Rejects anything else — in particular any string containing a
decimal point. -/
def pyIntParse (s : String) : Option Int :=
  let l := pyStripL s.data
  let (neg, l) : Bool × List Char :=
    match l with
    | '+' :: rest => (false, rest)
    | '-' :: rest => (true, rest)
    | rest => (false, rest)
  if l ≠ [] && l.all isDigitC then
    some (if neg then -(digitsToNat l : Int) else (digitsToNat l : Int))
  else none

/-! ## Python floats as exact rationals

`PFloat` values always have a positive denominator by construction. -/

structure PFloat where
  num : Int
  den : Nat
deriving DecidableEq, Repr

/-- Value equality of Python floats (cross multiplication). -/
def PFloat.eqv (a b : PFloat) : Bool := a.num * b.den = b.num * a.den

/-- Value order of Python floats. -/
def PFloat.ltv (a b : PFloat) : Bool := a.num * b.den < b.num * a.den

def PFloat.lev (a b : PFloat) : Bool := a.num * b.den ≤ b.num * a.den

def PFloat.add (a b : PFloat) : PFloat :=
  ⟨a.num * b.den + b.num * a.den, a.den * b.den⟩

def PFloat.sub (a b : PFloat) : PFloat :=
  ⟨a.num * b.den - b.num * a.den, a.den * b.den⟩

def PFloat.mul (a b : PFloat) : PFloat := ⟨a.num * b.num, a.den * b.den⟩

/-- Division (the caller has ruled out a zero divisor; a zero divisor would
yield denominator 0, but no execution path constructs it). -/
def PFloat.div (a b : PFloat) : PFloat :=
  ⟨(if b.num < 0 then -a.num else a.num) * b.den, a.den * b.num.natAbs⟩

/-- Parse the digit/point/exponent part of a float literal (after sign):
`digits [. digits]` or `. digits`, then optionally `e`/`E` sign digits.
Returns numerator and denominator scale. -/
def pyFloatCore (l : List Char) : Option (Nat × Nat) :=
  let ip := l.takeWhile isDigitC
  let rest := l.drop ip.length
  let (fp, rest') : List Char × List Char :=
    match rest with
    | '.' :: r => (r.takeWhile isDigitC, r.drop (r.takeWhile isDigitC).length)
    | r => ([], r)
  let hadPoint : Bool := match rest with | '.' :: _ => true | _ => false
  if ip.length = 0 && fp.length = 0 then none
  else
    let mant := digitsToNat (ip ++ fp)
    let scale := fp.length
    match rest' with
    | [] => some (mant, 10 ^ scale)
    | 'e' :: er => pyFloatExp mant scale er
    | 'E' :: er => pyFloatExp mant scale er
    | _ =>
      -- a second '.' or junk: reject (the first '.' was already consumed)
      if hadPoint then none else none
where
  /-- exponent part: optional sign then non-empty digits, nothing after. -/
  pyFloatExp (mant scale : Nat) (er : List Char) : Option (Nat × Nat) :=
    let (eneg, ed) : Bool × List Char :=
      match er with
      | '+' :: r => (false, r)
      | '-' :: r => (true, r)
      | r => (false, r)
    if ed ≠ [] && ed.all isDigitC then
      let e := digitsToNat ed
      if eneg then some (mant, 10 ^ scale * 10 ^ e)
      else some (mant * 10 ^ e, 10 ^ scale)
    else none

/-- Python `float(string)`: optional surrounding whitespace, optional sign,
then a decimal literal with optional fraction and exponent.  `inf`, `nan`
and underscore separators are not modelled (treated as non-numeric). -/
def pyFloat (s : String) : Option PFloat :=
  let l := pyStripL s.data
  let (neg, l) : Bool × List Char :=
    match l with
    | '+' :: rest => (false, rest)
    | '-' :: rest => (true, rest)
    | rest => (false, rest)
  (pyFloatCore l).map fun (n, d) =>
    ⟨if neg then -(n : Int) else (n : Int), d⟩

/-- `k` decimal digits of the fraction `rem / den` (`rem < den`), most
significant first. -/
def fracDigits (rem den : Nat) : Nat → List Char
  | 0 => []
  | k + 1 =>
    let rem' := rem * 10
    Char.ofNat (rem' / den + '0'.toNat) :: fracDigits (rem' % den) den k

/-- Python `str(float)` in the exact-rational model: always prints a
decimal point; an integral value prints as `"<int>.0"`, otherwise the
fractional expansion is printed (truncated at 17 digits, trailing zeros
trimmed — Python's shortest-roundtrip repr agrees on every terminating
expansion the claims exercise). -/
def pyFloatStr (q : PFloat) : String :=
  let sign := if q.num < 0 then "-" else ""
  let a := q.num.natAbs
  let ip := a / q.den
  let rem := a % q.den
  if rem = 0 then sign ++ ⟨natDigits ip⟩ ++ ".0"
  else
    let ds := dropTrailing (· = '0') (fracDigits rem q.den 17)
    sign ++ ⟨natDigits ip⟩ ++ "." ++ ⟨ds⟩

/-! ## The source's regular expressions

Each matcher below models one concrete regex of `app.py`, including its
greedy/lazy backtracking order, as an executable function. -/

/-- One step of `re.match(r"(.+?)\s*([+\-*/])\s*(.+)", token)` from
`resolve_value` (priority 5).  The lazy `(.+?)` tries the shortest left
operand first (`k` is its current length, starting at 1); after it, greedy
`\s*` runs to the first non-whitespace character, which must be an operator
character; greedy `\s*` after the operator must leave at least one
character for `(.+)` (backing off one whitespace character when everything
after the operator is whitespace, as the regex engine does). -/
def isOpC (c : Char) : Bool :=
  c = '+' || c = '-' || c = '*' || c = '/'

/-- One candidate of the arithmetic pattern: left operand of length `k`,
operator position `j` (after greedy `\s*`).  Fails when no operator
character is there or nothing is left for `(.+)`. -/
def matchExprAt (l : List Char) (k j : Nat) :
    Option (List Char × Char × List Char) :=
  if j < l.length ∧ isOpC (l.getD j ' ') then
    if wsCount (l.drop (j + 1)) < (l.drop (j + 1)).length then
      some (l.take k, l.getD j ' ',
        (l.drop (j + 1)).drop (wsCount (l.drop (j + 1))))
    else if 1 ≤ wsCount (l.drop (j + 1)) then
      some (l.take k, l.getD j ' ',
        (l.drop (j + 1)).drop (wsCount (l.drop (j + 1)) - 1))
    else none
  else none

/-- The lazy scan over left-operand lengths `k` (`fuel` bounds the number
of steps; the scan stops once `k` reaches the string's length, so
`l.length + 1` always suffices). -/
def matchExprGo (l : List Char) : Nat → Nat → Option (List Char × Char × List Char)
  | 0, _ => none
  | fuel + 1, k =>
    if k < l.length then
      match matchExprAt l k (k + wsCount (l.drop k)) with
      | some x => some x
      | none => matchExprGo l fuel (k + 1)
    else none

/-- `re.match(r"(.+?)\s*([+\-*/])\s*(.+)", token)`: the arithmetic pattern
of `resolve_value`, returning the three groups. -/
def matchExpr (t : String) : Option (String × Char × String) :=
  (matchExprGo t.data (t.data.length + 1) 1).map fun (a, c, b) => (⟨a⟩, c, ⟨b⟩)

/-- The operator alternation `(=|X=|>|<|>=|<=|~|~=)` in the `%if`/`%while`
header regexes, tried in the regex's order at one position.  An alternative
only succeeds if it is followed by `\s+` and then at least one character
for the final `(.+)` (greedy, backing off one whitespace character when
everything after the operator is whitespace).  Returns the operator group
and the `(.+)` group. -/
def tryCondOps (r : List Char) (j : Nat) : Option (String × List Char) :=
  go ["=", "X=", ">", "<", ">=", "<=", "~", "~="]
where
  go : List String → Option (String × List Char)
    | [] => none
    | op :: ops =>
      let after := r.drop j
      if op.data.isPrefixOf after then
        let rest := r.drop (j + op.data.length)
        let u := wsCount rest
        if 1 ≤ u && u < rest.length then some (op, rest.drop u)
        else if 2 ≤ u then some (op, rest.drop (u - 1))
        else go ops
      else go ops

/-- The lazy `(.+?)` scan of `re.match(r"<kw>\s+(.+?)\s+(op)\s+(.+)", s)`:
with the leading `\s+` fixed at length `w`, try left-operand end positions
`k = w+1, w+2, …`; at each, greedy `\s+` must be non-empty and land on a
viable operator. -/
def condScanK (r : List Char) (w : Nat) : Nat → Nat → Option (List Char × String × List Char)
  | 0, _ => none
  | fuel + 1, k =>
    if k < r.length then
      if k < k + wsCount (r.drop k) then
        match tryCondOps r (k + wsCount (r.drop k)) with
        | some (op, rhs) => some ((r.drop w).take (k - w), op, rhs)
        | none => condScanK r w fuel (k + 1)
      else condScanK r w fuel (k + 1)
    else none

/-- Backtracking over the length of the leading `\s+` (greedy: longest
first, shrinking only when the rest of the pattern cannot match). `w + 1`
is the whitespace length currently tried. -/
def condScanW (r : List Char) : Nat → Option (List Char × String × List Char)
  | 0 => none
  | w + 1 =>
    match condScanK r (w + 1) (r.length + 1) (w + 2) with
    | some x => some x
    | none => condScanW r w

/-- `re.match(r"<kw>\s+(.+?)\s+(=|X=|>|<|>=|<=|~|~=)\s+(.+)", s)` — the
`%if` (with `kw = "%if"`) and `%while` (with `kw = "%while"`) header
pattern, returning groups `(lhs, op, rhs)`. -/
def matchCond (kw s : String) : Option (String × String × String) :=
  if kw.data.isPrefixOf s.data then
    let r := s.data.drop kw.data.length
    (condScanW r (wsCount r)).map fun (a, op, b) => (⟨a⟩, op, ⟨b⟩)
  else none

/-- `re.match(r"^[A-Za-z_][A-Za-z0-9_]*$", s)` — the identifier check on
alias declarations. -/
def identOk (s : String) : Bool :=
  match s.data with
  | [] => false
  | c :: rest =>
    (('A' ≤ c && c ≤ 'Z') || ('a' ≤ c && c ≤ 'z') || c = '_') && rest.all isWordC

/-- `re.match(r"%(\w+)\s*=\s*(\w+)$", line)` — the alias-declaration
statement.  Greedy `\w+` runs are maximal and the pattern is anchored at
both ends, so matching is deterministic. -/
def matchAlias (line : String) : Option (String × String) :=
  match line.data with
  | '%' :: rest =>
    let w1 := rest.takeWhile isWordC
    let r1 := rest.drop w1.length
    let r2 := r1.drop (wsCount r1)
    match w1, r2 with
    | [], _ => none
    | _, '=' :: r3 =>
      let r4 := r3.drop (wsCount r3)
      let w2 := r4.takeWhile isWordC
      if w2 ≠ [] && r4.drop w2.length = [] then some (⟨w1⟩, ⟨w2⟩) else none
    | _, _ => none
  | _ => none

/-- `re.match(r"(\w+)\s*=\s*(%int|%dec|%txt|%string)$", line)` — the
type-declaration statement. -/
def matchVarType (line : String) : Option (String × String) :=
  let w1 := line.data.takeWhile isWordC
  let r1 := line.data.drop w1.length
  let r2 := r1.drop (wsCount r1)
  match w1, r2 with
  | [], _ => none
  | _, '=' :: r3 =>
    let r4 := r3.drop (wsCount r3)
    let tys := ["%int", "%dec", "%txt", "%string"]
    match tys.find? (fun ty => r4 = ty.data) with
    | some ty => some (⟨w1⟩, ty)
    | none => none
  | _, _ => none

/-- `re.match(r"(\w+)%value\s*=\s*(.+)$", line)` — the value-assignment
statement.  The final `(.+)` is greedy; when everything after `=` is
whitespace the preceding `\s*` backs off one character so `(.+)` can match
it. -/
def matchAssign (line : String) : Option (String × String) :=
  let w1 := line.data.takeWhile isWordC
  let r1 := line.data.drop w1.length
  if w1 ≠ [] && ("%value".data.isPrefixOf r1) then
    let r2 := r1.drop 6
    let r3 := r2.drop (wsCount r2)
    match r3 with
    | '=' :: r4 =>
      let u := wsCount r4
      if u < r4.length then some (⟨w1⟩, ⟨r4.drop u⟩)
      else if 1 ≤ u then some (⟨w1⟩, ⟨r4.drop (u - 1)⟩)
      else none
    | _ => none
  else none

/-- `re.match(r'%icq\s+"(.+)"\s+(%int|%dec|%txt|%string)', line)` — the
input-prompt statement.  The greedy `(.+)` takes the longest prompt whose
closing quote is followed by `\s+` and a type token; the pattern is not
anchored at the end, and the type alternation is tried in the regex's
order as a prefix. -/
def icqMatch (line : String) : Option (String × String) :=
  match line.data.take 4, line.data.drop 4 with
  | ['%', 'i', 'c', 'q'], r0 =>
    let w := wsCount r0
    if w = 0 then none
    else
      match r0.drop w with
      | '"' :: r1 => goK r1 r1.length
      | _ => none
  | _, _ => none
where
  /-- try prompt lengths `k = max, max-1, …, 1` (greedy `(.+)`):
  `r1[k] = '"'` and after it `\s+` then a type prefix. -/
  goK (r1 : List Char) : Nat → Option (String × String)
    | 0 => none
    | k + 1 =>
      (if hq : k + 1 < r1.length then
        if r1.get ⟨k + 1, hq⟩ = '"' then
          let after := r1.drop (k + 2)
          let u := wsCount after
          if 1 ≤ u then
            let tys := ["%int", "%dec", "%txt", "%string"]
            match tys.find? (fun ty => ty.data.isPrefixOf (after.drop u)) with
            | some ty => some (⟨r1.take (k + 1)⟩, ty)
            | none => goK r1 k
          else goK r1 k
        else goK r1 k
      else goK r1 k)

/-- One alternative of `("[^"]*"|%1|%var \w+)` in the `msg` regex: returns
the matched group (quotes included for the quoted form) and the remainder. -/
def msgAlt (l : List Char) : Option (List Char × List Char) :=
  match l with
  | '"' :: r =>
    let inner := r.takeWhile (· ≠ '"')
    match r.drop inner.length with
    | '"' :: rest => some ('"' :: inner ++ ['"'], rest)
    | _ => none
  | '%' :: '1' :: rest => some (['%', '1'], rest)
  | '%' :: 'v' :: 'a' :: 'r' :: ' ' :: r =>
    let w := r.takeWhile isWordC
    if w ≠ [] then some ('%' :: 'v' :: 'a' :: 'r' :: ' ' :: w, r.drop w.length)
    else none
  | _ => none

/-- Attempt the `msg` pattern
`%title\s+("[^"]*"|%1|%var \w+)\s+%subtitle\s+("[^"]*"|%1|%var \w+)`
starting exactly at `l`. -/
def msgHere (l : List Char) : Option (String × String) :=
  if "%title".data.isPrefixOf l then
    let r0 := l.drop 6
    let w0 := wsCount r0
    if 1 ≤ w0 then
      match msgAlt (r0.drop w0) with
      | some (t, r1) =>
        let w1 := wsCount r1
        if 1 ≤ w1 && "%subtitle".data.isPrefixOf (r1.drop w1) then
          let r2 := (r1.drop w1).drop 9
          let w2 := wsCount r2
          if 1 ≤ w2 then
            match msgAlt (r2.drop w2) with
            | some (s, _) => some (⟨t⟩, ⟨s⟩)
            | none => none
          else none
        else none
      | none => none
    else none
  else none

/-- `re.findall(...)[0]` for the `msg` regex: the first position where the
pattern matches (the code only uses the first match). -/
def msgFind : List Char → Option (String × String)
  | [] => none
  | c :: rest =>
    match msgHere (c :: rest) with
    | some x => some x
    | none => msgFind rest

/-- `re.match(r"%f\s+(.+):", stripped)` — the subroutine-definition header
in `parse_script`.  Greedy `\s+` and `(.+)` mean: after `%f` and the
maximal whitespace run, the group extends to the *last* colon; if no colon
follows at least one group character, the whitespace backs off so the group
may start inside (and consist of) whitespace. -/
def pctFMatch (s : String) : Option String :=
  match s.data with
  | '%' :: 'f' :: r =>
    if wsCount r = 0 then none
    else (goW r (wsCount r)).map fun g => ⟨g⟩
  | _ => none
where
  /-- last index `p ≥ lo` with `r[p] = ':'`. -/
  lastColonFrom (r : List Char) (lo : Nat) : Option Nat :=
    let idxs := (List.range r.length).filter fun p =>
      lo ≤ p && r.getD p ' ' = ':'
    idxs.getLast?
  /-- whitespace length `w`, longest first: group is `r[w..p)` for the last
  colon `p ≥ w + 1`. -/
  goW (r : List Char) : Nat → Option (List Char)
    | 0 => none
    | w + 1 =>
      match lastColonFrom r (w + 2) with
      | some p => some ((r.drop (w + 1)).take (p - (w + 1)))
      | none => goW r w

/-- Python `line.split()` — split on whitespace runs, no empty parts.
(A token starting at a non-whitespace character `c` is `c` followed by the
maximal further non-whitespace run.) -/
def pySplitGo : Nat → List Char → List String
  | 0, _ => []
  | _, [] => []
  | fuel + 1, c :: rest =>
    if isPyWs c then pySplitGo fuel rest
    else
      let tok := rest.takeWhile (fun x => !isPyWs x)
      ⟨c :: tok⟩ :: pySplitGo fuel (rest.drop tok.length)

def pySplit (s : String) : List String := pySplitGo (s.data.length + 1) s.data

/-- Python `line.split(maxsplit=1)`: the first whitespace-delimited token
and, if anything non-whitespace follows, the remainder with its leading
whitespace removed (trailing whitespace kept). -/
def pySplitMax1 (s : String) : String × Option String :=
  let l := s.data.dropWhile isPyWs
  let tok := l.takeWhile (fun x => !isPyWs x)
  let rest := (l.drop tok.length).dropWhile isPyWs
  (⟨tok⟩, if rest = [] then none else some ⟨rest⟩)

/-- `re.findall(r'"[^"]*"|(?:\S+)', text)` — the `write` tokenizer: a
quoted span (quotes kept, only when a closing quote exists) or a maximal
non-whitespace run. -/
def findallTokensGo : Nat → List Char → List String
  | 0, _ => []
  | _, [] => []
  | fuel + 1, c :: rest =>
    if isPyWs c then findallTokensGo fuel rest
    else if c = '"' && (rest.takeWhile (· ≠ '"')).length < rest.length then
      let inner := rest.takeWhile (· ≠ '"')
      ⟨'"' :: inner ++ ['"']⟩ :: findallTokensGo fuel (rest.drop (inner.length + 1))
    else
      let tok := rest.takeWhile (fun x => !isPyWs x)
      ⟨c :: tok⟩ :: findallTokensGo fuel (rest.drop tok.length)

def findallTokens (l : List Char) : List String := findallTokensGo (l.length + 1) l

/-! ## Data model: errors, values, variable store, state -/

/-- The fatal error sites of the interpreter (each `error(...)` call in the
source), plus `indexError`/`eofError` for uncaught Python exceptions. -/
inductive ErrKind where
  | badVarUsage | unknownVariable | emptyVariable | divisionByZero | nonNumericArith
  | invalidOperator | unknownOperator
  | badVarDecl | duplicateDeclaration | undeclaredVariable | typeMismatch
  | icqTypeMismatch | directIfLine | directWhileLine
  | badMsgSyntax | badWaitSyntax | badWaitTime | badClearDelay
  | unknownCommand | funcNotFound
  | ifDepthExceeded | whileDepthExceeded | badWhileSyntax | loopLimitExceeded
  | indexError | eofError
  | outOfFuel
deriving DecidableEq, Repr

/-- A fatal error: kind plus the originating line number when the `error`
call supplies one. -/
structure Err where
  kind : ErrKind
  ln : Option Nat
deriving DecidableEq, Repr

/-- A runtime value in the variable store: Python `int`, `float` or `str`
(what `execute_line`'s assignment branch stores). -/
inductive PyVal where
  | vint (i : Int)
  | vfloat (q : PFloat)
  | vstr (s : String)
deriving DecidableEq, Repr

/-- Python `str(value)` on a stored value. -/
def valToStr : PyVal → String
  | .vint i => intStr i
  | .vfloat q => pyFloatStr q
  | .vstr s => s

/-- One entry of the `variables` dict: `{"alias": .., "type": .., "value": ..}`. -/
structure VarInfo where
  aliasName : String
  vtype : Option String
  value : Option PyVal
deriving DecidableEq, Repr

/-- An observable effect of execution. -/
inductive OutEvt where
  | text (s : String)
  | clearScreen
  | sleep (q : PFloat)
  | notify (title msg : String)
deriving DecidableEq, Repr

/-- Mutable interpreter state: the `variables` dict (in insertion order),
the emitted effects, and the remaining interactive input lines. -/
structure St where
  vars : List (String × VarInfo)
  out : List OutEvt
  stdin : List String
deriving DecidableEq, Repr

/-- Read-only context: the `functions` dict (populated by `parse_script`)
and whether a toast module imported (`HAVE_TOAST`). -/
structure Ctx where
  funcs : List (String × List (Nat × String))
  haveToast : Bool
deriving DecidableEq, Repr

/-- Python dict lookup on an insertion-ordered association list. -/
def lookupVar : List (String × VarInfo) → String → Option VarInfo
  | [], _ => none
  | (k, v) :: rest, n => if k = n then some v else lookupVar rest n

/-- Python dict assignment: replace in place, or append a new key. -/
def setVar : List (String × VarInfo) → String → VarInfo → List (String × VarInfo)
  | [], n, v => [(n, v)]
  | (k, w) :: rest, n, v =>
    if k = n then (n, v) :: rest else (k, w) :: setVar rest n v

def lookupFn : List (String × List (Nat × String)) → String → Option (List (Nat × String))
  | [], _ => none
  | (k, v) :: rest, n => if k = n then some v else lookupFn rest n

def fnsSet : List (String × List (Nat × String)) → String →
    List (Nat × String) → List (String × List (Nat × String))
  | [], n, v => [(n, v)]
  | (k, w) :: rest, n, v =>
    if k = n then (n, v) :: rest else (k, w) :: fnsSet rest n v

/-- `functions[name].append(p)` (the name is always present: `parse_script`
creates the entry when it sees the `%f` header; on an absent name Python
would raise, which no path reaches). -/
def fnsAppend : List (String × List (Nat × String)) → String →
    Nat × String → List (String × List (Nat × String))
  | [], _, _ => []
  | (k, w) :: rest, n, p =>
    if k = n then (k, w ++ [p]) :: rest else (k, w) :: fnsAppend rest n p

/-- The `COLOR_CODES` dict. -/
def colorCodes : List (String × String) :=
  [("%redtext", "\x1b[91m"), ("%greentext", "\x1b[92m"),
   ("%bluetext", "\x1b[94m"), ("%purpletext", "\x1b[95m"),
   ("%normal", "\x1b[0m")]

def lookupColor : List (String × String) → String → Option String
  | [], _ => none
  | (k, v) :: rest, n => if k = n then some v else lookupColor rest n

/-- `validate_variable_type(var_type, value)`: `%int` must parse as an
integer, `%dec` as a float, `%txt`/`%string` always pass, anything else
(including an unset type, Python `None`) fails. -/
def validateVarType (vtype : Option String) (value : String) : Bool :=
  match vtype with
  | some ty =>
    if ty = "%int" then (pyIntParse value).isSome
    else if ty = "%dec" then (pyFloat value).isSome
    else if ty = "%txt" || ty = "%string" then true
    else false
  | none => false

/-- `token.startswith('"') and token.endswith('"')` (true also for the
single character `"`). -/
def quotedTok (l : List Char) : Bool :=
  l.head? = some '"' && l.getLast? = some '"'

/-- `token[1:-1]`. -/
def innerTok (l : List Char) : List Char := (l.drop 1).dropLast

/-- Decidable equality for `Except` results (used to evaluate the resolver
and condition evaluator on concrete inputs). -/
instance {e a : Type} [DecidableEq e] [DecidableEq a] : DecidableEq (Except e a) :=
  fun x y =>
    match x, y with
    | .ok v, .ok w =>
      if h : v = w then .isTrue (h ▸ rfl)
      else .isFalse (fun hc => h (Except.ok.inj hc))
    | .error v, .error w =>
      if h : v = w then .isTrue (h ▸ rfl)
      else .isFalse (fun hc => h (Except.error.inj hc))
    | .ok _, .error _ => .isFalse (fun hc => Except.noConfusion hc)
    | .error _, .ok _ => .isFalse (fun hc => Except.noConfusion hc)

/-! ## Value resolver (`resolve_value`) -/

theorem length_dropWhile_le (p : Char → Bool) (l : List Char) :
    (l.dropWhile p).length ≤ l.length := by
  induction l with
  | nil => simp [List.dropWhile]
  | cons c rest ih =>
    simp only [List.dropWhile]
    split
    · exact Nat.le_trans ih (by simp)
    · simp

theorem length_pyStripL_le (l : List Char) : (pyStripL l).length ≤ l.length := by
  unfold pyStripL dropTrailing
  have h1 := length_dropWhile_le isPyWs l
  have h2 := length_dropWhile_le isPyWs (l.dropWhile isPyWs).reverse
  simp only [List.length_reverse] at *
  omega

theorem length_pyStrip_le (s : String) : (pyStrip s).length ≤ s.length := by
  show (pyStripL s.data).length ≤ s.data.length
  exact length_pyStripL_le s.data

theorem matchExprAt_lt (l : List Char) (k j : Nat) (a : List Char) (c : Char)
    (b : List Char) (hk : k < l.length)
    (h : matchExprAt l k j = some (a, c, b)) :
    a.length < l.length ∧ b.length < l.length := by
  unfold matchExprAt at h
  split at h
  · next hj =>
    split at h
    · simp only [Option.some.injEq, Prod.mk.injEq] at h
      obtain ⟨ha, -, hb⟩ := h
      subst ha; subst hb
      refine ⟨by simp only [List.length_take]; omega, ?_⟩
      simp only [List.length_drop]; omega
    · split at h
      · simp only [Option.some.injEq, Prod.mk.injEq] at h
        obtain ⟨ha, -, hb⟩ := h
        subst ha; subst hb
        refine ⟨by simp only [List.length_take]; omega, ?_⟩
        simp only [List.length_drop]; omega
      · exact Option.noConfusion h
  · exact Option.noConfusion h

theorem matchExprGo_lt (l : List Char) (fuel : Nat) : ∀ (k : Nat)
    (a : List Char) (c : Char) (b : List Char),
    matchExprGo l fuel k = some (a, c, b) →
    a.length < l.length ∧ b.length < l.length := by
  induction fuel with
  | zero => intro k a c b h; exact Option.noConfusion h
  | succ fuel ih =>
    intro k a c b h
    unfold matchExprGo at h
    split at h
    · next hk =>
      split at h
      · next x hx =>
        cases h
        exact matchExprAt_lt l k _ a c b hk hx
      · next hx => exact ih (k + 1) a c b h
    · exact Option.noConfusion h

theorem matchExpr_lt (t : String) (o1 : String) (c : Char) (o2 : String)
    (h : matchExpr t = some (o1, c, o2)) :
    o1.length < t.length ∧ o2.length < t.length := by
  unfold matchExpr at h
  cases hg : matchExprGo t.data (t.data.length + 1) 1 with
  | none => rw [hg] at h; exact Option.noConfusion h
  | some x =>
    obtain ⟨a, cc, b⟩ := x
    rw [hg] at h
    have hlt := matchExprGo_lt t.data (t.data.length + 1) 1 a cc b hg
    simp only [Option.map_some', Option.some.injEq, Prod.mk.injEq] at h
    obtain ⟨h1, h2, h3⟩ := h
    subst h1; subst h3
    exact hlt

/-- Shared tail of resolver priorities 3 and 4: read a variable's value,
failing when it is unset, and strip surrounding quotes from a stored quoted
string. -/
def varValueStr (info : VarInfo) (ln : Nat) : Except Err String :=
  match info.value with
  | none => .error ⟨.emptyVariable, some ln⟩
  | some v =>
    match v with
    | .vstr s => if quotedTok s.data then .ok ⟨innerTok s.data⟩ else .ok s
    | v => .ok (valToStr v)

/-- The `%var <name>` branch of `resolve_value` (priority 3): split the
token on whitespace, demand exactly two parts (`parts = token.split()`),
and look the second up in the variable store. -/
def varTokenBranch (t : String) (ln : Nat) (st : St) : Except Err String :=
  match pySplit t with
  | [_, vname] =>
    match lookupVar st.vars vname with
    | none => .error ⟨.unknownVariable, some ln⟩
    | some info => varValueStr info ln
  | _ => .error ⟨.badVarUsage, some ln⟩

/-- The body of `resolve_value(token, input_val, line_num)` with explicit
recursion fuel: quoted literal, `%1`, `%var name`, bare variable name,
binary arithmetic, else the token itself.  The recursion (on arithmetic
operands) is on strictly shorter strings (`matchExpr_lt`), so
`token.length + 1` fuel always suffices (`resolveValueF_fuel`); the
`.outOfFuel` outcome is an artifact of the embedding, unreachable at that
fuel. -/
def resolveValueF : Nat → String → String → Nat → St → Except Err String
  | 0, _, _, _, _ => .error ⟨.outOfFuel, none⟩
  | fuel + 1, token, inp, ln, st =>
    let t := pyStrip token
    if quotedTok t.data then .ok ⟨innerTok t.data⟩
    else if t = "%1" then .ok inp
    else if strStarts t "%var" then varTokenBranch t ln st
    else
      match lookupVar st.vars t with
      | some info => varValueStr info ln
      | none =>
        match matchExpr t with
        | some (o1, c, o2) =>
          match resolveValueF fuel (pyStrip o1) inp ln st with
          | .error e => .error e
          | .ok v1 =>
            match resolveValueF fuel (pyStrip o2) inp ln st with
            | .error e => .error e
            | .ok v2 =>
              match pyFloat v1, pyFloat v2 with
              | some q1, some q2 =>
                if c = '+' then .ok (pyFloatStr (q1.add q2))
                else if c = '-' then .ok (pyFloatStr (q1.sub q2))
                else if c = '*' then .ok (pyFloatStr (q1.mul q2))
                else if c = '/' then
                  if q2.num = 0 then .error ⟨.divisionByZero, some ln⟩
                  else .ok (pyFloatStr (q1.div q2))
                else .ok t -- unreachable `return token` guard in the source
              | _, _ => .error ⟨.nonNumericArith, some ln⟩
        | none => .ok t

/-- `resolve_value(token, input_val, line_num)`. -/
def resolveValue (token : String) (inp : String) (ln : Nat) (st : St) :
    Except Err String :=
  resolveValueF (token.length + 1) token inp ln st

/-- Fuel adequacy: any fuel above the token's length gives the same result,
so `resolveValue` is the unbounded recursion of the source. -/
theorem resolveValueF_fuel (n : Nat) : ∀ (token : String), token.length ≤ n →
    ∀ (inp : String) (ln : Nat) (st : St) (f1 f2 : Nat), n < f1 → n < f2 →
    resolveValueF f1 token inp ln st = resolveValueF f2 token inp ln st := by
  induction n with
  | zero =>
    intro token htok inp ln st f1 f2 h1 h2
    obtain ⟨a, rfl⟩ : ∃ a, f1 = a + 1 := ⟨f1 - 1, by omega⟩
    obtain ⟨b, rfl⟩ : ∃ b, f2 = b + 1 := ⟨f2 - 1, by omega⟩
    have htok0 : token.data.length ≤ 0 := htok
    have hme : matchExpr (pyStrip token) = none := by
      unfold matchExpr
      have h1 : (pyStrip token).data.length ≤ token.data.length :=
        length_pyStripL_le token.data
      cases hg : matchExprGo (pyStrip token).data ((pyStrip token).data.length + 1) 1 with
      | none => rfl
      | some x =>
        obtain ⟨xa, xc, xb⟩ := x
        have := matchExprGo_lt _ _ _ _ _ _ hg
        omega
    simp only [resolveValueF, hme]
  | succ n ih =>
    intro token htok inp ln st f1 f2 h1 h2
    obtain ⟨a, rfl⟩ : ∃ a, f1 = a + 1 := ⟨f1 - 1, by omega⟩
    obtain ⟨b, rfl⟩ : ∃ b, f2 = b + 1 := ⟨f2 - 1, by omega⟩
    cases hm : matchExpr (pyStrip token) with
    | none => simp only [resolveValueF, hm]
    | some x =>
      obtain ⟨o1, c, o2⟩ := x
      have hlt := matchExpr_lt (pyStrip token) o1 c o2 hm
      have hst : (pyStrip token).length ≤ token.length := length_pyStrip_le token
      have ho1 : (pyStrip o1).length ≤ n :=
        le_trans (length_pyStrip_le o1) (by omega)
      have ho2 : (pyStrip o2).length ≤ n :=
        le_trans (length_pyStrip_le o2) (by omega)
      simp only [resolveValueF, hm]
      rw [ih (pyStrip o1) ho1 inp ln st a (n + 1) (by omega) (by omega)]
      rw [ih (pyStrip o2) ho2 inp ln st a (n + 1) (by omega) (by omega)]
      rw [ih (pyStrip o1) ho1 inp ln st b (n + 1) (by omega) (by omega)]
      rw [ih (pyStrip o2) ho2 inp ln st b (n + 1) (by omega) (by omega)]

/-- `resolveValue` unfolds to the body with its own recursive occurrences:
the working equation for proofs about symbolic tokens. -/
theorem resolveValue_eq (token : String) (inp : String) (ln : Nat) (st : St) :
    resolveValue token inp ln st =
    (if quotedTok (pyStrip token).data then .ok ⟨innerTok (pyStrip token).data⟩
    else if pyStrip token = "%1" then .ok inp
    else if strStarts (pyStrip token) "%var" then
      varTokenBranch (pyStrip token) ln st
    else
      match lookupVar st.vars (pyStrip token) with
      | some info => varValueStr info ln
      | none =>
        match matchExpr (pyStrip token) with
        | some (o1, c, o2) =>
          match resolveValue (pyStrip o1) inp ln st with
          | .error e => .error e
          | .ok v1 =>
            match resolveValue (pyStrip o2) inp ln st with
            | .error e => .error e
            | .ok v2 =>
              match pyFloat v1, pyFloat v2 with
              | some q1, some q2 =>
                if c = '+' then .ok (pyFloatStr (q1.add q2))
                else if c = '-' then .ok (pyFloatStr (q1.sub q2))
                else if c = '*' then .ok (pyFloatStr (q1.mul q2))
                else if c = '/' then
                  if q2.num = 0 then .error ⟨.divisionByZero, some ln⟩
                  else .ok (pyFloatStr (q1.div q2))
                else .ok (pyStrip token)
              | _, _ => .error ⟨.nonNumericArith, some ln⟩
        | none => .ok (pyStrip token)) := by
  show resolveValueF (token.length + 1) token inp ln st = _
  cases hm : matchExpr (pyStrip token) with
  | none => simp only [resolveValueF, hm]
  | some x =>
    obtain ⟨o1, c, o2⟩ := x
    have hlt := matchExpr_lt (pyStrip token) o1 c o2 hm
    have hst : (pyStrip token).length ≤ token.length := length_pyStrip_le token
    simp only [resolveValueF, hm]
    rw [resolveValueF_fuel ((pyStrip o1).length) (pyStrip o1) (le_refl _) inp ln st
      token.length ((pyStrip o1).length + 1) (by have := length_pyStrip_le o1; omega)
      (by omega)]
    rw [resolveValueF_fuel ((pyStrip o2).length) (pyStrip o2) (le_refl _) inp ln st
      token.length ((pyStrip o2).length + 1) (by have := length_pyStrip_le o2; omega)
      (by omega)]
    rfl

/-! ## Condition evaluator (`evaluate_condition`) -/

/-- `evaluate_condition(lhs_token, operator, rhs_token, input_val,
line_num)`: resolve both tokens; numeric semantics when both resolved
values parse as floats, else string semantics. -/
def evalCondition (lhsTok op rhsTok : String) (inp : String) (ln : Nat)
    (st : St) : Except Err Bool := do
  let lv ← resolveValue lhsTok inp ln st
  let rv ← resolveValue rhsTok inp ln st
  match pyFloat lv, pyFloat rv with
  | some a, some b =>
    if op = "=" then .ok (a.eqv b)
    else if op = "X=" then .ok (!(a.eqv b))
    else if op = ">" then .ok (b.ltv a)
    else if op = "<" then .ok (a.ltv b)
    else if op = ">=" then .ok (b.lev a)
    else if op = "<=" then .ok (a.lev b)
    else if op = "~" || op = "~=" then .error ⟨.invalidOperator, some ln⟩
    else .error ⟨.unknownOperator, some ln⟩
  | _, _ =>
    if op = "=" then .ok (decide (lv = rv))
    else if op = "X=" then .ok (decide (lv ≠ rv))
    else if op = "~" then .ok (strIn lv rv)
    else if op = "~=" then .ok (strIn (strLower lv) (strLower rv))
    else if op = ">" || op = "<" || op = ">=" || op = "<=" then
      .error ⟨.invalidOperator, some ln⟩
    else .error ⟨.unknownOperator, some ln⟩

/-! ## Indentation analyzer (`get_indent_level`, `find_block`) -/

/-- `get_indent_level(line)`: leading spaces count 1, tabs count 4. -/
def indentLevelGo : List Char → Nat
  | [] => 0
  | c :: rest =>
    if c = ' ' then 1 + indentLevelGo rest
    else if c = '\t' then 4 + indentLevelGo rest
    else 0

def indentLevel (s : String) : Nat := indentLevelGo s.data

/-- The scan loop of `find_block`: from `i`, stop at the first blank line,
or at a line with indentation below `indent` provided it is not the start
line itself; else return `total`. -/
def findBlockLoop (lines : List (Nat × String)) (total indent start : Nat) :
    Nat → Nat → Nat
  | 0, i => i
  | fuel + 1, i =>
    if i < total then
      if pyStrip (lines.getD i (0, "")).2 = "" then i
      else if indentLevel (lines.getD i (0, "")).2 < indent ∧ start < i then i
      else findBlockLoop lines total indent start fuel (i + 1)
    else i

/-- `find_block(lines, start_index)`: exclusive end of the block of
indented lines starting at `start_index`. -/
def findBlock (lines : List (Nat × String)) (start : Nat) : Nat :=
  let total := lines.length
  if total ≤ start then start
  else
    findBlockLoop lines total (indentLevel ((lines.getD start (0, "")).2)) start
      (total - start) start


/-! ## Outcomes of execution -/

/-- The outcome of running a piece of the script: success with a value
(carrying the updated input value and state inside `α`), a fatal
interpreter error (with the state at that point), the terminator sentinel
(`sys.exit(0)`), or fuel exhaustion of the embedding. -/
inductive ExecOut (α : Type) where
  | ok (a : α)
  | fail (e : Err) (st : St)
  | halt (st : St)
  | fuelOut
deriving DecidableEq, Repr

/-- Append a text event (`print`). -/
def St.emit (st : St) (s : String) : St := { st with out := st.out ++ [.text s] }

def St.evt (st : St) (e : OutEvt) : St := { st with out := st.out ++ [e] }

/-- Resolve the non-color, non-`%NL%` `write` tokens (`output_parts`),
left to right, stopping at the first resolver error. -/
def writeParts (toks : List String) (inp : String) (ln : Nat) (st : St) :
    Except Err (List String) :=
  match toks with
  | [] => .ok []
  | t0 :: rest =>
    let t := pyStrip t0
    if t = "" then writeParts rest inp ln st
    else
      match lookupColor colorCodes t with
      | some code => (writeParts rest inp ln st).map fun ps => code :: ps
      | none =>
        if t = "%NL%" then (writeParts rest inp ln st).map fun ps => "\n" :: ps
        else
          match resolveValue t inp ln st with
          | .error e => .error e
          | .ok v => (writeParts rest inp ln st).map fun ps => v :: ps

/-- `if not output_parts or output_parts[-1] not in COLOR_CODES.values():
output_parts.append(COLOR_CODES["%normal"])`. -/
def addResetColor (parts : List String) : List String :=
  match parts.getLast? with
  | none => parts ++ ["\x1b[0m"]
  | some lastp =>
    if colorCodes.any fun kv => kv.2 = lastp then parts
    else parts ++ ["\x1b[0m"]

/-! ## Executors

The mutual block mirrors `execute_line`, `run_function`'s main loop (shared
with the driver loop in `main`, whose bodies are line-identical),
`execute_if_else` (with its chain-walking `while` loop as `chainLoop` and
the thrice-repeated inner block loop as `execBlock`) and
`execute_while_loop` (its iteration loop as `whileLoop`).  Every function
consumes one unit of fuel on entry and hands the rest to callees. -/

mutual

/-- `execute_line(line, line_num, input_val)`: the statement executor.
Returns the (possibly updated) input value and state. -/
def execLine : Nat → Ctx → String → Nat → String → St → ExecOut (String × St)
  | 0, _, _, _, _, _ => .fuelOut
  | fuel + 1, ctx, line, ln, inp, st =>
    -- comments / blank lines
    if strStarts line "##" || strStarts line "#" || pyStrip line = "" then
      .ok (inp, st)
    else
      -- %alias = varname
      match matchAlias line with
      | some (al, vn) =>
        if !(identOk al && identOk vn) then .fail ⟨.badVarDecl, some ln⟩ st
        else if (lookupVar st.vars vn).isSome then
          .fail ⟨.duplicateDeclaration, some ln⟩ st
        else .ok (inp, { st with vars := setVar st.vars vn ⟨al, none, none⟩ })
      | none =>
      -- varname = %type
      match matchVarType line with
      | some (vn, ty) =>
        match lookupVar st.vars vn with
        | none => .fail ⟨.badVarDecl, some ln⟩ st
        | some info =>
          .ok (inp, { st with vars := setVar st.vars vn { info with vtype := some ty } })
      | none =>
      -- varname%value = expr
      match matchAssign line with
      | some (vn, valStr) =>
        match lookupVar st.vars vn with
        | none => .fail ⟨.undeclaredVariable, some ln⟩ st
        | some info =>
          match resolveValue valStr inp ln st with
          | .error e => .fail e st
          | .ok val =>
            if !validateVarType info.vtype val then .fail ⟨.typeMismatch, some ln⟩ st
            else
              let pv : PyVal :=
                if info.vtype = some "%int" then .vint ((pyIntParse val).getD 0)
                else if info.vtype = some "%dec" then .vfloat ((pyFloat val).getD ⟨0, 1⟩)
                else .vstr val
              .ok (inp, { st with vars := setVar st.vars vn { info with value := some pv } })
      | none =>
      -- %icq "Prompt" %type
      match icqMatch line with
      | some (prompt, ety) =>
        match st.stdin with
        | [] => .fail ⟨.eofError, some ln⟩ (st.emit (prompt ++ " "))
        | u :: restIn =>
          let st1 := { st.emit (prompt ++ " ") with stdin := restIn }
          if validateVarType (some ety) u then .ok (u, st1)
          else .fail ⟨.icqTypeMismatch, some ln⟩ st1
      | none =>
      -- direct control-flow lines are internal errors here
      if strStarts line "%if" || line = "%else" then .fail ⟨.directIfLine, some ln⟩ st
      else if strStarts line "%while" then .fail ⟨.directWhileLine, some ln⟩ st
      -- write ...
      else if strStarts line "write" then
        let toks := findallTokens (pyStrip ⟨line.data.drop 5⟩).data
        match writeParts toks inp ln st with
        | .error e => .fail e st
        | .ok parts =>
          .ok (inp, st.emit (String.join (addResetColor parts)))
      -- send %NL%
      else if strStarts line "send" && strIn line "%NL%" then
        .ok (inp, st.emit "\n")
      -- msg %title .. %subtitle ..
      else if strStarts line "msg" then
        if !ctx.haveToast then
          .ok (inp, st.emit "[Notification skipped: No toast module installed]\n")
        else
          match msgFind line.data with
          | none => .fail ⟨.badMsgSyntax, some ln⟩ st
          | some (tTok, sTok) =>
            match resolveValue tTok inp ln st with
            | .error e => .fail e st
            | .ok tv =>
              match resolveValue sTok inp ln st with
              | .error e => .fail e st
              | .ok sv => .ok (inp, st.evt (.notify tv sv))
      -- wait seconds
      else if strStarts line "wait" then
        match pySplit line with
        | [_, arg] =>
          match pyFloat arg with
          | some q =>
            -- time.sleep raises on a negative argument; the bare `except`
            -- turns both that and a parse failure into "Invalid wait time"
            if q.num < 0 then .fail ⟨.badWaitTime, some ln⟩ st
            else .ok (inp, st.evt (.sleep q))
          | none => .fail ⟨.badWaitTime, some ln⟩ st
        | _ => .fail ⟨.badWaitSyntax, some ln⟩ st
      -- clear_console [delay]
      else if strStarts line "clear_console" then
        match (pySplitMax1 line).2 with
        | none => .ok (inp, st.evt .clearScreen)
        | some restArg =>
          match resolveValue (pyStrip restArg) inp ln st with
          | .error e => .fail e st
          | .ok dval =>
            match pyFloat dval with
            | none => .fail ⟨.badClearDelay, some ln⟩ st
            | some q =>
              let st1 := if 0 < q.num then st.evt (.sleep q) else st
              .ok (inp, st1.evt .clearScreen)
      else
        -- subroutine invocation
        match lookupFn ctx.funcs line with
        | some _ =>
          match runFunction fuel ctx line inp st with
          | .ok (inp2, st2) => .ok (inp2, st2)
          | .fail e s => .fail e s
          | .halt s => .halt s
          | .fuelOut => .fuelOut
        | none =>
          -- terminator sentinel
          if strStarts line "einid cimidisiciriiipit" then .halt st
          else .fail ⟨.unknownCommand, some ln⟩ st

termination_by structural fuel => fuel

/-- `run_function(func_name, input_val)` after the membership check: the
shared statement loop over a line list (the loop bodies of `run_function`
and of `main` are identical).  `i` is the loop index. -/
def runLines : Nat → Ctx → List (Nat × String) → Nat → String → St →
    ExecOut (String × St)
  | 0, _, _, _, _, _ => .fuelOut
  | fuel + 1, ctx, lines, i, inp, st =>
    if i < lines.length then
      let p := lines.getD i (0, "")
      if strStarts p.2 "%if" || p.2 = "%else" then
        match execIfElse fuel ctx lines i inp st 0 with
        | .ok (i2, inp2, st2) => runLines fuel ctx lines i2 inp2 st2
        | .fail e s => .fail e s
        | .halt s => .halt s
        | .fuelOut => .fuelOut
      else if strStarts p.2 "%while" then
        match execWhile fuel ctx lines i inp st 0 with
        | .ok (i2, inp2, st2) => runLines fuel ctx lines i2 inp2 st2
        | .fail e s => .fail e s
        | .halt s => .halt s
        | .fuelOut => .fuelOut
      else
        match execLine fuel ctx p.2 p.1 inp st with
        | .ok (inp2, st2) => runLines fuel ctx lines (i + 1) inp2 st2
        | .fail e s => .fail e s
        | .halt s => .halt s
        | .fuelOut => .fuelOut
    else .ok (inp, st)

termination_by structural fuel => fuel

/-- `run_function(func_name, input_val)`. -/
def runFunction : Nat → Ctx → String → String → St → ExecOut (String × St)
  | 0, _, _, _, _ => .fuelOut
  | fuel + 1, ctx, name, inp, st =>
    match lookupFn ctx.funcs name with
    | none => .fail ⟨.funcNotFound, none⟩ st
    | some body => runLines fuel ctx body 0 inp st

termination_by structural fuel => fuel

/-- `execute_if_else(lines, start_idx, input_val, depth)`. -/
def execIfElse : Nat → Ctx → List (Nat × String) → Nat → String → St → Nat →
    ExecOut (Nat × String × St)
  | 0, _, _, _, _, _, _ => .fuelOut
  | fuel + 1, ctx, lines, start, inp, st, depth =>
    match lines[start]? with
    | none => .fail ⟨.indexError, none⟩ st
    | some (n0, t0) =>
      if 16 ≤ depth then .fail ⟨.ifDepthExceeded, some n0⟩ st
      else chainLoop fuel ctx lines start (indentLevel t0) start false inp st depth

termination_by structural fuel => fuel

/-- The chain-walking `while idx < total` loop of `execute_if_else`:
`executed` is `executed_a_branch_in_this_chain`. -/
def chainLoop : Nat → Ctx → List (Nat × String) → Nat → Nat → Nat → Bool →
    String → St → Nat → ExecOut (Nat × String × St)
  | 0, _, _, _, _, _, _, _, _, _ => .fuelOut
  | fuel + 1, ctx, lines, start, initIndent, idx, executed, inp, st, depth =>
    if idx < lines.length then
      let p := lines.getD idx (0, "")
      let s := pyStrip p.2
      if s = "" ∨ (indentLevel p.2 < initIndent ∧ start < idx) then
        .ok (idx, inp, st)
      else
        match matchCond "%if" s with
        | some (lh, op, rh) =>
          if executed then
            chainLoop fuel ctx lines start initIndent
              (findBlock lines (idx + 1)) true inp st depth
          else
            match evalCondition (pyStrip lh) (pyStrip op) (pyStrip rh) inp p.1 st with
            | .error e => .fail e st
            | .ok cond =>
              if cond then
                match execBlock fuel ctx lines (idx + 1) (findBlock lines (idx + 1)) inp st depth with
                | .ok (inp2, st2) =>
                  chainLoop fuel ctx lines start initIndent
                    (findBlock lines (idx + 1)) true inp2 st2 depth
                | .fail e s2 => .fail e s2
                | .halt s2 => .halt s2
                | .fuelOut => .fuelOut
              else
                chainLoop fuel ctx lines start initIndent
                  (findBlock lines (idx + 1)) false inp st depth
        | none =>
          if s = "%else" then
            if executed then
              chainLoop fuel ctx lines start initIndent
                (findBlock lines (idx + 1)) true inp st depth
            else
              match execBlock fuel ctx lines (idx + 1) (findBlock lines (idx + 1)) inp st depth with
              | .ok (inp2, st2) =>
                chainLoop fuel ctx lines start initIndent
                  (findBlock lines (idx + 1)) true inp2 st2 depth
              | .fail e s2 => .fail e s2
              | .halt s2 => .halt s2
              | .fuelOut => .fuelOut
          else .ok (idx, inp, st)
    else .ok (idx, inp, st)

termination_by structural fuel => fuel

/-- The inner `while current_block_idx < block_end` loop executing a block
body (it appears verbatim three times in the source: both `execute_if_else`
branches and `execute_while_loop`): dispatch each line to the nested
conditional executor (`depth + 1`), the nested loop executor (`depth + 1`),
or the statement executor. -/
def execBlock : Nat → Ctx → List (Nat × String) → Nat → Nat → String → St →
    Nat → ExecOut (String × St)
  | 0, _, _, _, _, _, _, _ => .fuelOut
  | fuel + 1, ctx, lines, cur, bEnd, inp, st, depth =>
    if cur < bEnd then
      let p := lines.getD cur (0, "")
      if strStarts p.2 "%if" || p.2 = "%else" then
        match execIfElse fuel ctx lines cur inp st (depth + 1) with
        | .ok (i2, inp2, st2) => execBlock fuel ctx lines i2 bEnd inp2 st2 depth
        | .fail e s => .fail e s
        | .halt s => .halt s
        | .fuelOut => .fuelOut
      else if strStarts p.2 "%while" then
        match execWhile fuel ctx lines cur inp st (depth + 1) with
        | .ok (i2, inp2, st2) => execBlock fuel ctx lines i2 bEnd inp2 st2 depth
        | .fail e s => .fail e s
        | .halt s => .halt s
        | .fuelOut => .fuelOut
      else
        match execLine fuel ctx p.2 p.1 inp st with
        | .ok (inp2, st2) => execBlock fuel ctx lines (cur + 1) bEnd inp2 st2 depth
        | .fail e s => .fail e s
        | .halt s => .halt s
        | .fuelOut => .fuelOut
    else .ok (inp, st)

termination_by structural fuel => fuel

/-- `execute_while_loop(lines, start_idx, input_val, depth)`. -/
def execWhile : Nat → Ctx → List (Nat × String) → Nat → String → St → Nat →
    ExecOut (Nat × String × St)
  | 0, _, _, _, _, _, _ => .fuelOut
  | fuel + 1, ctx, lines, start, inp, st, depth =>
    match lines[start]? with
    | none => .fail ⟨.indexError, none⟩ st
    | some (n0, t0) =>
      if 16 ≤ depth then .fail ⟨.whileDepthExceeded, some n0⟩ st
      else
        match matchCond "%while" (pyStrip t0) with
        | none => .fail ⟨.badWhileSyntax, some n0⟩ st
        | some (lh, op, rh) =>
          match whileLoop fuel ctx lines lh op rh n0 (start + 1)
              (findBlock lines (start + 1)) 0 inp st depth with
          | .ok (inp2, st2) => .ok (findBlock lines (start + 1), inp2, st2)
          | .fail e s => .fail e s
          | .halt s => .halt s
          | .fuelOut => .fuelOut

termination_by structural fuel => fuel

/-- The `while True` iteration loop of `execute_while_loop`: `count` is
`loop_count` before the increment at the top of an iteration; the ceiling
`MAX_LOOP_ITERATIONS` is 10000. -/
def whileLoop : Nat → Ctx → List (Nat × String) → String → String → String →
    Nat → Nat → Nat → Nat → String → St → Nat → ExecOut (String × St)
  | 0, _, _, _, _, _, _, _, _, _, _, _, _ => .fuelOut
  | fuel + 1, ctx, lines, lh, op, rh, ln, bStart, bEnd, count, inp, st, depth =>
    if 10000 < count + 1 then .fail ⟨.loopLimitExceeded, some ln⟩ st
    else
      match evalCondition lh op rh inp ln st with
      | .error e => .fail e st
      | .ok false => .ok (inp, st)
      | .ok true =>
        match execBlock fuel ctx lines bStart bEnd inp st depth with
        | .ok (inp2, st2) =>
          whileLoop fuel ctx lines lh op rh ln bStart bEnd (count + 1) inp2 st2 depth
        | .fail e s => .fail e s
        | .halt s => .halt s
        | .fuelOut => .fuelOut


termination_by structural fuel => fuel
end

/-! ## Parse pass (`parse_script`) and driver (`main`) -/

/-- The body of `parse_script`'s `for` loop, recursing over the remaining
raw lines.  `ln` is the 1-based line number of the next line, `cur` the
currently-open subroutine (`current_function` when `inside_function`),
`fns` the `functions` dict so far.  Returns the top-level statement list
and the final subroutine table. -/
def parseAux (ln : Nat) (cur : Option String)
    (fns : List (String × List (Nat × String))) :
    List String → List (Nat × String) × List (String × List (Nat × String))
  | [] => ([], fns)
  | line :: rest =>
    let raw := pyRstripNewline line
    let s := pyStrip raw
    if s = "" || strStarts s "#" then parseAux (ln + 1) cur fns rest
    else
      match pctFMatch s with
      | some g => parseAux (ln + 1) (some (pyStrip g)) (fnsSet fns (pyStrip g) []) rest
      | none =>
        match cur with
        | some f =>
          if strStarts raw " " || strStarts raw "\t" then
            parseAux (ln + 1) (some f) (fnsAppend fns f (ln, s)) rest
          else
            let r := parseAux (ln + 1) none fns rest
            ((ln, s) :: r.1, r.2)
        | none =>
          let r := parseAux (ln + 1) none fns rest
          ((ln, s) :: r.1, r.2)

/-- `parse_script(lines)`. -/
def parseScript (lines : List String) :
    List (Nat × String) × List (String × List (Nat × String)) :=
  parseAux 1 none [] lines

/-- The execution part of `main` (after file loading): parse, run the
top-level statements from index 0 with the invocation input, auto-run
`Main` when defined, then print the finish banner. -/
def runScript (fuel : Nat) (haveToast : Bool) (lines : List String)
    (inp0 : String) (stdin : List String) : ExecOut (String × St) :=
  let pr := parseScript lines
  let ctx : Ctx := ⟨pr.2, haveToast⟩
  match runLines fuel ctx pr.1 0 inp0 ⟨[], [], stdin⟩ with
  | .ok (inp1, st1) =>
    match lookupFn pr.2 "Main" with
    | some _ =>
      match runFunction fuel ctx "Main" inp1 st1 with
      | .ok (inp2, st2) => .ok (inp2, st2.emit "\n\u2714\uFE0F Script finished.\n")
      | .fail e s => .fail e s
      | .halt s => .halt s
      | .fuelOut => .fuelOut
    | none => .ok (inp1, st1.emit "\n\u2714\uFE0F Script finished.\n")
  | .fail e s => .fail e s
  | .halt s => .halt s
  | .fuelOut => .fuelOut


/-! ## Outcome erasure and parse numbering (for the inlining analysis)

`eraseOut`/`eraseEx` forget the line number attached to a failure, keeping
its kind and state: the congruence under line renumbering is stated up to
this erasure.  `numberFrom` is the line numbering the parse pass assigns. -/


def eraseOut {a : Type} : ExecOut a → ExecOut a
  | .fail e s => .fail ⟨e.kind, none⟩ s
  | r => r

def eraseEx {a : Type} : Except Err a → Except Err a
  | .error e => .error ⟨e.kind, none⟩
  | r => r

def numberFrom : Nat → List String → List (Nat × String)
  | _, [] => []
  | n, b :: r => (n, b) :: numberFrom (n + 1) r


/-! ## General lemmas about `find_block` -/

theorem getD_append_right {α : Type} (xs ys : List α) (d : α) (i : Nat)
    (h : xs.length ≤ i) : (xs ++ ys).getD i d = ys.getD (i - xs.length) d := by
  simp only [List.getD, List.get?_eq_getElem?, List.getElem?_append_right h]

theorem getD_append_left {α : Type} (xs ys : List α) (d : α) (i : Nat)
    (h : i < xs.length) : (xs ++ ys).getD i d = xs.getD i d := by
  simp only [List.getD, List.get?_eq_getElem?]
  rw [List.getElem?_append]
  simp [h]

theorem getD_mem {α : Type} (xs : List α) (d : α) (i : Nat)
    (h : i < xs.length) : xs.getD i d ∈ xs := by
  simp only [List.getD, List.get?_eq_getElem?, List.getElem?_eq_getElem h]
  exact List.getElem_mem h

/-- The loop condition on which `find_block`'s scan stops at index `j`
(given the scan's reference indentation and start index). -/
def blockStops (lines : List (Nat × String)) (indent start j : Nat) : Prop :=
  pyStrip (lines.getD j (0, "")).2 = "" ∨
    (indentLevel (lines.getD j (0, "")).2 < indent ∧ start < j)

/-- `findBlockLoop` returns the first index at or after `i` where the scan
stops (or `total`): full characterization, for sufficient fuel. -/
theorem findBlockLoop_spec (lines : List (Nat × String))
    (total indent start : Nat) (fuel : Nat) : ∀ (i : Nat), i ≤ total →
    total ≤ fuel + i →
    i ≤ findBlockLoop lines total indent start fuel i ∧
    findBlockLoop lines total indent start fuel i ≤ total ∧
    (∀ j, i ≤ j → j < findBlockLoop lines total indent start fuel i →
      ¬ blockStops lines indent start j) ∧
    (findBlockLoop lines total indent start fuel i < total →
      blockStops lines indent start (findBlockLoop lines total indent start fuel i)) := by
  induction fuel with
  | zero =>
    intro i hi hf
    simp only [findBlockLoop]
    refine ⟨le_refl _, hi, ?_, ?_⟩
    · intro j hj1 hj2; omega
    · intro hc; omega
  | succ fuel ih =>
    intro i hi hf
    simp only [findBlockLoop]
    split
    · next h =>
      split
      · next hblank =>
        refine ⟨le_refl _, le_of_lt h, ?_, ?_⟩
        · intro j hj1 hj2; omega
        · intro _; left; exact hblank
      · next hblank =>
        split
        · next hded =>
          refine ⟨le_refl _, le_of_lt h, ?_, ?_⟩
          · intro j hj1 hj2; omega
          · intro _; right; exact hded
        · next hded =>
          have IH := ih (i + 1) (by omega) (by omega)
          refine ⟨by omega, IH.2.1, ?_, IH.2.2.2⟩
          intro j hj1 hj2
          rcases Nat.eq_or_lt_of_le hj1 with rfl | hlt
          · intro hc
            rcases hc with hb | hd
            · exact hblank hb
            · exact hded hd
          · exact IH.2.2.1 j hlt hj2
    · next h =>
      refine ⟨le_refl _, by omega, ?_, ?_⟩
      · intro j hj1 hj2; omega
      · intro hc; omega

/-- If nothing stops the scan in `[start, e)` and `e` is the list's end or
a stopping index, then `find_block` returns exactly `e`. -/
theorem findBlock_eq_of (lines : List (Nat × String)) (start e : Nat)
    (hs : start < lines.length) (hse : start ≤ e) (he : e ≤ lines.length)
    (hnb : ∀ j, start ≤ j → j < e →
      ¬ blockStops lines (indentLevel ((lines.getD start (0, "")).2)) start j)
    (hstop : e = lines.length ∨
      blockStops lines (indentLevel ((lines.getD start (0, "")).2)) start e) :
    findBlock lines start = e := by
  unfold findBlock
  rw [if_neg (by omega)]
  set ind0 := indentLevel ((lines.getD start (0, "")).2) with hind0
  have hspec := findBlockLoop_spec lines lines.length ind0 start
    (lines.length - start) start (le_of_lt hs) (by omega)
  set r := findBlockLoop lines lines.length ind0 start (lines.length - start) start with hr
  rcases lt_trichotomy r e with hlt | heq | hgt
  · exact absurd (hspec.2.2.2 (by omega)) (hnb r hspec.1 hlt)
  · exact heq
  · rcases hstop with rfl | hstop
    · omega
    · exact absurd hstop (hspec.2.2.1 e hse hgt)

/-- `find_block` on a decomposed list `P ++ b ++ R`, starting at the first
line of a non-blank body `b` whose lines are all indented at least as much
as its first line, ends exactly at the end of `b` provided `R` is empty or
begins with a blank or dedented (below `b`'s first line) line. -/
theorem findBlock_of_parts (P b R : List (Nat × String)) (hb : b ≠ [])
    (hnb : ∀ p ∈ b, pyStrip p.2 ≠ "")
    (hind : ∀ p ∈ b, indentLevel ((b.getD 0 (0, "")).2) ≤ indentLevel p.2)
    (hR : R = [] ∨ pyStrip ((R.getD 0 (0, "")).2) = "" ∨
      indentLevel ((R.getD 0 (0, "")).2) < indentLevel ((b.getD 0 (0, "")).2)) :
    findBlock (P ++ (b ++ R)) P.length = P.length + b.length := by
  have hblen : 0 < b.length := List.length_pos.mpr hb
  have hlen : (P ++ (b ++ R)).length = P.length + b.length + R.length := by
    simp [List.length_append]; omega
  have hget0 : (P ++ (b ++ R)).getD P.length (0, "") = b.getD 0 (0, "") := by
    rw [getD_append_right _ _ _ _ (le_refl _), Nat.sub_self]
    rw [getD_append_left _ _ _ _ hblen]
  have hgetb : ∀ k, k < b.length →
      (P ++ (b ++ R)).getD (P.length + k) (0, "") = b.getD k (0, "") := by
    intro k hk
    rw [getD_append_right _ _ _ _ (by omega), Nat.add_sub_cancel_left]
    exact getD_append_left _ _ _ _ hk
  apply findBlock_eq_of
  · omega
  · omega
  · omega
  · intro j hj1 hj2 hstop
    have hkb : j - P.length < b.length := by omega
    have hgj : (P ++ (b ++ R)).getD j (0, "") = b.getD (j - P.length) (0, "") := by
      have := hgetb (j - P.length) hkb
      rwa [show P.length + (j - P.length) = j from by omega] at this
    simp only [blockStops] at hstop
    rw [hget0, hgj] at hstop
    have hmem : b.getD (j - P.length) (0, "") ∈ b := getD_mem b _ _ hkb
    rcases hstop with hbl | hde
    · exact hnb _ hmem hbl
    · exact absurd hde.1 (by simpa using hind _ hmem)
  · rcases hR with rfl | hR
    · left; simp [List.length_append]
    · right
      have hgr : (P ++ (b ++ R)).getD (P.length + b.length) (0, "") = R.getD 0 (0, "") := by
        rw [getD_append_right _ _ _ _ (by omega)]
        rw [show P.length + b.length - P.length = b.length from by omega]
        rw [getD_append_right _ _ _ _ (le_refl _), Nat.sub_self]
      simp only [blockStops]
      rw [hget0, hgr]
      rcases hR with hbl | hde
      · left; exact hbl
      · right; exact ⟨hde, by omega⟩

/-- On a list of non-blank, zero-indentation lines (the shape `parse_script`
produces), `find_block` never stops: it always returns the list's length. -/
theorem findBlock_flat (lines : List (Nat × String))
    (hflat : ∀ p ∈ lines, pyStrip p.2 ≠ "" ∧ indentLevel p.2 = 0)
    (start : Nat) (hs : start < lines.length) :
    findBlock lines start = lines.length := by
  apply findBlock_eq_of lines start lines.length hs (le_of_lt hs) (le_refl _)
  · intro j hj1 hj2 hstop
    have hmem := getD_mem lines (0, "") j hj2
    have hmem0 := getD_mem lines (0, "") start hs
    rcases hstop with hbl | hde
    · exact (hflat _ hmem).1 hbl
    · rw [(hflat _ hmem).2, (hflat _ hmem0).2] at hde; omega
  · left; rfl


/-! ## Claims -/

/-- Claim C4, counterexample to the claim as stated: for the valid start
index 0 of the single-line list whose line is blank, `find_block` returns
the start index 0 itself.  The claim predicts "the first index after start
at which the line is blank or dedented, else the length of the list",
which here is 1 (no index after 0 exists), and also asserts the start line
is "included regardless of the comparison" — but the blank-line check
applies to the start line too, so 0 is returned. -/
theorem c4_counterexample :
    0 < ([((1 : Nat), "")] : List (Nat × String)).length ∧
    findBlock [((1 : Nat), "")] 0 = 0 ∧
    findBlock [((1 : Nat), "")] 0 ≠ ([((1 : Nat), "")] : List (Nat × String)).length := by
  refine ⟨by simp, ?_, ?_⟩ <;>
    simp [findBlock, findBlockLoop, pyStrip, pyStripL, dropTrailing]

/-- Claim C4 (amended): for every list of lines and every in-range start
index, `find_block` returns the start index itself when the start line is
blank; otherwise it returns the first index strictly after start at which
the line is blank or has indentation (tabs counting 4 columns, spaces 1)
strictly below the start line's indentation — the start line being exempt
from the indentation comparison only — and the length of the list when no
such index exists. -/
theorem c4_findBlock_characterization (lines : List (Nat × String))
    (start : Nat) (h : start < lines.length) :
    (pyStrip ((lines.getD start (0, "")).2) = "" → findBlock lines start = start) ∧
    (pyStrip ((lines.getD start (0, "")).2) ≠ "" →
      start < findBlock lines start ∧
      findBlock lines start ≤ lines.length ∧
      (∀ j, start < j → j < findBlock lines start →
        ¬ blockStops lines (indentLevel ((lines.getD start (0, "")).2)) start j) ∧
      (findBlock lines start < lines.length →
        blockStops lines (indentLevel ((lines.getD start (0, "")).2)) start
          (findBlock lines start))) := by
  have hunf : findBlock lines start =
      findBlockLoop lines lines.length
        (indentLevel ((lines.getD start (0, "")).2)) start
        (lines.length - start) start := by
    unfold findBlock
    rw [if_neg (by omega)]
  have hspec := findBlockLoop_spec lines lines.length
    (indentLevel ((lines.getD start (0, "")).2)) start
    (lines.length - start) start (le_of_lt h) (by omega)
  rw [← hunf] at hspec
  constructor
  · intro hblank
    by_contra hne
    have hlt : start < findBlock lines start :=
      lt_of_le_of_ne hspec.1 (fun hx => hne hx.symm)
    exact hspec.2.2.1 start (le_refl _) hlt (Or.inl hblank)
  · intro hnblank
    refine ⟨?_, hspec.2.1, ?_, hspec.2.2.2⟩
    · rcases Nat.eq_or_lt_of_le hspec.1 with heq | hlt
      · exfalso
        have hstop := hspec.2.2.2 (by omega)
        rw [← heq] at hstop
        rcases hstop with hbl | hde
        · exact hnblank hbl
        · omega
      · exact hlt
    · intro j hj1 hj2
      exact hspec.2.2.1 j (le_of_lt hj1) hj2

/-- Witness for `c4_findBlock_characterization` at a concrete block: a
two-line body under a dedented third line. -/
theorem c4_witness :
    (pyStrip ((([((1 : Nat), "  a"), (2, "  b"), (3, "c")] : List (Nat × String)).getD 0 (0, "")).2) = "" →
      findBlock [((1 : Nat), "  a"), (2, "  b"), (3, "c")] 0 = 0) ∧
    (pyStrip ((([((1 : Nat), "  a"), (2, "  b"), (3, "c")] : List (Nat × String)).getD 0 (0, "")).2) ≠ "" →
      0 < findBlock [((1 : Nat), "  a"), (2, "  b"), (3, "c")] 0 ∧
      findBlock [((1 : Nat), "  a"), (2, "  b"), (3, "c")] 0 ≤
        ([((1 : Nat), "  a"), (2, "  b"), (3, "c")] : List (Nat × String)).length ∧
      (∀ j, 0 < j → j < findBlock [((1 : Nat), "  a"), (2, "  b"), (3, "c")] 0 →
        ¬ blockStops [((1 : Nat), "  a"), (2, "  b"), (3, "c")]
          (indentLevel ((([((1 : Nat), "  a"), (2, "  b"), (3, "c")] : List (Nat × String)).getD 0 (0, "")).2)) 0 j) ∧
      (findBlock [((1 : Nat), "  a"), (2, "  b"), (3, "c")] 0 <
        ([((1 : Nat), "  a"), (2, "  b"), (3, "c")] : List (Nat × String)).length →
        blockStops [((1 : Nat), "  a"), (2, "  b"), (3, "c")]
          (indentLevel ((([((1 : Nat), "  a"), (2, "  b"), (3, "c")] : List (Nat × String)).getD 0 (0, "")).2)) 0
          (findBlock [((1 : Nat), "  a"), (2, "  b"), (3, "c")] 0))) :=
  c4_findBlock_characterization [((1 : Nat), "  a"), (2, "  b"), (3, "c")] 0 (by simp)


/-! ## Lemmas about stripped strings (for the parse-pass invariant) -/

theorem dropWhile_head_not (p : Char → Bool) (l : List Char) (c : Char)
    (rest : List Char) (h : l.dropWhile p = c :: rest) : p c = false := by
  induction l with
  | nil => exact absurd h (by simp [List.dropWhile])
  | cons a as ih =>
    simp only [List.dropWhile] at h
    split at h
    · exact ih h
    · next hpa =>
      cases h
      exact Bool.not_eq_true _ ▸ (by simpa using hpa)

/-- The first character of a stripped string is not whitespace. -/
theorem pyStripL_head_not_ws (l : List Char) (c : Char) (rest : List Char)
    (h : pyStripL l = c :: rest) : isPyWs c = false := by
  unfold pyStripL dropTrailing at h
  have hpre : ((l.dropWhile isPyWs).reverse.dropWhile isPyWs).reverse <+:
      l.dropWhile isPyWs := by
    have hs := List.dropWhile_suffix (l := (l.dropWhile isPyWs).reverse) isPyWs
    have := List.reverse_prefix.mpr hs
    simpa using this
  rw [h] at hpre
  obtain ⟨t, ht⟩ := hpre
  exact dropWhile_head_not isPyWs l c (rest ++ t) ht.symm

/-- A stripped string has zero indentation. -/
theorem indentLevel_pyStrip (s : String) : indentLevel (pyStrip s) = 0 := by
  show indentLevelGo (pyStripL s.data) = 0
  cases h : pyStripL s.data with
  | nil => simp [indentLevelGo]
  | cons c rest =>
    have hc := pyStripL_head_not_ws s.data c rest h
    simp only [indentLevelGo]
    have h1 : c ≠ ' ' := by rintro rfl; simp [isPyWs] at hc
    have h2 : c ≠ '\t' := by rintro rfl; simp [isPyWs] at hc
    rw [if_neg h1, if_neg h2]

theorem dropWhile_eq_self_of_head (p : Char → Bool) (l : List Char)
    (h : ∀ c rest, l = c :: rest → p c = false) : l.dropWhile p = l := by
  cases l with
  | nil => simp [List.dropWhile]
  | cons c rest => simp [List.dropWhile, h c rest rfl]

/-- `str.strip()` is idempotent. -/
theorem pyStripL_idem (l : List Char) : pyStripL (pyStripL l) = pyStripL l := by
  have hhead : (pyStripL l).dropWhile isPyWs = pyStripL l :=
    dropWhile_eq_self_of_head isPyWs (pyStripL l)
      (fun c rest h => pyStripL_head_not_ws l c rest h)
  have hrev : (pyStripL l).reverse =
      List.dropWhile isPyWs (l.dropWhile isPyWs).reverse := by
    simp [pyStripL, dropTrailing]
  have htail : List.dropWhile isPyWs (pyStripL l).reverse = (pyStripL l).reverse := by
    rw [hrev]
    exact dropWhile_eq_self_of_head isPyWs _
      (fun c rest h => dropWhile_head_not isPyWs _ c rest h)
  show dropTrailing isPyWs ((pyStripL l).dropWhile isPyWs) = pyStripL l
  rw [hhead]
  show ((pyStripL l).reverse.dropWhile isPyWs).reverse = pyStripL l
  rw [htail, List.reverse_reverse]

theorem pyStrip_idem (s : String) : pyStrip (pyStrip s) = pyStrip s := by
  show (⟨pyStripL (pyStripL s.data)⟩ : String) = ⟨pyStripL s.data⟩
  rw [pyStripL_idem]


/-! ## Claim C5: invariants of the parse pass -/

/-- The property C5 asserts of every parsed line: stored stripped (hence
also with leading whitespace removed), non-blank, and of measured
indentation 0. -/
def parsedLineOk (p : Nat × String) : Prop :=
  p.2 ≠ "" ∧ pyStrip p.2 = p.2 ∧ indentLevel p.2 = 0

theorem parsedLineOk_of_strip (ln : Nat) (raw : String)
    (hne : pyStrip raw ≠ "") : parsedLineOk (ln, pyStrip raw) := by
  refine ⟨hne, ?_, ?_⟩
  · exact pyStrip_idem raw
  · exact indentLevel_pyStrip raw

theorem mem_fnsSet (fns : List (String × List (Nat × String))) (n : String)
    (v : List (Nat × String)) (fb : String × List (Nat × String))
    (h : fb ∈ fnsSet fns n v) : fb = (n, v) ∨ fb ∈ fns := by
  induction fns with
  | nil =>
    simp only [fnsSet, List.mem_singleton] at h
    left; exact h
  | cons e rest ih =>
    simp only [fnsSet] at h
    split at h
    · rcases List.mem_cons.mp h with h1 | h1
      · left; exact h1
      · right; exact List.mem_cons_of_mem e h1
    · rcases List.mem_cons.mp h with h1 | h1
      · right; rw [h1]; exact List.mem_cons_self e rest
      · rcases ih h1 with h2 | h2
        · left; exact h2
        · right; exact List.mem_cons_of_mem e h2

theorem mem_fnsAppend (fns : List (String × List (Nat × String))) (n : String)
    (q : Nat × String) (fb : String × List (Nat × String))
    (h : fb ∈ fnsAppend fns n q) (p : Nat × String) (hp : p ∈ fb.2) :
    p = q ∨ ∃ fb2 ∈ fns, p ∈ fb2.2 := by
  induction fns generalizing fb with
  | nil => simp [fnsAppend] at h
  | cons e rest ih =>
    simp only [fnsAppend] at h
    split at h
    · rcases List.mem_cons.mp h with h1 | h1
      · rw [h1] at hp
        simp only [List.mem_append, List.mem_singleton] at hp
        rcases hp with hp | hp
        · right; exact ⟨e, List.mem_cons_self e rest, hp⟩
        · left; exact hp
      · right; exact ⟨fb, List.mem_cons_of_mem e h1, hp⟩
    · rcases List.mem_cons.mp h with h1 | h1
      · right
        refine ⟨e, List.mem_cons_self e rest, ?_⟩
        rw [h1] at hp; exact hp
      · rcases ih fb h1 hp with h2 | h2
        · left; exact h2
        · obtain ⟨fb2, hfb2, hpfb2⟩ := h2
          right; exact ⟨fb2, List.mem_cons_of_mem e hfb2, hpfb2⟩

/-- Induction invariant for `parseAux`: when every line already stored in
the subroutine table is good, every line it ever stores (top level or
subroutine body) is good. -/
theorem parseAux_ok (rest : List String) : ∀ (ln : Nat) (cur : Option String)
    (fns : List (String × List (Nat × String))),
    (∀ fb ∈ fns, ∀ p ∈ fb.2, parsedLineOk p) →
    (∀ p ∈ (parseAux ln cur fns rest).1, parsedLineOk p) ∧
    (∀ fb ∈ (parseAux ln cur fns rest).2, ∀ p ∈ fb.2, parsedLineOk p) := by
  induction rest with
  | nil =>
    intro ln cur fns hfns
    exact ⟨by simp [parseAux], by simpa [parseAux] using hfns⟩
  | cons line rest2 ih =>
    intro ln cur fns hfns
    by_cases hc : (pyStrip (pyRstripNewline line) = "" ||
        strStarts (pyStrip (pyRstripNewline line)) "#") = true
    · simp only [parseAux, if_pos hc]
      exact ih (ln + 1) cur fns hfns
    · have hne : pyStrip (pyRstripNewline line) ≠ "" := by
        intro hx
        simp [hx] at hc
      cases hf : pctFMatch (pyStrip (pyRstripNewline line)) with
      | some g =>
        simp only [parseAux, if_neg hc, hf]
        refine ih (ln + 1) _ _ ?_
        intro fb hfb p hp
        rcases mem_fnsSet fns (pyStrip g) [] fb hfb with h1 | h1
        · rw [h1] at hp; simp at hp
        · exact hfns fb h1 p hp
      | none =>
        cases cur with
        | some f =>
          by_cases hind : (strStarts (pyRstripNewline line) " " ||
              strStarts (pyRstripNewline line) "\t") = true
          · simp only [parseAux, if_neg hc, hf, if_pos hind]
            refine ih (ln + 1) _ _ ?_
            intro fb hfb p hp
            rcases mem_fnsAppend fns f (ln, pyStrip (pyRstripNewline line)) fb hfb p hp with
              h1 | ⟨fb2, hfb2, hpfb2⟩
            · rw [h1]; exact parsedLineOk_of_strip ln _ hne
            · exact hfns fb2 hfb2 p hpfb2
          · simp only [parseAux, if_neg hc, hf, if_neg hind]
            have hrec := ih (ln + 1) none fns hfns
            constructor
            · intro p hp
              rcases List.mem_cons.mp hp with h1 | h1
              · rw [h1]; exact parsedLineOk_of_strip ln _ hne
              · exact hrec.1 p h1
            · exact hrec.2
        | none =>
          simp only [parseAux, if_neg hc, hf]
          have hrec := ih (ln + 1) none fns hfns
          constructor
          · intro p hp
            rcases List.mem_cons.mp hp with h1 | h1
            · rw [h1]; exact parsedLineOk_of_strip ln _ hne
            · exact hrec.1 p h1
          · exact hrec.2

/-- Claim C5: every (line number, text) pair produced by the parse pass —
top-level statements and subroutine body lines alike — stores the line
stripped and non-blank, the indentation measure returns 0 on it, and
consequently `find_block` on a parsed line sequence always extends to the
end of that sequence. -/
theorem c5_parse_invariant (lines : List String) :
    (∀ p ∈ (parseScript lines).1, parsedLineOk p) ∧
    (∀ fb ∈ (parseScript lines).2, ∀ p ∈ fb.2, parsedLineOk p) ∧
    (∀ start, start < (parseScript lines).1.length →
      findBlock (parseScript lines).1 start = (parseScript lines).1.length) ∧
    (∀ fb ∈ (parseScript lines).2, ∀ start, start < fb.2.length →
      findBlock fb.2 start = fb.2.length) := by
  have h := parseAux_ok lines 1 none [] (by simp)
  refine ⟨h.1, h.2, ?_, ?_⟩
  · intro start hs
    refine findBlock_flat _ (fun p hp => ⟨?_, (h.1 p hp).2.2⟩) start hs
    rw [(h.1 p hp).2.1]; exact (h.1 p hp).1
  · intro fb hfb start hs
    refine findBlock_flat _ (fun p hp => ⟨?_, (h.2 fb hfb p hp).2.2⟩) start hs
    rw [(h.2 fb hfb p hp).2.1]; exact (h.2 fb hfb p hp).1

/-- Witness for `c5_parse_invariant` at a concrete script with a
subroutine and top-level lines. -/
theorem c5_witness :
    (∀ p ∈ (parseScript ["%f Sub:", "\twrite \"x\"", "Sub"]).1, parsedLineOk p) ∧
    (∀ fb ∈ (parseScript ["%f Sub:", "\twrite \"x\"", "Sub"]).2, ∀ p ∈ fb.2, parsedLineOk p) ∧
    (∀ start, start < (parseScript ["%f Sub:", "\twrite \"x\"", "Sub"]).1.length →
      findBlock (parseScript ["%f Sub:", "\twrite \"x\"", "Sub"]).1 start =
        (parseScript ["%f Sub:", "\twrite \"x\"", "Sub"]).1.length) ∧
    (∀ fb ∈ (parseScript ["%f Sub:", "\twrite \"x\"", "Sub"]).2, ∀ start,
      start < fb.2.length → findBlock fb.2 start = fb.2.length) :=
  c5_parse_invariant ["%f Sub:", "\twrite \"x\"", "Sub"]


/-! ## Claim C2: resolver arithmetic precedence -/

theorem pyStripL_eq_self (l : List Char)
    (hh : ∀ c r, l = c :: r → isPyWs c = false)
    (ht : ∀ c r, l.reverse = c :: r → isPyWs c = false) : pyStripL l = l := by
  unfold pyStripL dropTrailing
  rw [dropWhile_eq_self_of_head isPyWs l hh]
  rw [dropWhile_eq_self_of_head isPyWs l.reverse ht]
  exact List.reverse_reverse l

/-- A double-quoted token is untouched by the resolver's initial
`token.strip()`. -/
theorem pyStrip_quoted (s : String) :
    pyStrip ("\"" ++ s ++ "\"") = "\"" ++ s ++ "\"" := by
  have hd : ("\"" ++ s ++ "\"").data = '"' :: (s.data ++ ['"']) := by
    simp [String.data_append]
  show (⟨pyStripL ("\"" ++ s ++ "\"").data⟩ : String) = "\"" ++ s ++ "\""
  rw [hd, pyStripL_eq_self]
  · exact congrArg String.mk hd.symm
  · intro c r hc
    cases hc
    decide
  · intro c r hc
    rw [show ('"' :: (s.data ++ ['"'])) = ('"' :: s.data) ++ ['"'] from rfl,
      List.reverse_append] at hc
    cases hc
    decide

/-- Claim C2: with `Count` a declared int variable of value 4, resolving
the token `"Count + 1"` substitutes the variable before arithmetic and
yields the float string `"5.0"`; with `Count` holding the text `"abc"` the
same resolution fails with the non-numeric-arithmetic error; and quoted
literals, `%1`, and `%var` tokens are never re-interpreted as arithmetic
(the quoted literal resolves to its inner text, `%1` to the input value,
and a `%var`-prefixed token goes through the variable-lookup branch alone,
whatever the rest of the state). -/
theorem c2_resolver_arithmetic (inp : String) (ln : Nat) :
    (∀ st : St, lookupVar st.vars "Count + 1" = none →
      lookupVar st.vars "1" = none →
      ∀ al ty, lookupVar st.vars "Count" = some ⟨al, ty, some (.vint 4)⟩ →
        resolveValue "Count + 1" inp ln st = .ok "5.0") ∧
    (∀ st : St, lookupVar st.vars "Count + 1" = none →
      lookupVar st.vars "1" = none →
      ∀ al ty, lookupVar st.vars "Count" = some ⟨al, ty, some (.vstr "abc")⟩ →
        resolveValue "Count + 1" inp ln st = .error ⟨.nonNumericArith, some ln⟩) ∧
    (∀ (s : String) (st : St),
      resolveValue ("\"" ++ s ++ "\"") inp ln st = .ok s) ∧
    (∀ st : St, resolveValue "%1" inp ln st = .ok inp) ∧
    (∀ (t : String) (st : St), pyStrip t = t → quotedTok t.data = false →
      t ≠ "%1" → strStarts t "%var" = true →
      resolveValue t inp ln st = varTokenBranch t ln st) := by
  refine ⟨?_, ?_, ?_, ?_, ?_⟩
  · intro st h1 h2 al ty hc
    rw [resolveValue_eq]
    rw [show pyStrip "Count + 1" = "Count + 1" from by decide]
    rw [show quotedTok ("Count + 1").data = false from by decide]
    rw [show strStarts "Count + 1" "%var" = false from by decide]
    rw [h1]
    rw [show matchExpr "Count + 1" = some ("Count", '+', "1") from by decide]
    simp only []
    rw [show pyStrip "Count" = "Count" from by decide,
        show pyStrip "1" = "1" from by decide]
    rw [resolveValue_eq "Count", resolveValue_eq "1"]
    rw [show pyStrip "Count" = "Count" from by decide,
        show pyStrip "1" = "1" from by decide]
    rw [show quotedTok ("Count").data = false from by decide]
    rw [show strStarts "Count" "%var" = false from by decide]
    rw [hc]
    rw [show quotedTok ("1").data = false from by decide]
    rw [show strStarts "1" "%var" = false from by decide]
    rw [h2]
    rw [show matchExpr "1" = none from by decide]
    rfl
  · intro st h1 h2 al ty hc
    rw [resolveValue_eq]
    rw [show pyStrip "Count + 1" = "Count + 1" from by decide]
    rw [show quotedTok ("Count + 1").data = false from by decide]
    rw [show strStarts "Count + 1" "%var" = false from by decide]
    rw [h1]
    rw [show matchExpr "Count + 1" = some ("Count", '+', "1") from by decide]
    simp only []
    rw [show pyStrip "Count" = "Count" from by decide,
        show pyStrip "1" = "1" from by decide]
    rw [resolveValue_eq "Count", resolveValue_eq "1"]
    rw [show pyStrip "Count" = "Count" from by decide,
        show pyStrip "1" = "1" from by decide]
    rw [show quotedTok ("Count").data = false from by decide]
    rw [show strStarts "Count" "%var" = false from by decide]
    rw [hc]
    rw [show quotedTok ("1").data = false from by decide]
    rw [show strStarts "1" "%var" = false from by decide]
    rw [h2]
    rw [show matchExpr "1" = none from by decide]
    rfl
  · intro str st
    rw [resolveValue_eq, pyStrip_quoted]
    have hd : ("\"" ++ str ++ "\"").data = '"' :: (str.data ++ ['"']) := by
      simp [String.data_append]
    have hq : quotedTok ("\"" ++ str ++ "\"").data = true := by
      rw [hd]
      unfold quotedTok
      rw [show ('"' :: (str.data ++ ['"'])) = ('"' :: str.data) ++ ['"'] from rfl,
        List.getLast?_concat]
      simp
    rw [hq]
    simp only [if_true]
    rw [hd]
    unfold innerTok
    rw [show ('"' :: (str.data ++ ['"'])).drop 1 = str.data ++ ['"'] from rfl,
      List.dropLast_concat]
  · intro st
    rw [resolveValue_eq]
    rw [show pyStrip "%1" = "%1" from by decide]
    rw [show quotedTok ("%1").data = false from by decide]
    rfl
  · intro t st hstrip hq hne hv
    rw [resolveValue_eq, hstrip, hq, hv]
    simp only [Bool.false_eq_true, if_false, if_true]
    rw [if_neg hne]

/-- Witness for `c2_resolver_arithmetic` at concrete stores and tokens. -/
theorem c2_witness :
    resolveValue "Count + 1" "" 1
      ⟨[("Count", ⟨"c", some "%int", some (.vint 4)⟩)], [], []⟩ = .ok "5.0" ∧
    resolveValue "Count + 1" "" 1
      ⟨[("Count", ⟨"c", some "%txt", some (.vstr "abc")⟩)], [], []⟩ =
      .error ⟨.nonNumericArith, some 1⟩ ∧
    resolveValue ("\"" ++ "100%" ++ "\"") "" 1 ⟨[], [], []⟩ = .ok "100%" ∧
    resolveValue "%1" "input" 1 ⟨[], [], []⟩ = .ok "input" ∧
    resolveValue "%var Count" "" 1
      ⟨[("Count", ⟨"c", some "%int", some (.vint 4)⟩)], [], []⟩ =
      varTokenBranch "%var Count" 1
        ⟨[("Count", ⟨"c", some "%int", some (.vint 4)⟩)], [], []⟩ :=
  ⟨(c2_resolver_arithmetic "" 1).1 _ (by decide) (by decide) "c" (some "%int") (by decide),
   (c2_resolver_arithmetic "" 1).2.1 _ (by decide) (by decide) "c" (some "%txt") (by decide),
   (c2_resolver_arithmetic "" 1).2.2.1 "100%" _,
   (c2_resolver_arithmetic "input" 1).2.2.2.1 _,
   (c2_resolver_arithmetic "" 1).2.2.2.2 "%var Count" _ (by decide) (by decide)
     (by decide) (by decide)⟩


/-! ## Claim C3: condition evaluator semantics -/

/-- A token that is unquoted, not `%1`, not `%var`-prefixed, not a declared
variable and not an arithmetic pattern resolves to itself (priority 6). -/
theorem resolveValue_plain (t : String) (inp : String) (ln : Nat) (st : St)
    (hstrip : pyStrip t = t) (hq : quotedTok t.data = false) (hne : t ≠ "%1")
    (hv : strStarts t "%var" = false) (hlook : lookupVar st.vars t = none)
    (hm : matchExpr t = none) : resolveValue t inp ln st = .ok t := by
  rw [resolveValue_eq, hstrip, hq, hv, hlook, hm]
  simp only [Bool.false_eq_true, if_false]
  rw [if_neg hne]

/-- Claim C3: when both resolved operands parse as numbers the evaluator
uses numeric semantics for `=`, `X=`, `>`, `<`, `>=`, `<=` and rejects `~`
and `~=` with the invalid-operator error; when either fails to parse it
uses string semantics — `=`/`X=` exact (in)equality, `~` case-sensitive
containment of the right side in the left, `~=` case-insensitive
containment — and rejects the four order operators.  In particular
`evaluate("5","=","5.0")` is true, `evaluate("Apple","~","App")` is true,
`evaluate("Apple","~=","app")` is true, and `evaluate("Apple",">","Banana")`
fails with the invalid-operator error. -/
theorem c3_condition_evaluator (inp : String) (ln : Nat) :
    (∀ (l r : String) (st : St) (s1 s2 : String) (q1 q2 : PFloat),
      resolveValue l inp ln st = .ok s1 → resolveValue r inp ln st = .ok s2 →
      pyFloat s1 = some q1 → pyFloat s2 = some q2 →
      evalCondition l "=" r inp ln st = .ok (q1.eqv q2) ∧
      evalCondition l "X=" r inp ln st = .ok (!(q1.eqv q2)) ∧
      evalCondition l ">" r inp ln st = .ok (q2.ltv q1) ∧
      evalCondition l "<" r inp ln st = .ok (q1.ltv q2) ∧
      evalCondition l ">=" r inp ln st = .ok (q2.lev q1) ∧
      evalCondition l "<=" r inp ln st = .ok (q1.lev q2) ∧
      evalCondition l "~" r inp ln st = .error ⟨.invalidOperator, some ln⟩ ∧
      evalCondition l "~=" r inp ln st = .error ⟨.invalidOperator, some ln⟩) ∧
    (∀ (l r : String) (st : St) (s1 s2 : String),
      resolveValue l inp ln st = .ok s1 → resolveValue r inp ln st = .ok s2 →
      pyFloat s1 = none ∨ pyFloat s2 = none →
      evalCondition l "=" r inp ln st = .ok (decide (s1 = s2)) ∧
      evalCondition l "X=" r inp ln st = .ok (decide (s1 ≠ s2)) ∧
      evalCondition l "~" r inp ln st = .ok (strIn s1 s2) ∧
      evalCondition l "~=" r inp ln st = .ok (strIn (strLower s1) (strLower s2)) ∧
      evalCondition l ">" r inp ln st = .error ⟨.invalidOperator, some ln⟩ ∧
      evalCondition l "<" r inp ln st = .error ⟨.invalidOperator, some ln⟩ ∧
      evalCondition l ">=" r inp ln st = .error ⟨.invalidOperator, some ln⟩ ∧
      evalCondition l "<=" r inp ln st = .error ⟨.invalidOperator, some ln⟩) ∧
    (∀ st : St, lookupVar st.vars "5" = none → lookupVar st.vars "5.0" = none →
      evalCondition "5" "=" "5.0" inp ln st = .ok true) ∧
    (∀ st : St, lookupVar st.vars "Apple" = none → lookupVar st.vars "App" = none →
      evalCondition "Apple" "~" "App" inp ln st = .ok true) ∧
    (∀ st : St, lookupVar st.vars "Apple" = none → lookupVar st.vars "app" = none →
      evalCondition "Apple" "~=" "app" inp ln st = .ok true) ∧
    (∀ st : St, lookupVar st.vars "Apple" = none → lookupVar st.vars "Banana" = none →
      evalCondition "Apple" ">" "Banana" inp ln st =
        .error ⟨.invalidOperator, some ln⟩) := by
  have hA : ∀ (l r : String) (st : St) (s1 s2 : String) (q1 q2 : PFloat),
      resolveValue l inp ln st = .ok s1 → resolveValue r inp ln st = .ok s2 →
      pyFloat s1 = some q1 → pyFloat s2 = some q2 →
      evalCondition l "=" r inp ln st = .ok (q1.eqv q2) ∧
      evalCondition l "X=" r inp ln st = .ok (!(q1.eqv q2)) ∧
      evalCondition l ">" r inp ln st = .ok (q2.ltv q1) ∧
      evalCondition l "<" r inp ln st = .ok (q1.ltv q2) ∧
      evalCondition l ">=" r inp ln st = .ok (q2.lev q1) ∧
      evalCondition l "<=" r inp ln st = .ok (q1.lev q2) ∧
      evalCondition l "~" r inp ln st = .error ⟨.invalidOperator, some ln⟩ ∧
      evalCondition l "~=" r inp ln st = .error ⟨.invalidOperator, some ln⟩ := by
    intro l r st s1 s2 q1 q2 hl hr h1 h2
    refine ⟨?_, ?_, ?_, ?_, ?_, ?_, ?_, ?_⟩ <;>
      simp [evalCondition, hl, hr, h1, h2, bind, Except.bind]
  have hB : ∀ (l r : String) (st : St) (s1 s2 : String),
      resolveValue l inp ln st = .ok s1 → resolveValue r inp ln st = .ok s2 →
      pyFloat s1 = none ∨ pyFloat s2 = none →
      evalCondition l "=" r inp ln st = .ok (decide (s1 = s2)) ∧
      evalCondition l "X=" r inp ln st = .ok (decide (s1 ≠ s2)) ∧
      evalCondition l "~" r inp ln st = .ok (strIn s1 s2) ∧
      evalCondition l "~=" r inp ln st = .ok (strIn (strLower s1) (strLower s2)) ∧
      evalCondition l ">" r inp ln st = .error ⟨.invalidOperator, some ln⟩ ∧
      evalCondition l "<" r inp ln st = .error ⟨.invalidOperator, some ln⟩ ∧
      evalCondition l ">=" r inp ln st = .error ⟨.invalidOperator, some ln⟩ ∧
      evalCondition l "<=" r inp ln st = .error ⟨.invalidOperator, some ln⟩ := by
    intro l r st s1 s2 hl hr hn
    rcases hn with hn | hn
    · refine ⟨?_, ?_, ?_, ?_, ?_, ?_, ?_, ?_⟩ <;>
        (cases h2 : pyFloat s2 <;>
          simp [evalCondition, hl, hr, hn, h2, bind, Except.bind])
    · refine ⟨?_, ?_, ?_, ?_, ?_, ?_, ?_, ?_⟩ <;>
        (cases h1 : pyFloat s1 <;>
          simp [evalCondition, hl, hr, hn, h1, bind, Except.bind])
  have hplain : ∀ (t : String) (st : St), pyStrip t = t →
      quotedTok t.data = false → t ≠ "%1" → strStarts t "%var" = false →
      lookupVar st.vars t = none → matchExpr t = none →
      resolveValue t inp ln st = .ok t := fun t st a b c d e f =>
    resolveValue_plain t inp ln st a b c d e f
  refine ⟨hA, hB, ?_, ?_, ?_, ?_⟩
  · intro st hv1 hv2
    have h1 := hplain "5" st (by decide) (by decide) (by decide) (by decide) hv1 (by decide)
    have h2 := hplain "5.0" st (by decide) (by decide) (by decide) (by decide) hv2 (by decide)
    have := (hA "5" "5.0" st "5" "5.0" ⟨5, 1⟩ ⟨50, 10⟩ h1 h2 (by decide) (by decide)).1
    rw [this]
    decide
  · intro st hv1 hv2
    have h1 := hplain "Apple" st (by decide) (by decide) (by decide) (by decide) hv1 (by decide)
    have h2 := hplain "App" st (by decide) (by decide) (by decide) (by decide) hv2 (by decide)
    have := (hB "Apple" "App" st "Apple" "App" h1 h2 (Or.inl (by decide))).2.2.1
    rw [this]
    decide
  · intro st hv1 hv2
    have h1 := hplain "Apple" st (by decide) (by decide) (by decide) (by decide) hv1 (by decide)
    have h2 := hplain "app" st (by decide) (by decide) (by decide) (by decide) hv2 (by decide)
    have := (hB "Apple" "app" st "Apple" "app" h1 h2 (Or.inl (by decide))).2.2.2.1
    rw [this]
    decide
  · intro st hv1 hv2
    have h1 := hplain "Apple" st (by decide) (by decide) (by decide) (by decide) hv1 (by decide)
    have h2 := hplain "Banana" st (by decide) (by decide) (by decide) (by decide) hv2 (by decide)
    exact (hB "Apple" "Banana" st "Apple" "Banana" h1 h2 (Or.inl (by decide))).2.2.2.2.1

/-- Witness for `c3_condition_evaluator` at the empty store. -/
theorem c3_witness :
    evalCondition "5" "=" "5.0" "" 3 ⟨[], [], []⟩ = .ok true ∧
    evalCondition "Apple" "~" "App" "" 3 ⟨[], [], []⟩ = .ok true ∧
    evalCondition "Apple" "~=" "app" "" 3 ⟨[], [], []⟩ = .ok true ∧
    evalCondition "Apple" ">" "Banana" "" 3 ⟨[], [], []⟩ =
      .error ⟨.invalidOperator, some 3⟩ :=
  ⟨(c3_condition_evaluator "" 3).2.2.1 _ (by decide) (by decide),
   (c3_condition_evaluator "" 3).2.2.2.1 _ (by decide) (by decide),
   (c3_condition_evaluator "" 3).2.2.2.2.1 _ (by decide) (by decide),
   (c3_condition_evaluator "" 3).2.2.2.2.2 _ (by decide) (by decide)⟩


/-! ## Claims C7 and C10: the variable-store error paths of `execute_line`

Dispatch lemmas identifying which statement branch of `execute_line` a
source line reaches. -/


theorem matchAlias_head (line : String) (x : String × String)
    (h : matchAlias line = some x) : ∃ r, line.data = '%' :: r := by
  unfold matchAlias at h
  split at h
  · next r heq => exact ⟨r, heq⟩
  · exact Option.noConfusion h

theorem matchAssign_head (line : String) (x : String × String)
    (h : matchAssign line = some x) :
    ∃ c r, line.data = c :: r ∧ isWordC c = true := by
  cases hd : line.data with
  | nil =>
    rw [matchAssign, hd] at h
    simp [List.takeWhile] at h
  | cons c r =>
    by_cases hw : isWordC c = true
    · exact ⟨c, r, rfl, hw⟩
    · rw [Bool.not_eq_true] at hw
      rw [matchAssign, hd] at h
      simp only [List.takeWhile_cons, hw] at h
      simp at h

theorem matchAlias_none_head (line : String) (c : Char) (r : List Char)
    (hd : line.data = c :: r) (hc : c ≠ '%') : matchAlias line = none := by
  unfold matchAlias
  rw [hd]
  split
  · next heq =>
    exfalso
    injection heq with h1 h2
    exact hc h1
  · rfl

theorem strStarts_false_head (line pre : String) (c : Char) (r : List Char)
    (d : Char) (rp : List Char) (hd : line.data = c :: r)
    (hp : pre.data = d :: rp) (hne : c ≠ d) : strStarts line pre = false := by
  unfold strStarts
  rw [hd, hp]
  simp [List.isPrefixOf]
  intro hc
  exact absurd hc.symm hne

theorem pyStrip_ne_empty (line : String) (c : Char) (r : List Char)
    (hd : line.data = c :: r) (hc : isPyWs c = false) : ¬ pyStrip line = "" := by
  intro hcon
  have hdata : pyStripL line.data = [] := congrArg String.data hcon
  rw [hd] at hdata
  unfold pyStripL dropTrailing at hdata
  rw [List.dropWhile_cons_of_neg (by simp [hc])] at hdata
  have h2 : (c :: r).reverse.dropWhile isPyWs = [] := by
    have := congrArg List.reverse hdata
    simpa using this
  rw [List.dropWhile_eq_nil_iff] at h2
  have hcmem : c ∈ (c :: r).reverse := by simp
  have := h2 c hcmem
  rw [hc] at this
  exact Bool.noConfusion this


theorem matchVarType_none_of_assign (line : String) (x : String × String)
    (h : matchAssign line = some x) : matchVarType line = none := by
  by_cases hne : line.data.takeWhile isWordC = []
  · exfalso
    rw [matchAssign] at h
    rw [if_neg (by simp [hne])] at h
    exact Option.noConfusion h
  by_cases hpre : ("%value".data.isPrefixOf
      (line.data.drop (line.data.takeWhile isWordC).length)) = true
  · obtain ⟨cw, ws, hw⟩ := List.exists_cons_of_ne_nil hne
    rw [List.isPrefixOf_iff_prefix] at hpre
    obtain ⟨t, ht⟩ := hpre
    have hr1 : line.data.drop (line.data.takeWhile isWordC).length
        = '%' :: ("value".data ++ t) := by rw [← ht]; rfl
    rw [matchVarType, hr1, hw]
    rw [show wsCount ('%' :: ("value".data ++ t)) = 0 from by
      simp only [wsCount, List.takeWhile_cons]
      rw [show isPyWs '%' = false from by decide]
      simp]
    simp only [List.drop_zero]
    split
    · next heq => exact List.noConfusion heq
    · next r3 heq hfn =>
      exfalso
      injection heq with h1 h2
      exact absurd h1 (by decide)
    · rfl
  · exfalso
    rw [matchAssign] at h
    rw [if_neg (by simp [hpre])] at h
    exact Option.noConfusion h


theorem isWordC_not_ws (c : Char) (h : isWordC c = true) : isPyWs c = false := by
  by_contra hw
  rw [Bool.not_eq_false] at hw
  unfold isPyWs at hw
  simp only [Bool.or_eq_true, decide_eq_true_eq] at hw
  rcases hw with ((((h1 | h1) | h1) | h1) | h1) | h1 <;>
    (subst h1; exact absurd h (by decide))

theorem execLine_assign_eq (fuel : Nat) (ctx : Ctx) (line : String) (ln : Nat)
    (inp : String) (st : St) (vn valStr : String)
    (hma : matchAssign line = some (vn, valStr)) :
    execLine (fuel + 1) ctx line ln inp st =
      (match lookupVar st.vars vn with
       | none => .fail ⟨.undeclaredVariable, some ln⟩ st
       | some info =>
         match resolveValue valStr inp ln st with
         | .error e => .fail e st
         | .ok val =>
           if !validateVarType info.vtype val then .fail ⟨.typeMismatch, some ln⟩ st
           else
             let pv : PyVal :=
               if info.vtype = some "%int" then .vint ((pyIntParse val).getD 0)
               else if info.vtype = some "%dec" then .vfloat ((pyFloat val).getD ⟨0, 1⟩)
               else .vstr val
             .ok (inp, { st with vars := setVar st.vars vn { info with value := some pv } })) := by
  obtain ⟨c, r, hd, hwc⟩ := matchAssign_head line _ hma
  have hcp : c ≠ '%' := by intro he; rw [he] at hwc; exact absurd hwc (by decide)
  have hch : c ≠ '#' := by intro he; rw [he] at hwc; exact absurd hwc (by decide)
  have g1 : strStarts line "##" = false :=
    strStarts_false_head line "##" c r '#' ['#'] hd rfl hch
  have g2 : strStarts line "#" = false :=
    strStarts_false_head line "#" c r '#' [] hd rfl hch
  have g3 : ¬ pyStrip line = "" := pyStrip_ne_empty line c r hd (isWordC_not_ws c hwc)
  have hal : matchAlias line = none := matchAlias_none_head line c r hd hcp
  have hvt : matchVarType line = none := matchVarType_none_of_assign line _ hma
  simp only [execLine, g1, g2, g3, Bool.false_or, Bool.or_false, decide_eq_true_eq,
    if_false, hal, hvt, hma]

theorem execLine_alias_eq (fuel : Nat) (ctx : Ctx) (line : String) (ln : Nat)
    (inp : String) (st : St) (al vn : String)
    (hma : matchAlias line = some (al, vn)) :
    execLine (fuel + 1) ctx line ln inp st =
      (if !(identOk al && identOk vn) then .fail ⟨.badVarDecl, some ln⟩ st
       else if (lookupVar st.vars vn).isSome then
         .fail ⟨.duplicateDeclaration, some ln⟩ st
       else .ok (inp, { st with vars := setVar st.vars vn ⟨al, none, none⟩ })) := by
  obtain ⟨r, hd⟩ := matchAlias_head line _ hma
  have g1 : strStarts line "##" = false :=
    strStarts_false_head line "##" '%' r '#' ['#'] hd rfl (by decide)
  have g2 : strStarts line "#" = false :=
    strStarts_false_head line "#" '%' r '#' [] hd rfl (by decide)
  have g3 : ¬ pyStrip line = "" := pyStrip_ne_empty line '%' r hd (by decide)
  simp only [execLine, g1, g2, g3, Bool.false_or, Bool.or_false, decide_eq_true_eq,
    if_false, hma]

/-- C7: on the alias-declaration statement, a name already present in the
variable store fails with DuplicateDeclaration; on the value-assignment
statement, a name never alias-declared fails with UndeclaredVariable, and a
resolved value "abc" assigned to a variable of declared type %int fails with
TypeMismatch.  Each failure outcome carries the entry state, so the variable
store is left unchanged. -/
theorem c7_store_errors (fuel : Nat) (ctx : Ctx) (line : String) (ln : Nat)
    (inp : String) (st : St) :
    (∀ al vn, matchAlias line = some (al, vn) → identOk al = true →
       identOk vn = true → (lookupVar st.vars vn).isSome = true →
       execLine (fuel + 1) ctx line ln inp st =
         .fail ⟨.duplicateDeclaration, some ln⟩ st)
  ∧ (∀ vn valStr, matchAssign line = some (vn, valStr) →
       lookupVar st.vars vn = none →
       execLine (fuel + 1) ctx line ln inp st =
         .fail ⟨.undeclaredVariable, some ln⟩ st)
  ∧ (∀ vn valStr info, matchAssign line = some (vn, valStr) →
       lookupVar st.vars vn = some info → info.vtype = some "%int" →
       resolveValue valStr inp ln st = .ok "abc" →
       execLine (fuel + 1) ctx line ln inp st =
         .fail ⟨.typeMismatch, some ln⟩ st) := by
  refine ⟨?_, ?_, ?_⟩
  · intro al vn hma h1 h2 h3
    rw [execLine_alias_eq fuel ctx line ln inp st al vn hma]
    rw [h1, h2, h3]
    rfl
  · intro vn valStr hma hlk
    rw [execLine_assign_eq fuel ctx line ln inp st vn valStr hma, hlk]
  · intro vn valStr info hma hlk hty hres
    rw [execLine_assign_eq fuel ctx line ln inp st vn valStr hma]
    simp only [hlk, hres, hty]
    rfl

theorem c7_witness :
    execLine 10 ⟨[], false⟩ "%x = Count" 3 ""
        ⟨[("Count", ⟨"c", some "%int", some (.vint 4)⟩)], [], []⟩ =
      .fail ⟨.duplicateDeclaration, some 3⟩
        ⟨[("Count", ⟨"c", some "%int", some (.vint 4)⟩)], [], []⟩
  ∧ execLine 10 ⟨[], false⟩ "Nope%value = 3" 4 ""
        ⟨[("Count", ⟨"c", some "%int", some (.vint 4)⟩)], [], []⟩ =
      .fail ⟨.undeclaredVariable, some 4⟩
        ⟨[("Count", ⟨"c", some "%int", some (.vint 4)⟩)], [], []⟩
  ∧ execLine 10 ⟨[], false⟩ "Count%value = \"abc\"" 5 ""
        ⟨[("Count", ⟨"c", some "%int", some (.vint 4)⟩)], [], []⟩ =
      .fail ⟨.typeMismatch, some 5⟩
        ⟨[("Count", ⟨"c", some "%int", some (.vint 4)⟩)], [], []⟩ := by
  refine ⟨?_, ?_, ?_⟩
  · exact (c7_store_errors 9 ⟨[], false⟩ "%x = Count" 3 ""
      ⟨[("Count", ⟨"c", some "%int", some (.vint 4)⟩)], [], []⟩).1
      "x" "Count" (by decide) (by decide) (by decide) (by decide)
  · exact (c7_store_errors 9 ⟨[], false⟩ "Nope%value = 3" 4 ""
      ⟨[("Count", ⟨"c", some "%int", some (.vint 4)⟩)], [], []⟩).2.1
      "Nope" "3" (by decide) (by decide)
  · exact (c7_store_errors 9 ⟨[], false⟩ "Count%value = \"abc\"" 5 ""
      ⟨[("Count", ⟨"c", some "%int", some (.vint 4)⟩)], [], []⟩).2.2
      "Count" "\"abc\"" ⟨"c", some "%int", some (.vint 4)⟩
      (by decide) (by decide) (by decide) (by decide)

theorem mem_dropWhile_of_neg (p : Char → Bool) (l : List Char) (c : Char)
    (hc : c ∈ l) (hp : p c = false) : c ∈ l.dropWhile p := by
  induction l with
  | nil => cases hc
  | cons a as ih =>
    rw [List.dropWhile_cons]
    by_cases ha : p a = true
    · rw [if_pos ha]
      rcases List.mem_cons.mp hc with h1 | h1
      · subst h1; rw [ha] at hp; exact Bool.noConfusion hp
      · exact ih h1
    · rw [if_neg ha]; exact hc

theorem mem_pyStripL (l : List Char) (c : Char) (hc : c ∈ l)
    (hp : isPyWs c = false) : c ∈ pyStripL l := by
  unfold pyStripL dropTrailing
  rw [List.mem_reverse]
  refine mem_dropWhile_of_neg _ _ _ ?_ hp
  rw [List.mem_reverse]
  exact mem_dropWhile_of_neg _ _ _ hc hp

theorem pyIntParse_none_of_dot (s : String) (h : '.' ∈ s.data) :
    pyIntParse s = none := by
  have hm : '.' ∈ pyStripL s.data := mem_pyStripL s.data '.' h (by decide)
  simp only [pyIntParse]
  split
  · next hcon =>
    exfalso
    revert hcon
    split
    · next r hd =>
      intro hcon
      rw [Bool.and_eq_true] at hcon
      rw [hd] at hm
      exact absurd (List.all_eq_true.mp hcon.2 '.'
        ((List.mem_cons.mp hm).resolve_left (by decide))) (by decide)
    · next r hd =>
      intro hcon
      rw [Bool.and_eq_true] at hcon
      rw [hd] at hm
      exact absurd (List.all_eq_true.mp hcon.2 '.'
        ((List.mem_cons.mp hm).resolve_left (by decide))) (by decide)
    · next =>
      intro hcon
      rw [Bool.and_eq_true] at hcon
      exact absurd (List.all_eq_true.mp hcon.2 '.' hm) (by decide)
  · rfl

theorem pyFloatStr_has_dot (q : PFloat) : '.' ∈ (pyFloatStr q).data := by
  simp only [pyFloatStr]
  by_cases hrem : q.num.natAbs % q.den = 0
  · rw [if_pos hrem]
    rw [String.data_append]
    exact List.mem_append_right _ (by decide)
  · rw [if_neg hrem]
    rw [String.data_append, String.data_append]
    exact List.mem_append_left _ (List.mem_append_right _ (by decide))

theorem matchExprAt_isOp (l : List Char) (k j : Nat)
    (x : List Char × Char × List Char) (h : matchExprAt l k j = some x) :
    isOpC x.2.1 = true := by
  unfold matchExprAt at h
  split at h
  · next hcond =>
    split at h
    · injection h with h1
      subst h1
      exact hcond.2
    · split at h
      · injection h with h1
        subst h1
        exact hcond.2
      · exact Option.noConfusion h
  · exact Option.noConfusion h

theorem matchExprGo_isOp (l : List Char) : ∀ (fuel k : Nat)
    (x : List Char × Char × List Char), matchExprGo l fuel k = some x →
    isOpC x.2.1 = true := by
  intro fuel
  induction fuel with
  | zero => intro k x h; exact Option.noConfusion h
  | succ n ih =>
    intro k x h
    rw [matchExprGo] at h
    split at h
    · split at h
      · next y hy =>
        injection h with h1
        subst h1
        exact matchExprAt_isOp l k _ y hy
      · exact ih (k + 1) x h
    · exact Option.noConfusion h

theorem matchExpr_isOp (t : String) (o1 : String) (c : Char) (o2 : String)
    (h : matchExpr t = some (o1, c, o2)) : isOpC c = true := by
  unfold matchExpr at h
  cases hg : matchExprGo t.data (t.data.length + 1) 1 with
  | none => rw [hg] at h; exact Option.noConfusion h
  | some y =>
    rw [hg] at h
    obtain ⟨a, cc, b⟩ := y
    injection h with h1
    have := matchExprGo_isOp t.data (t.data.length + 1) 1 (a, cc, b) hg
    have hcc : cc = c := congrArg (fun p => p.2.1) h1
    rw [← hcc]
    exact this

/-- C10: a variable of declared type %int can never be updated through an
arithmetic assignment.  Whenever the assignment statement's value token
reaches the resolver's arithmetic branch with numeric operands (and a
nonzero divisor under division), the resolved result is a float string
containing a decimal point, the %int validator rejects it, and the line
fails with TypeMismatch, leaving the store unchanged. -/
theorem c10_int_arith (fuel : Nat) (ctx : Ctx) (line : String) (ln : Nat)
    (inp : String) (st : St) (vn valStr : String) (info : VarInfo)
    (o1 o2 v1 v2 : String) (c : Char) (q1 q2 : PFloat)
    (hma : matchAssign line = some (vn, valStr))
    (hlk : lookupVar st.vars vn = some info)
    (hty : info.vtype = some "%int")
    (hq : quotedTok (pyStrip valStr).data = false)
    (h1t : ¬ pyStrip valStr = "%1")
    (hvar : strStarts (pyStrip valStr) "%var" = false)
    (hlk2 : lookupVar st.vars (pyStrip valStr) = none)
    (hme : matchExpr (pyStrip valStr) = some (o1, c, o2))
    (hr1 : resolveValue (pyStrip o1) inp ln st = .ok v1)
    (hr2 : resolveValue (pyStrip o2) inp ln st = .ok v2)
    (hn1 : pyFloat v1 = some q1)
    (hn2 : pyFloat v2 = some q2)
    (hdiv : c = '/' → ¬ q2.num = 0) :
    execLine (fuel + 1) ctx line ln inp st = .fail ⟨.typeMismatch, some ln⟩ st := by
  obtain ⟨q, hres⟩ : ∃ q : PFloat,
      resolveValue valStr inp ln st = .ok (pyFloatStr q) := by
    rw [resolveValue_eq]
    rw [if_neg (by simp [hq])]
    rw [if_neg h1t]
    rw [if_neg (by simp [hvar])]
    simp only [hlk2, hme, hr1, hr2, hn1, hn2]
    have hop := matchExpr_isOp _ _ _ _ hme
    simp only [isOpC, Bool.or_eq_true, decide_eq_true_eq] at hop
    rcases hop with ((h | h) | h) | h
    · subst h; exact ⟨q1.add q2, by rw [if_pos rfl]⟩
    · subst h
      refine ⟨q1.sub q2, ?_⟩
      rw [if_neg (by decide), if_pos rfl]
    · subst h
      refine ⟨q1.mul q2, ?_⟩
      rw [if_neg (by decide), if_neg (by decide), if_pos rfl]
    · subst h
      refine ⟨q1.div q2, ?_⟩
      rw [if_neg (by decide), if_neg (by decide), if_neg (by decide), if_pos rfl,
        if_neg (hdiv rfl)]
  rw [execLine_assign_eq fuel ctx line ln inp st vn valStr hma]
  simp only [hlk, hres, hty]
  have hv : validateVarType (some "%int") (pyFloatStr q) = false := by
    simp [validateVarType, pyIntParse_none_of_dot _ (pyFloatStr_has_dot q)]
  rw [hv]
  rfl

theorem c10_witness :
    execLine 10 ⟨[], false⟩ "Count%value = Count + 1" 7 ""
        ⟨[("Count", ⟨"c", some "%int", some (.vint 4)⟩)], [], []⟩ =
      .fail ⟨.typeMismatch, some 7⟩
        ⟨[("Count", ⟨"c", some "%int", some (.vint 4)⟩)], [], []⟩ :=
  c10_int_arith 9 ⟨[], false⟩ "Count%value = Count + 1" 7 ""
    ⟨[("Count", ⟨"c", some "%int", some (.vint 4)⟩)], [], []⟩
    "Count" "Count + 1" ⟨"c", some "%int", some (.vint 4)⟩
    "Count" "1" "4" "1" '+' ⟨4, 1⟩ ⟨1, 1⟩
    (by decide) (by decide) (by decide) (by decide) (by decide) (by decide)
    (by decide) (by decide) (by decide) (by decide) (by decide) (by decide)
    (by decide)

/-! ## Claim C8: the write statement and quoted spans -/

/-- C8: counterexample to the claimed %-in-quotes validation.  The source's
write branch has no such check: `write "100%"` is not rejected; the quoted
span containing `%` is resolved and emitted (with the reset-color marker
appended). -/
theorem c8_counterexample :
    execLine 10 ⟨[], false⟩ "write \"100%\"" 1 "" ⟨[], [], []⟩ =
      .ok ("", ⟨[], [.text "100%\x1b[0m"], []⟩) := by decide


theorem takeWhile_append_char (p : Char → Bool) (l : List Char) (c : Char)
    (hl : ∀ x ∈ l, p x = true) (hc : p c = false) :
    (l ++ [c]).takeWhile p = l := by
  induction l with
  | nil => simp [List.takeWhile_cons, hc]
  | cons a as ih =>
    rw [List.cons_append, List.takeWhile_cons, if_pos (hl a (by simp))]
    rw [ih (fun x hx => hl x (by simp [hx]))]

theorem lookupColor_none_head (cs : List (String × String)) (t : String)
    (hcs : ∀ kv ∈ cs, kv.1.data.head? = some '%')
    (ht : t.data.head? = some '"') : lookupColor cs t = none := by
  induction cs with
  | nil => rfl
  | cons kv rest ih =>
    rw [lookupColor]
    rw [if_neg]
    · exact ih (fun x hx => hcs x (by simp [hx]))
    · intro he
      have := hcs kv (by simp)
      rw [he, ht] at this
      exact absurd (Option.some.inj this) (by decide)

theorem resolveValue_quoted (s inp : String) (ln : Nat) (st : St) :
    resolveValue ("\"" ++ s ++ "\"") inp ln st = .ok s := by
  rw [resolveValue_eq, pyStrip_quoted]
  have hd : ("\"" ++ s ++ "\"").data = '"' :: (s.data ++ ['"']) := by
    simp [String.data_append]
  have hq : quotedTok ("\"" ++ s ++ "\"").data = true := by
    rw [hd]
    unfold quotedTok
    rw [show ('"' :: (s.data ++ ['"'])) = ('"' :: s.data) ++ ['"'] from rfl,
      List.getLast?_concat]
    simp
  rw [hq]
  simp only [if_true]
  rw [hd]
  unfold innerTok
  rw [show ('"' :: (s.data ++ ['"'])).drop 1 = s.data ++ ['"'] from rfl,
    List.dropLast_concat]

set_option maxHeartbeats 1000000 in
/-- C8 (amended): a write statement whose remainder is a single quoted span
free of inner quotes is never rejected, whatever the span contains —
including % characters.  It always succeeds, emitting the span's text via
the resolver's quoted-literal branch (plus the reset marker appended by
add-reset unless the text is itself a color code). -/
theorem c8_write_quoted (fuel : Nat) (ctx : Ctx) (ln : Nat) (inp : String)
    (st : St) (s : String) (hq : '"' ∉ s.data) :
    execLine (fuel + 1) ctx ("write \"" ++ s ++ "\"") ln inp st =
      .ok (inp, st.emit (String.join (addResetColor [s]))) := by
  have hdata : ("write \"" ++ s ++ "\"").data
      = 'w' :: 'r' :: 'i' :: 't' :: 'e' :: ' ' :: '"' :: (s.data ++ ['"']) := rfl
  have g3 : ¬ pyStrip ("write \"" ++ s ++ "\"") = "" :=
    pyStrip_ne_empty _ 'w' _ hdata (by decide)
  have helse : ¬ ("write \"" ++ s ++ "\"") = "%else" := by
    intro h
    have := congrArg String.data h
    rw [hdata] at this
    exact absurd (List.cons.inj this).1 (by decide)
  have hstrip1 : pyStrip ⟨' ' :: '"' :: (s.data ++ ['"'])⟩
      = ⟨'"' :: (s.data ++ ['"'])⟩ := by
    show (⟨pyStripL (' ' :: '"' :: (s.data ++ ['"']))⟩ : String) = _
    unfold pyStripL
    rw [List.dropWhile_cons_of_pos (by decide)]
    rw [List.dropWhile_cons_of_neg (by decide)]
    have h3 : dropTrailing isPyWs ('"' :: (s.data ++ ['"'])) = '"' :: (s.data ++ ['"']) := by
      have h2 : pyStripL ('"' :: (s.data ++ ['"'])) = '"' :: (s.data ++ ['"']) := by
        apply pyStripL_eq_self
        · intro c r hc
          cases hc
          decide
        · intro c r hc
          rw [show ('"' :: (s.data ++ ['"'])) = ('"' :: s.data) ++ ['"'] from rfl,
            List.reverse_append] at hc
          cases hc
          decide
      unfold pyStripL at h2
      rw [List.dropWhile_cons_of_neg (by decide)] at h2
      exact h2
    rw [h3]
  have htoks : findallTokens ('"' :: (s.data ++ ['"']))
      = [⟨'"' :: (s.data ++ ['"'])⟩] := by
    have htw : (s.data ++ ['"']).takeWhile (fun x => decide (x ≠ '"')) = s.data := by
      apply takeWhile_append_char
      · intro x hx
        simp only [decide_eq_true_eq]
        intro he
        exact hq (he ▸ hx)
      · decide
    have hlen : ('"' :: (s.data ++ ['"'])).length = s.data.length + 2 := by
      simp only [List.length_cons, List.length_append, List.length_nil]
    unfold findallTokens
    rw [hlen]
    rw [findallTokensGo]
    rw [if_neg (by decide)]
    rw [if_pos]
    · rw [htw]
      have hdrop2 : (s.data ++ ['"']).drop (s.data.length + 1) = [] := by
        have hl2 : (s.data ++ ['"']).length = s.data.length + 1 := by simp
        rw [← hl2, List.drop_length]
      simp only [hdrop2]
      rfl
    · rw [htw]
      simp
  have htokstr : (⟨'"' :: (s.data ++ ['"'])⟩ : String) = "\"" ++ s ++ "\"" := by
    have hd2 : ("\"" ++ s ++ "\"").data = '"' :: (s.data ++ ['"']) := by
      simp [String.data_append]
    exact congrArg String.mk hd2.symm
  have hne1 : ¬ ("\"" ++ s ++ "\"" : String) = "" := by
    intro h
    have h2 := congrArg String.data h
    simp [String.data_append] at h2
  have hne2 : ¬ ("\"" ++ s ++ "\"" : String) = "%NL%" := by
    intro h
    have h2 := congrArg String.data h
    simp [String.data_append] at h2
  have hhead : ("\"" ++ s ++ "\"").data.head? = some '"' := by
    simp [String.data_append]
  have hwp : writeParts [⟨'"' :: (s.data ++ ['"'])⟩] inp ln st = .ok [s] := by
    rw [writeParts]
    rw [htokstr, pyStrip_quoted]
    rw [if_neg hne1]
    rw [lookupColor_none_head colorCodes _ (by decide) hhead]
    rw [if_neg hne2]
    rw [resolveValue_quoted]
    rfl
  simp only [execLine,
    show strStarts ("write \"" ++ s ++ "\"") "##" = false from rfl,
    show strStarts ("write \"" ++ s ++ "\"") "#" = false from rfl,
    g3,
    show matchAlias ("write \"" ++ s ++ "\"") = none from rfl,
    show matchVarType ("write \"" ++ s ++ "\"") = none from rfl,
    show matchAssign ("write \"" ++ s ++ "\"") = none from rfl,
    show icqMatch ("write \"" ++ s ++ "\"") = none from rfl,
    show strStarts ("write \"" ++ s ++ "\"") "%if" = false from rfl,
    decide_eq_false helse,
    show strStarts ("write \"" ++ s ++ "\"") "%while" = false from rfl,
    show strStarts ("write \"" ++ s ++ "\"") "write" = true from rfl,
    Bool.false_or, Bool.or_false, decide_eq_true_eq, if_false, if_true]
  rw [show ("write \"" ++ s ++ "\"").data.drop 5 = ' ' :: '"' :: (s.data ++ ['"'])
    from rfl]
  rw [hstrip1]
  rw [htoks, hwp]
  rfl


/-- Witness for `c8_write_quoted` at the 100% literal of the claim. -/
theorem c8_witness :
    ('"' ∉ ("100%" : String).data) ∧
    execLine 10 ⟨[], false⟩ ("write \"" ++ "100%" ++ "\"") 1 "" ⟨[], [], []⟩ =
      .ok ("", (⟨[], [], []⟩ : St).emit (String.join (addResetColor ["100%"]))) :=
  ⟨by decide, c8_write_quoted 9 ⟨[], false⟩ 1 "" ⟨[], [], []⟩ "100%" (by decide)⟩

/-! ## Claim C6: the while-loop iteration ceiling -/

theorem whileLoop_succ (fuel : Nat) (ctx : Ctx) (lines : List (Nat × String))
    (lh op rh : String) (ln bStart bEnd count : Nat) (inp : String) (st : St)
    (depth : Nat) :
    whileLoop (fuel + 1) ctx lines lh op rh ln bStart bEnd count inp st depth =
      (if 10000 < count + 1 then .fail ⟨.loopLimitExceeded, some ln⟩ st
       else
         match evalCondition lh op rh inp ln st with
         | .error e => .fail e st
         | .ok false => .ok (inp, st)
         | .ok true =>
           match execBlock fuel ctx lines bStart bEnd inp st depth with
           | .ok (inp2, st2) =>
             whileLoop fuel ctx lines lh op rh ln bStart bEnd (count + 1) inp2 st2 depth
           | .fail e s => .fail e s
           | .halt s => .halt s
           | .fuelOut => .fuelOut) := rfl

theorem execBlock_empty (fuel : Nat) (ctx : Ctx) (lines : List (Nat × String))
    (b : Nat) (inp : String) (st : St) (depth : Nat) :
    execBlock (fuel + 1) ctx lines b b inp st depth = .ok (inp, st) := by
  show (if b < b then _ else ExecOut.ok (inp, st)) = ExecOut.ok (inp, st)
  rw [if_neg (by omega)]

theorem whileLoop_limit (ctx : Ctx) (lines : List (Nat × String))
    (lh op rh : String) (n : Nat) (inp : String) (st : St) (depth : Nat)
    (hc : evalCondition lh op rh inp n st = .ok true) :
    ∀ (j k c : Nat), c + j = 10000 → j ≤ k →
      whileLoop (k + 1) ctx lines lh op rh n 1 1 c inp st depth =
        .fail ⟨.loopLimitExceeded, some n⟩ st := by
  intro j
  induction j with
  | zero =>
    intro k c hcj hjk
    rw [whileLoop_succ, if_pos (by omega)]
  | succ j ih =>
    intro k c hcj hjk
    obtain ⟨k2, rfl⟩ : ∃ k2, k = k2 + 1 := ⟨k - 1, by omega⟩
    rw [whileLoop_succ, if_neg (by omega), hc]
    rw [execBlock_empty]
    exact ih k2 (c + 1) (by omega) (by omega)

theorem whileLoop_fuelOut (ctx : Ctx) (lines : List (Nat × String))
    (lh op rh : String) (n : Nat) (inp : String) (st : St) (depth : Nat)
    (hc : evalCondition lh op rh inp n st = .ok true) :
    ∀ (f c : Nat), c + f ≤ 10000 →
      whileLoop f ctx lines lh op rh n 1 1 c inp st depth = .fuelOut := by
  intro f
  induction f with
  | zero => intro c hcf; rfl
  | succ k ih =>
    intro c hcf
    rw [whileLoop_succ, if_neg (by omega), hc]
    cases k with
    | zero => rfl
    | succ k2 =>
      rw [execBlock_empty]
      exact ih (c + 1) (by omega)

theorem execWhile_succ (fuel : Nat) (ctx : Ctx) (n : Nat) (t : String)
    (inp : String) (st : St) (depth : Nat) (lh op rh : String)
    (hdep : depth < 16) (hm : matchCond "%while" (pyStrip t) = some (lh, op, rh)) :
    execWhile (fuel + 1) ctx [(n, t)] 0 inp st depth =
      (match whileLoop fuel ctx [(n, t)] lh op rh n 1 1 0 inp st depth with
       | .ok (inp2, st2) => .ok (1, inp2, st2)
       | .fail e s => .fail e s
       | .halt s => .halt s
       | .fuelOut => .fuelOut) := by
  show (match ([(n, t)] : List (Nat × String))[0]? with
    | none => ExecOut.fail ⟨.indexError, none⟩ st
    | some (n0, t0) =>
      if 16 ≤ depth then ExecOut.fail ⟨.whileDepthExceeded, some n0⟩ st
      else
        match matchCond "%while" (pyStrip t0) with
        | none => ExecOut.fail ⟨.badWhileSyntax, some n0⟩ st
        | some (lh2, op2, rh2) =>
          match whileLoop fuel ctx [(n, t)] lh2 op2 rh2 n0 1
              (findBlock [(n, t)] 1) 0 inp st depth with
          | .ok (inp2, st2) => .ok (findBlock [(n, t)] 1, inp2, st2)
          | .fail e s => ExecOut.fail e s
          | .halt s => ExecOut.halt s
          | .fuelOut => ExecOut.fuelOut) = _
  rw [show ([(n, t)] : List (Nat × String))[0]? = some (n, t) from rfl]
  simp only [if_neg (by omega : ¬ 16 ≤ depth), hm,
    show findBlock [(n, t)] 1 = 1 from rfl]

/-- C6: a while loop whose condition always evaluates true (the body here
being empty, so no state changes) fails with the loop-iteration-limit error
at exactly iteration 10001: with fuel for at least 10001 iterations the
result is the LoopIterationLimitExceeded failure at the header line with
the state unchanged, and with fuel for at most 10000 iterations the loop
is still running (no outcome, in particular no failure, is produced). -/
theorem c6_loop_ceiling (ctx : Ctx) (n : Nat) (t lh op rh inp : String)
    (st : St) (depth : Nat)
    (hm : matchCond "%while" (pyStrip t) = some (lh, op, rh))
    (hc : evalCondition lh op rh inp n st = .ok true)
    (hd : depth < 16) :
    (∀ fuel, 10001 ≤ fuel →
       execWhile (fuel + 1) ctx [(n, t)] 0 inp st depth =
         .fail ⟨.loopLimitExceeded, some n⟩ st) ∧
    (∀ fuel, fuel ≤ 10000 →
       execWhile (fuel + 1) ctx [(n, t)] 0 inp st depth = .fuelOut) := by
  constructor
  · intro fuel hf
    obtain ⟨k2, rfl⟩ : ∃ k2, fuel = k2 + 1 := ⟨fuel - 1, by omega⟩
    rw [execWhile_succ _ _ _ _ _ _ _ _ _ _ hd hm]
    rw [whileLoop_limit ctx [(n, t)] lh op rh n inp st depth hc 10000 k2 0
      (by omega) (by omega)]
  · intro fuel hf
    rw [execWhile_succ _ _ _ _ _ _ _ _ _ _ hd hm]
    rw [whileLoop_fuelOut ctx [(n, t)] lh op rh n inp st depth hc fuel 0
      (by omega)]

/-- Witness for `c6_loop_ceiling`: the literal loop of the claim,
`%while 1 = 1`, on the empty store. -/
theorem c6_witness :
    execWhile 10002 ⟨[], false⟩ [(5, "%while 1 = 1")] 0 "" ⟨[], [], []⟩ 0 =
      .fail ⟨.loopLimitExceeded, some 5⟩ ⟨[], [], []⟩ ∧
    execWhile 10001 ⟨[], false⟩ [(5, "%while 1 = 1")] 0 "" ⟨[], [], []⟩ 0 =
      .fuelOut :=
  ⟨(c6_loop_ceiling ⟨[], false⟩ 5 "%while 1 = 1" "1" "=" "1" "" ⟨[], [], []⟩ 0
      (by decide) (by decide) (by decide)).1 10001 (by omega),
   (c6_loop_ceiling ⟨[], false⟩ 5 "%while 1 = 1" "1" "=" "1" "" ⟨[], [], []⟩ 0
      (by decide) (by decide) (by decide)).2 10000 (by omega)⟩


/-! ## Claim C1: the if/else chain executor -/

theorem chainLoop_succ (fuel : Nat) (ctx : Ctx) (lines : List (Nat × String))
    (start initIndent idx : Nat) (executed : Bool) (inp : String) (st : St)
    (depth : Nat) :
    chainLoop (fuel + 1) ctx lines start initIndent idx executed inp st depth =
      (if idx < lines.length then
        let p := lines.getD idx (0, "")
        let s := pyStrip p.2
        if s = "" ∨ (indentLevel p.2 < initIndent ∧ start < idx) then
          .ok (idx, inp, st)
        else
          match matchCond "%if" s with
          | some (lh, op, rh) =>
            if executed then
              chainLoop fuel ctx lines start initIndent
                (findBlock lines (idx + 1)) true inp st depth
            else
              match evalCondition (pyStrip lh) (pyStrip op) (pyStrip rh) inp p.1 st with
              | .error e => .fail e st
              | .ok cond =>
                if cond then
                  match execBlock fuel ctx lines (idx + 1) (findBlock lines (idx + 1)) inp st depth with
                  | .ok (inp2, st2) =>
                    chainLoop fuel ctx lines start initIndent
                      (findBlock lines (idx + 1)) true inp2 st2 depth
                  | .fail e s2 => .fail e s2
                  | .halt s2 => .halt s2
                  | .fuelOut => .fuelOut
                else
                  chainLoop fuel ctx lines start initIndent
                    (findBlock lines (idx + 1)) false inp st depth
          | none =>
            if s = "%else" then
              if executed then
                chainLoop fuel ctx lines start initIndent
                  (findBlock lines (idx + 1)) true inp st depth
              else
                match execBlock fuel ctx lines (idx + 1) (findBlock lines (idx + 1)) inp st depth with
                | .ok (inp2, st2) =>
                  chainLoop fuel ctx lines start initIndent
                    (findBlock lines (idx + 1)) true inp2 st2 depth
                | .fail e s2 => .fail e s2
                | .halt s2 => .halt s2
                | .fuelOut => .fuelOut
            else .ok (idx, inp, st)
      else .ok (idx, inp, st)) := rfl

theorem execIfElse_succ (fuel : Nat) (ctx : Ctx) (n1 : Nat) (h1 : String)
    (rest : List (Nat × String)) (inp : String) (st : St) (depth : Nat)
    (hd : depth < 16) :
    execIfElse (fuel + 1) ctx ((n1, h1) :: rest) 0 inp st depth =
      chainLoop fuel ctx ((n1, h1) :: rest) 0 (indentLevel h1) 0 false inp st depth := by
  show (match ((n1, h1) :: rest : List (Nat × String))[0]? with
    | none => ExecOut.fail ⟨.indexError, none⟩ st
    | some (n0, t0) =>
      if 16 ≤ depth then ExecOut.fail ⟨.ifDepthExceeded, some n0⟩ st
      else chainLoop fuel ctx ((n1, h1) :: rest) 0 (indentLevel t0) 0 false inp st depth) = _
  rw [List.getElem?_cons_zero]
  simp only [if_neg (by omega : ¬ 16 ≤ depth)]

theorem matchCond_ne_empty (s : String) (x : String × String × String)
    (h : matchCond "%if" s = some x) : ¬ s = "" := by
  intro hs
  rw [hs] at h
  rw [show matchCond "%if" "" = none from by decide] at h
  exact Option.noConfusion h

/-- C1 (amended): chain dispatch of the conditional-block executor.  For a
three-branch chain (if, if, else) at equal header indentation whose first
condition is false and second true, the executor evaluates exactly the
second branch's block (never the else block), and, when that block's
execution succeeds, returns the index just past the entire chain; any
failure, halt, or fuel exhaustion of the block is propagated unchanged. -/
theorem c1_chain_dispatch (f : Nat) (ctx : Ctx) (d : Nat)
    (n1 n2 ne : Nat) (h1 h2 he : String)
    (l1 o1 r1 l2 o2 r2 : String)
    (B1 B2 B3 R : List (Nat × String)) (inp : String) (st : St)
    (hd : d < 16)
    (hm1 : matchCond "%if" (pyStrip h1) = some (l1, o1, r1))
    (hm2 : matchCond "%if" (pyStrip h2) = some (l2, o2, r2))
    (hhe : pyStrip he = "%else")
    (hi2 : indentLevel h2 = indentLevel h1)
    (hie : indentLevel he = indentLevel h1)
    (hc1 : evalCondition (pyStrip l1) (pyStrip o1) (pyStrip r1) inp n1 st = .ok false)
    (hc2 : evalCondition (pyStrip l2) (pyStrip o2) (pyStrip r2) inp n2 st = .ok true)
    (hB1 : B1 ≠ []) (hB2 : B2 ≠ []) (hB3 : B3 ≠ [])
    (hnb1 : ∀ p ∈ B1, pyStrip p.2 ≠ "")
    (hnb2 : ∀ p ∈ B2, pyStrip p.2 ≠ "")
    (hnb3 : ∀ p ∈ B3, pyStrip p.2 ≠ "")
    (hind1 : ∀ p ∈ B1, indentLevel ((B1.getD 0 (0, "")).2) ≤ indentLevel p.2)
    (hind2 : ∀ p ∈ B2, indentLevel ((B2.getD 0 (0, "")).2) ≤ indentLevel p.2)
    (hind3 : ∀ p ∈ B3, indentLevel ((B3.getD 0 (0, "")).2) ≤ indentLevel p.2)
    (hgt1 : indentLevel h1 < indentLevel ((B1.getD 0 (0, "")).2))
    (hgt2 : indentLevel h1 < indentLevel ((B2.getD 0 (0, "")).2))
    (hgt3 : indentLevel h1 < indentLevel ((B3.getD 0 (0, "")).2))
    (hR : R = [] ∨ pyStrip ((R.getD 0 (0, "")).2) = "" ∨
      indentLevel ((R.getD 0 (0, "")).2) < indentLevel h1) :
    execIfElse (f + 5) ctx
      ((n1, h1) :: (B1 ++ (n2, h2) :: (B2 ++ (ne, he) :: (B3 ++ R)))) 0 inp st d =
    (match execBlock (f + 2) ctx
        ((n1, h1) :: (B1 ++ (n2, h2) :: (B2 ++ (ne, he) :: (B3 ++ R))))
        (2 + B1.length) (2 + B1.length + B2.length) inp st d with
     | .ok (inp2, st2) =>
       .ok (3 + B1.length + B2.length + B3.length, inp2, st2)
     | .fail e s2 => .fail e s2
     | .halt s2 => .halt s2
     | .fuelOut => .fuelOut) := by
  have hlen : ((n1, h1) :: (B1 ++ (n2, h2) :: (B2 ++ (ne, he) :: (B3 ++ R)))).length
      = 3 + B1.length + B2.length + B3.length + R.length := by
    simp [List.length_append]
    omega
  have hg2 : ((n1, h1) :: (B1 ++ (n2, h2) :: (B2 ++ (ne, he) :: (B3 ++ R)))).getD
      (1 + B1.length) (0, "") = (n2, h2) := by
    rw [show 1 + B1.length = B1.length + 1 from by omega, List.getD_cons_succ]
    rw [getD_append_right _ _ _ _ (le_refl _), Nat.sub_self, List.getD_cons_zero]
  have hge : ((n1, h1) :: (B1 ++ (n2, h2) :: (B2 ++ (ne, he) :: (B3 ++ R)))).getD
      (2 + B1.length + B2.length) (0, "") = (ne, he) := by
    rw [show 2 + B1.length + B2.length = (1 + B1.length + B2.length) + 1 from by omega,
      List.getD_cons_succ]
    rw [getD_append_right _ _ _ _ (by omega)]
    rw [show 1 + B1.length + B2.length - B1.length = B2.length + 1 from by omega,
      List.getD_cons_succ]
    rw [getD_append_right _ _ _ _ (le_refl _), Nat.sub_self, List.getD_cons_zero]
  have hsplit2 : ((n1, h1) :: (B1 ++ (n2, h2) :: (B2 ++ (ne, he) :: (B3 ++ R))))
      = ((n1, h1) :: (B1 ++ [(n2, h2)])) ++ (B2 ++ ((ne, he) :: (B3 ++ R))) := by
    simp [List.append_assoc]
  have hsplit3 : ((n1, h1) :: (B1 ++ (n2, h2) :: (B2 ++ (ne, he) :: (B3 ++ R))))
      = ((n1, h1) :: (B1 ++ (n2, h2) :: (B2 ++ [(ne, he)]))) ++ (B3 ++ R) := by
    simp [List.append_assoc]
  have hfb1 : findBlock ((n1, h1) :: (B1 ++ (n2, h2) :: (B2 ++ (ne, he) :: (B3 ++ R)))) 1
      = 1 + B1.length := by
    have h := findBlock_of_parts [(n1, h1)] B1 ((n2, h2) :: (B2 ++ (ne, he) :: (B3 ++ R)))
      hB1 hnb1 hind1 (by
        right; right
        rw [List.getD_cons_zero]
        show indentLevel h2 < _
        rw [hi2]
        exact hgt1)
    rw [List.singleton_append] at h
    simpa using h
  have hfb2 : findBlock ((n1, h1) :: (B1 ++ (n2, h2) :: (B2 ++ (ne, he) :: (B3 ++ R))))
      (2 + B1.length) = 2 + B1.length + B2.length := by
    have h := findBlock_of_parts ((n1, h1) :: (B1 ++ [(n2, h2)])) B2
      ((ne, he) :: (B3 ++ R)) hB2 hnb2 hind2 (by
        right; right
        rw [List.getD_cons_zero]
        show indentLevel he < _
        rw [hie]
        exact hgt2)
    rw [← hsplit2] at h
    rw [show ((n1, h1) :: (B1 ++ [(n2, h2)])).length = 2 + B1.length from by
      simp; omega] at h
    exact h
  have hfb3 : findBlock ((n1, h1) :: (B1 ++ (n2, h2) :: (B2 ++ (ne, he) :: (B3 ++ R))))
      (3 + B1.length + B2.length) = 3 + B1.length + B2.length + B3.length := by
    have h := findBlock_of_parts ((n1, h1) :: (B1 ++ (n2, h2) :: (B2 ++ [(ne, he)]))) B3
      R hB3 hnb3 hind3 (by
        rcases hR with h0 | h0 | h0
        · exact Or.inl h0
        · exact Or.inr (Or.inl h0)
        · exact Or.inr (Or.inr (by omega)))
    rw [← hsplit3] at h
    rw [show ((n1, h1) :: (B1 ++ (n2, h2) :: (B2 ++ [(ne, he)]))).length
        = 3 + B1.length + B2.length from by simp [List.length_append]; omega] at h
    exact h
  rw [show f + 5 = (f + 4) + 1 from rfl, execIfElse_succ _ _ _ _ _ _ _ _ hd]
  rw [show f + 4 = (f + 3) + 1 from rfl, chainLoop_succ]
  rw [if_pos (by rw [hlen]; omega)]
  simp only [List.getD_cons_zero]
  rw [if_neg (by
    rintro (hs | ⟨_, h0⟩)
    · exact matchCond_ne_empty _ _ hm1 hs
    · omega)]
  rw [hm1]
  simp only [Bool.false_eq_true, if_false]
  rw [hc1]
  simp only [Bool.false_eq_true, if_false]
  rw [hfb1]
  rw [show f + 3 = (f + 2) + 1 from rfl, chainLoop_succ]
  rw [if_pos (by rw [hlen]; omega)]
  simp only [hg2]
  rw [if_neg (by
    rintro (hs | ⟨hlt, _⟩)
    · exact matchCond_ne_empty _ _ hm2 hs
    · rw [hi2] at hlt
      omega)]
  rw [hm2]
  simp only [Bool.false_eq_true, if_false]
  rw [hc2]
  simp only [if_true]
  rw [show (1 + B1.length) + 1 = 2 + B1.length from by omega]
  rw [hfb2]
  cases hEB : execBlock (f + 2) ctx
      ((n1, h1) :: (B1 ++ (n2, h2) :: (B2 ++ (ne, he) :: (B3 ++ R))))
      (2 + B1.length) (2 + B1.length + B2.length) inp st d with
  | ok pr2 =>
    obtain ⟨inp2, st2⟩ := pr2
    simp only []
    rw [show f + 2 = (f + 1) + 1 from rfl, chainLoop_succ]
    rw [if_pos (by rw [hlen]; omega)]
    simp only [hge]
    rw [hhe]
    rw [if_neg (by
      rintro (hs | ⟨hlt, _⟩)
      · exact absurd hs (by decide)
      · rw [hie] at hlt
        omega)]
    rw [show matchCond "%if" "%else" = none from by decide]
    rw [if_pos rfl]
    simp only [if_true]
    rw [show (2 + B1.length + B2.length) + 1 = 3 + B1.length + B2.length from by omega]
    rw [hfb3]
    rw [show f + 1 = f + 1 from rfl, chainLoop_succ]
    by_cases hprl : 3 + B1.length + B2.length + B3.length
        < ((n1, h1) :: (B1 ++ (n2, h2) :: (B2 ++ (ne, he) :: (B3 ++ R)))).length
    · rw [if_pos hprl]
      have hRne : R ≠ [] := by
        intro h0
        have hR0 : R.length = 0 := by rw [h0]; rfl
        rw [hlen] at hprl
        omega
      have hgr : ((n1, h1) :: (B1 ++ (n2, h2) :: (B2 ++ (ne, he) :: (B3 ++ R)))).getD
          (3 + B1.length + B2.length + B3.length) (0, "") = R.getD 0 (0, "") := by
        rw [show 3 + B1.length + B2.length + B3.length
            = (2 + B1.length + B2.length + B3.length) + 1 from by omega,
          List.getD_cons_succ]
        rw [getD_append_right _ _ _ _ (by omega)]
        rw [show 2 + B1.length + B2.length + B3.length - B1.length
            = (1 + B2.length + B3.length) + 1 from by omega, List.getD_cons_succ]
        rw [getD_append_right _ _ _ _ (by omega)]
        rw [show 1 + B2.length + B3.length - B2.length = B3.length + 1 from by omega,
          List.getD_cons_succ]
        rw [getD_append_right _ _ _ _ (le_refl _), Nat.sub_self]
      simp only [hgr]
      rw [if_pos (by
        rcases hR with h0 | h0 | h0
        · exact absurd h0 hRne
        · exact Or.inl h0
        · exact Or.inr ⟨h0, by omega⟩)]
    · rw [if_neg hprl]
  | fail e s2 => rfl
  | halt s2 => rfl
  | fuelOut => rfl

/-- C1: counterexample to "returns control at the first line past the entire
chain".  In a three-branch chain whose bodies are indented one level below
the headers (the shape the block scanner requires), the statement executor
receives the body lines unstripped; a line with leading whitespace matches
no statement form, so executing the taken branch's body aborts with the
unknown-command error at that body line, and control never returns past the
chain. -/
theorem c1_counterexample :
    execIfElse 100 ⟨[], false⟩
      [(1, "%if 1 = 2"), (2, "  send %NL%x"), (3, "%if 3 = 3"),
       (4, "  send %NL%x"), (5, "%else"), (6, "  send %NL%x")]
      0 "" ⟨[], [], []⟩ 0 =
      .fail ⟨.unknownCommand, some 4⟩ ⟨[], [], []⟩ := by decide

/-- Witness for `c1_chain_dispatch` on a concrete chain; the dispatched
block itself fails at its indented body line, as the counterexample
isolates. -/
theorem c1_witness :
    execIfElse 5 ⟨[], false⟩
      [(1, "%if 1 = 2"), (2, "  w1"), (3, "%if 3 = 3"), (4, "  w2"),
       (5, "%else"), (6, "  w3")] 0 "" ⟨[], [], []⟩ 0 =
      .fail ⟨.unknownCommand, some 4⟩ ⟨[], [], []⟩ := by
  have h := c1_chain_dispatch 0 ⟨[], false⟩ 0 1 3 5 "%if 1 = 2" "%if 3 = 3" "%else"
    "1" "=" "2" "3" "=" "3" [(2, "  w1")] [(4, "  w2")] [(6, "  w3")] []
    "" ⟨[], [], []⟩ (by omega) (by decide) (by decide) (by decide) (by decide)
    (by decide) (by decide) (by decide) (by decide) (by decide) (by decide)
    (by decide) (by decide) (by decide) (by decide) (by decide) (by decide)
    (by decide) (by decide) (by decide) (Or.inl rfl)
  rw [show (5 : Nat) = 0 + 5 from rfl]
  rw [show ([(1, "%if 1 = 2"), (2, "  w1"), (3, "%if 3 = 3"), (4, "  w2"),
       (5, "%else"), (6, "  w3")] : List (Nat × String))
    = ((1, "%if 1 = 2") :: ([(2, "  w1")] ++ (3, "%if 3 = 3") ::
        ([(4, "  w2")] ++ (5, "%else") :: ([(6, "  w3")] ++ ([] : List (Nat × String))))))
    from rfl]
  rw [h]
  decide


/-! ## Claim C9: the subroutine-inlining round trip -/
theorem varValueStr_ln (info : VarInfo) (ln1 ln2 : Nat) :
    eraseEx (varValueStr info ln1) = eraseEx (varValueStr info ln2) := by
  unfold varValueStr
  cases info.value with
  | none => rfl
  | some v => cases v <;> rfl

theorem varTokenBranch_ln (t : String) (ln1 ln2 : Nat) (st : St) :
    eraseEx (varTokenBranch t ln1 st) = eraseEx (varTokenBranch t ln2 st) := by
  unfold varTokenBranch
  split
  · split
    · rfl
    · exact varValueStr_ln _ ln1 ln2
  · rfl

theorem resolveValueF_ln (fuel : Nat) : ∀ (t inp : String) (ln1 ln2 : Nat) (st : St),
    eraseEx (resolveValueF fuel t inp ln1 st) =
      eraseEx (resolveValueF fuel t inp ln2 st) := by
  induction fuel with
  | zero => intros; rfl
  | succ f ih =>
    intro t inp ln1 ln2 st
    simp only [resolveValueF]
    by_cases h1 : quotedTok (pyStrip t).data = true
    · simp only [h1, if_true]
    · simp only [h1, Bool.false_eq_true, if_false]
      by_cases h2 : pyStrip t = "%1"
      · rw [if_pos h2, if_pos h2]
      · rw [if_neg h2, if_neg h2]
        by_cases h3 : strStarts (pyStrip t) "%var" = true
        · simp only [h3, if_true]
          exact varTokenBranch_ln _ ln1 ln2 st
        · simp only [h3, Bool.false_eq_true, if_false]
          cases hlk : lookupVar st.vars (pyStrip t) with
          | some info =>
            simp only [hlk]
            exact varValueStr_ln info ln1 ln2
          | none =>
            simp only [hlk]
            cases hme : matchExpr (pyStrip t) with
            | none => simp only [hme]
            | some x =>
              obtain ⟨o1, c, o2⟩ := x
              simp only [hme]
              have e1 := ih (pyStrip o1) inp ln1 ln2 st
              cases h1a : resolveValueF f (pyStrip o1) inp ln1 st with
              | error ea =>
                cases h1b : resolveValueF f (pyStrip o1) inp ln2 st with
                | error eb =>
                  rw [h1a, h1b] at e1
                  simp only [h1a, h1b]
                  exact e1
                | ok vb =>
                  rw [h1a, h1b] at e1
                  exact absurd e1 (by simp [eraseEx])
              | ok va =>
                cases h1b : resolveValueF f (pyStrip o1) inp ln2 st with
                | error eb =>
                  rw [h1a, h1b] at e1
                  exact absurd e1 (by simp [eraseEx])
                | ok vb =>
                  rw [h1a, h1b] at e1
                  have hv : va = vb := by simpa [eraseEx] using e1
                  subst hv
                  simp only [h1a, h1b]
                  have e2 := ih (pyStrip o2) inp ln1 ln2 st
                  cases h2a : resolveValueF f (pyStrip o2) inp ln1 st with
                  | error ea2 =>
                    cases h2b : resolveValueF f (pyStrip o2) inp ln2 st with
                    | error eb2 =>
                      rw [h2a, h2b] at e2
                      simp only [h2a, h2b]
                      exact e2
                    | ok vb2 =>
                      rw [h2a, h2b] at e2
                      exact absurd e2 (by simp [eraseEx])
                  | ok va2 =>
                    cases h2b : resolveValueF f (pyStrip o2) inp ln2 st with
                    | error eb2 =>
                      rw [h2a, h2b] at e2
                      exact absurd e2 (by simp [eraseEx])
                    | ok vb2 =>
                      rw [h2a, h2b] at e2
                      have hv2 : va2 = vb2 := by simpa [eraseEx] using e2
                      subst hv2
                      simp only [h2a, h2b]
                      cases pyFloat va with
                      | none => cases pyFloat va2 <;> rfl
                      | some q1 =>
                        cases pyFloat va2 with
                        | none => rfl
                        | some q2 =>
                          show eraseEx
                              (if c = '+' then Except.ok (pyFloatStr (q1.add q2))
                              else if c = '-' then Except.ok (pyFloatStr (q1.sub q2))
                              else if c = '*' then Except.ok (pyFloatStr (q1.mul q2))
                              else if c = '/' then
                                if q2.num = 0 then
                                  Except.error ⟨ErrKind.divisionByZero, some ln1⟩
                                else Except.ok (pyFloatStr (q1.div q2))
                              else Except.ok (pyStrip t)) =
                            eraseEx
                              (if c = '+' then Except.ok (pyFloatStr (q1.add q2))
                              else if c = '-' then Except.ok (pyFloatStr (q1.sub q2))
                              else if c = '*' then Except.ok (pyFloatStr (q1.mul q2))
                              else if c = '/' then
                                if q2.num = 0 then
                                  Except.error ⟨ErrKind.divisionByZero, some ln2⟩
                                else Except.ok (pyFloatStr (q1.div q2))
                              else Except.ok (pyStrip t))
                          by_cases hc1 : c = '+'
                          · rw [if_pos hc1, if_pos hc1]
                          · rw [if_neg hc1, if_neg hc1]
                            by_cases hc2 : c = '-'
                            · rw [if_pos hc2, if_pos hc2]
                            · rw [if_neg hc2, if_neg hc2]
                              by_cases hc3 : c = '*'
                              · rw [if_pos hc3, if_pos hc3]
                              · rw [if_neg hc3, if_neg hc3]
                                by_cases hc4 : c = '/'
                                · rw [if_pos hc4, if_pos hc4]
                                  by_cases hz : q2.num = 0
                                  · rw [if_pos hz, if_pos hz]
                                    rfl
                                  · rw [if_neg hz, if_neg hz]
                                · rw [if_neg hc4, if_neg hc4]

theorem resolveValue_ln (t inp : String) (ln1 ln2 : Nat) (st : St) :
    eraseEx (resolveValue t inp ln1 st) = eraseEx (resolveValue t inp ln2 st) :=
  resolveValueF_ln _ t inp ln1 ln2 st


theorem eraseEx_error_kind {a b : Type} (ea eb : Err)
    (h : eraseEx (.error ea : Except Err a) = eraseEx (.error eb)) :
    eraseEx (.error ea : Except Err b) = eraseEx (.error eb) := by
  have hk : ea.kind = eb.kind := by simpa [eraseEx] using h
  show (Except.error ⟨ea.kind, none⟩ : Except Err b) = Except.error ⟨eb.kind, none⟩
  rw [hk]

theorem evalCondition_ln_t (l o r inp : String) (ln1 ln2 : Nat) (st : St)
    (hres : ∀ t, eraseEx (resolveValue t inp ln1 st) = eraseEx (resolveValue t inp ln2 st)) :
    eraseEx (evalCondition l o r inp ln1 st) =
      eraseEx (evalCondition l o r inp ln2 st) := by
  unfold evalCondition
  have e1 := hres l
  cases h1a : resolveValue l inp ln1 st with
  | error ea =>
    cases h1b : resolveValue l inp ln2 st with
    | error eb =>
      rw [h1a, h1b] at e1
      exact eraseEx_error_kind _ _ e1
    | ok vb =>
      rw [h1a, h1b] at e1
      exact absurd e1 (by simp [eraseEx])
  | ok va =>
    cases h1b : resolveValue l inp ln2 st with
    | error eb =>
      rw [h1a, h1b] at e1
      exact absurd e1 (by simp [eraseEx])
    | ok vb =>
      rw [h1a, h1b] at e1
      have hv : va = vb := by simpa [eraseEx] using e1
      subst hv
      have e2 := hres r
      cases h2a : resolveValue r inp ln1 st with
      | error ea2 =>
        cases h2b : resolveValue r inp ln2 st with
        | error eb2 =>
          rw [h2a, h2b] at e2
          exact eraseEx_error_kind _ _ e2
        | ok vb2 =>
          rw [h2a, h2b] at e2
          exact absurd e2 (by simp [eraseEx])
      | ok va2 =>
        cases h2b : resolveValue r inp ln2 st with
        | error eb2 =>
          rw [h2a, h2b] at e2
          exact absurd e2 (by simp [eraseEx])
        | ok vb2 =>
          rw [h2a, h2b] at e2
          have hv2 : va2 = vb2 := by simpa [eraseEx] using e2
          subst hv2
          show eraseEx
              (match pyFloat va, pyFloat va2 with
              | some a, some b =>
                if o = "=" then Except.ok (a.eqv b)
                else if o = "X=" then Except.ok (!(a.eqv b))
                else if o = ">" then Except.ok (b.ltv a)
                else if o = "<" then Except.ok (a.ltv b)
                else if o = ">=" then Except.ok (b.lev a)
                else if o = "<=" then Except.ok (a.lev b)
                else if o = "~" || o = "~=" then
                  Except.error ⟨ErrKind.invalidOperator, some ln1⟩
                else Except.error ⟨ErrKind.unknownOperator, some ln1⟩
              | _, _ =>
                if o = "=" then Except.ok (decide (va = va2))
                else if o = "X=" then Except.ok (decide (va ≠ va2))
                else if o = "~" then Except.ok (strIn va va2)
                else if o = "~=" then Except.ok (strIn (strLower va) (strLower va2))
                else if o = ">" || o = "<" || o = ">=" || o = "<=" then
                  Except.error ⟨ErrKind.invalidOperator, some ln1⟩
                else Except.error ⟨ErrKind.unknownOperator, some ln1⟩) =
            eraseEx
              (match pyFloat va, pyFloat va2 with
              | some a, some b =>
                if o = "=" then Except.ok (a.eqv b)
                else if o = "X=" then Except.ok (!(a.eqv b))
                else if o = ">" then Except.ok (b.ltv a)
                else if o = "<" then Except.ok (a.ltv b)
                else if o = ">=" then Except.ok (b.lev a)
                else if o = "<=" then Except.ok (a.lev b)
                else if o = "~" || o = "~=" then
                  Except.error ⟨ErrKind.invalidOperator, some ln2⟩
                else Except.error ⟨ErrKind.unknownOperator, some ln2⟩
              | _, _ =>
                if o = "=" then Except.ok (decide (va = va2))
                else if o = "X=" then Except.ok (decide (va ≠ va2))
                else if o = "~" then Except.ok (strIn va va2)
                else if o = "~=" then Except.ok (strIn (strLower va) (strLower va2))
                else if o = ">" || o = "<" || o = ">=" || o = "<=" then
                  Except.error ⟨ErrKind.invalidOperator, some ln2⟩
                else Except.error ⟨ErrKind.unknownOperator, some ln2⟩)
          cases hf1 : pyFloat va with
          | some qa =>
            cases hf2 : pyFloat va2 with
            | some qb =>
              simp only [hf1, hf2]
              split_ifs <;> rfl
            | none =>
              simp only [hf1, hf2]
              split_ifs <;> rfl
          | none =>
            cases hf2 : pyFloat va2 with
            | some qb =>
              simp only [hf1, hf2]
              split_ifs <;> rfl
            | none =>
              simp only [hf1, hf2]
              split_ifs <;> rfl

theorem writeParts_ln (inp : String) (ln1 ln2 : Nat) (st : St)
    (hres : ∀ t, eraseEx (resolveValue t inp ln1 st) = eraseEx (resolveValue t inp ln2 st)) :
    ∀ toks, eraseEx (writeParts toks inp ln1 st) = eraseEx (writeParts toks inp ln2 st) := by
  intro toks
  induction toks with
  | nil => rfl
  | cons t0 rest ih =>
    rw [writeParts, writeParts]
    by_cases h0 : pyStrip t0 = ""
    · rw [if_pos h0, if_pos h0]
      exact ih
    · rw [if_neg h0, if_neg h0]
      cases hcol : lookupColor colorCodes (pyStrip t0) with
      | some code =>
        simp only [hcol]
        cases h1 : writeParts rest inp ln1 st with
        | error e1 =>
          cases h2 : writeParts rest inp ln2 st with
          | error e2 =>
            rw [h1, h2] at ih
            exact eraseEx_error_kind _ _ ih
          | ok p2 =>
            rw [h1, h2] at ih
            exact absurd ih (by simp [eraseEx])
        | ok p1 =>
          cases h2 : writeParts rest inp ln2 st with
          | error e2 =>
            rw [h1, h2] at ih
            exact absurd ih (by simp [eraseEx])
          | ok p2 =>
            rw [h1, h2] at ih
            have hp : p1 = p2 := by simpa [eraseEx] using ih
            subst hp
            rfl
      | none =>
        simp only [hcol]
        by_cases hnl : pyStrip t0 = "%NL%"
        · rw [if_pos hnl, if_pos hnl]
          cases h1 : writeParts rest inp ln1 st with
          | error e1 =>
            cases h2 : writeParts rest inp ln2 st with
            | error e2 =>
              rw [h1, h2] at ih
              exact eraseEx_error_kind _ _ ih
            | ok p2 =>
              rw [h1, h2] at ih
              exact absurd ih (by simp [eraseEx])
          | ok p1 =>
            cases h2 : writeParts rest inp ln2 st with
            | error e2 =>
              rw [h1, h2] at ih
              exact absurd ih (by simp [eraseEx])
            | ok p2 =>
              rw [h1, h2] at ih
              have hp : p1 = p2 := by simpa [eraseEx] using ih
              subst hp
              rfl
        · rw [if_neg hnl, if_neg hnl]
          have er := hres (pyStrip t0)
          cases hr1 : resolveValue (pyStrip t0) inp ln1 st with
          | error e1 =>
            cases hr2 : resolveValue (pyStrip t0) inp ln2 st with
            | error e2 =>
              rw [hr1, hr2] at er
              simp only [hr1, hr2]
              exact eraseEx_error_kind _ _ er
            | ok v2 =>
              rw [hr1, hr2] at er
              exact absurd er (by simp [eraseEx])
          | ok v1 =>
            cases hr2 : resolveValue (pyStrip t0) inp ln2 st with
            | error e2 =>
              rw [hr1, hr2] at er
              exact absurd er (by simp [eraseEx])
            | ok v2 =>
              rw [hr1, hr2] at er
              have hv : v1 = v2 := by simpa [eraseEx] using er
              subst hv
              simp only [hr1, hr2]
              cases h1 : writeParts rest inp ln1 st with
              | error e1 =>
                cases h2 : writeParts rest inp ln2 st with
                | error e2 =>
                  rw [h1, h2] at ih
                  exact eraseEx_error_kind _ _ ih
                | ok p2 =>
                  rw [h1, h2] at ih
                  exact absurd ih (by simp [eraseEx])
              | ok p1 =>
                cases h2 : writeParts rest inp ln2 st with
                | error e2 =>
                  rw [h1, h2] at ih
                  exact absurd ih (by simp [eraseEx])
                | ok p2 =>
                  rw [h1, h2] at ih
                  have hp : p1 = p2 := by simpa [eraseEx] using ih
                  subst hp
                  rfl

theorem eraseOut_fail_of {a : Type} (e1 e2 : Err) (st : St) (hk : e1.kind = e2.kind) :
    eraseOut (.fail e1 st : ExecOut a) = eraseOut (.fail e2 st) := by
  show (ExecOut.fail ⟨e1.kind, none⟩ st : ExecOut a) = ExecOut.fail ⟨e2.kind, none⟩ st
  rw [hk]

theorem kind_of_eraseEx {a : Type} (e1 e2 : Err)
    (h : eraseEx (.error e1 : Except Err a) = eraseEx (.error e2)) :
    e1.kind = e2.kind := by
  simpa [eraseEx] using h

theorem execLine_ln (fuel : Nat) (ctx : Ctx) (line : String) (ln1 ln2 : Nat)
    (inp : String) (st : St) :
    eraseOut (execLine fuel ctx line ln1 inp st) =
      eraseOut (execLine fuel ctx line ln2 inp st) := by
  cases fuel with
  | zero => rfl
  | succ f =>
  simp only [execLine]
  by_cases hg : (strStarts line "##" || strStarts line "#" ||
      decide (pyStrip line = "")) = true
  · rw [if_pos hg, if_pos hg]
  · rw [if_neg hg, if_neg hg]
    cases hma : matchAlias line with
    | some al =>
      obtain ⟨a1, a2⟩ := al
      simp only [hma]
      by_cases hid : (!(identOk a1 && identOk a2)) = true
      · rw [if_pos hid, if_pos hid]
        rfl
      · rw [if_neg hid, if_neg hid]
        by_cases hlk : (lookupVar st.vars a2).isSome = true
        · rw [if_pos hlk, if_pos hlk]
          rfl
        · rw [if_neg hlk, if_neg hlk]
    | none =>
    simp only [hma]
    cases hvt : matchVarType line with
    | some vt =>
      obtain ⟨v1, v2⟩ := vt
      simp only [hvt]
      cases lookupVar st.vars v1 <;> rfl
    | none =>
    simp only [hvt]
    cases hmas : matchAssign line with
    | some asg =>
      obtain ⟨vn, valStr⟩ := asg
      simp only [hmas]
      cases hlk : lookupVar st.vars vn with
      | none => rfl
      | some info =>
        simp only [hlk]
        have er := resolveValue_ln valStr inp ln1 ln2 st
        cases hr1 : resolveValue valStr inp ln1 st with
        | error e1 =>
          cases hr2 : resolveValue valStr inp ln2 st with
          | error e2 =>
            rw [hr1, hr2] at er
            simp only [hr1, hr2]
            exact eraseOut_fail_of _ _ _ (kind_of_eraseEx _ _ er)
          | ok v2 =>
            rw [hr1, hr2] at er
            exact absurd er (by simp [eraseEx])
        | ok v1 =>
          cases hr2 : resolveValue valStr inp ln2 st with
          | error e2 =>
            rw [hr1, hr2] at er
            exact absurd er (by simp [eraseEx])
          | ok v2 =>
            rw [hr1, hr2] at er
            have hv : v1 = v2 := by simpa [eraseEx] using er
            subst hv
            simp only [hr1, hr2]
            by_cases hval : (!validateVarType info.vtype v1) = true
            · rw [if_pos hval, if_pos hval]
              rfl
            · rw [if_neg hval, if_neg hval]
    | none =>
    simp only [hmas]
    cases hicq : icqMatch line with
    | some pe =>
      obtain ⟨prompt, ety⟩ := pe
      simp only [hicq]
      cases st.stdin with
      | nil => rfl
      | cons u restIn =>
        simp only []
        by_cases hvu : validateVarType (some ety) u = true
        · rw [if_pos hvu, if_pos hvu]
        · rw [if_neg hvu, if_neg hvu]
          rfl
    | none =>
    simp only [hicq]
    by_cases hif : (strStarts line "%if" || decide (line = "%else")) = true
    · rw [if_pos hif, if_pos hif]
      rfl
    · rw [if_neg hif, if_neg hif]
      by_cases hwh : strStarts line "%while" = true
      · rw [if_pos hwh, if_pos hwh]
        rfl
      · rw [if_neg hwh, if_neg hwh]
        by_cases hwr : strStarts line "write" = true
        · rw [if_pos hwr, if_pos hwr]
          have ew := writeParts_ln inp ln1 ln2 st
            (fun t => resolveValue_ln t inp ln1 ln2 st)
            (findallTokens (pyStrip ⟨line.data.drop 5⟩).data)
          cases hw1 : writeParts (findallTokens (pyStrip ⟨line.data.drop 5⟩).data)
              inp ln1 st with
          | error e1 =>
            cases hw2 : writeParts (findallTokens (pyStrip ⟨line.data.drop 5⟩).data)
                inp ln2 st with
            | error e2 =>
              rw [hw1, hw2] at ew
              simp only [hw1, hw2]
              exact eraseOut_fail_of _ _ _ (kind_of_eraseEx _ _ ew)
            | ok p2 =>
              rw [hw1, hw2] at ew
              exact absurd ew (by simp [eraseEx])
          | ok p1 =>
            cases hw2 : writeParts (findallTokens (pyStrip ⟨line.data.drop 5⟩).data)
                inp ln2 st with
            | error e2 =>
              rw [hw1, hw2] at ew
              exact absurd ew (by simp [eraseEx])
            | ok p2 =>
              rw [hw1, hw2] at ew
              have hp : p1 = p2 := by simpa [eraseEx] using ew
              subst hp
              rfl
        · rw [if_neg hwr, if_neg hwr]
          by_cases hsend : (strStarts line "send" && strIn line "%NL%") = true
          · rw [if_pos hsend, if_pos hsend]
          · rw [if_neg hsend, if_neg hsend]
            by_cases hmsg : strStarts line "msg" = true
            · rw [if_pos hmsg, if_pos hmsg]
              by_cases htoast : (!ctx.haveToast) = true
              · rw [if_pos htoast, if_pos htoast]
              · rw [if_neg htoast, if_neg htoast]
                cases hmf : msgFind line.data with
                | none => rfl
                | some ts =>
                  obtain ⟨tTok, sTok⟩ := ts
                  simp only [hmf]
                  have e1 := resolveValue_ln tTok inp ln1 ln2 st
                  cases hr1 : resolveValue tTok inp ln1 st with
                  | error ea =>
                    cases hr2 : resolveValue tTok inp ln2 st with
                    | error eb =>
                      rw [hr1, hr2] at e1
                      simp only [hr1, hr2]
                      exact eraseOut_fail_of _ _ _ (kind_of_eraseEx _ _ e1)
                    | ok vb =>
                      rw [hr1, hr2] at e1
                      exact absurd e1 (by simp [eraseEx])
                  | ok va =>
                    cases hr2 : resolveValue tTok inp ln2 st with
                    | error eb =>
                      rw [hr1, hr2] at e1
                      exact absurd e1 (by simp [eraseEx])
                    | ok vb =>
                      rw [hr1, hr2] at e1
                      have hv : va = vb := by simpa [eraseEx] using e1
                      subst hv
                      simp only [hr1, hr2]
                      have e2 := resolveValue_ln sTok inp ln1 ln2 st
                      cases hs1 : resolveValue sTok inp ln1 st with
                      | error ea2 =>
                        cases hs2 : resolveValue sTok inp ln2 st with
                        | error eb2 =>
                          rw [hs1, hs2] at e2
                          simp only [hs1, hs2]
                          exact eraseOut_fail_of _ _ _ (kind_of_eraseEx _ _ e2)
                        | ok vb2 =>
                          rw [hs1, hs2] at e2
                          exact absurd e2 (by simp [eraseEx])
                      | ok va2 =>
                        cases hs2 : resolveValue sTok inp ln2 st with
                        | error eb2 =>
                          rw [hs1, hs2] at e2
                          exact absurd e2 (by simp [eraseEx])
                        | ok vb2 =>
                          rw [hs1, hs2] at e2
                          have hv2 : va2 = vb2 := by simpa [eraseEx] using e2
                          subst hv2
                          rfl
            · rw [if_neg hmsg, if_neg hmsg]
              by_cases hwait : strStarts line "wait" = true
              · rw [if_pos hwait, if_pos hwait]
                cases pySplit line with
                | nil => rfl
                | cons x xs =>
                  cases xs with
                  | nil => rfl
                  | cons y ys =>
                    cases ys with
                    | nil =>
                      simp only []
                      cases pyFloat y with
                      | none => rfl
                      | some q =>
                        simp only []
                        by_cases hq : q.num < 0
                        · rw [if_pos hq, if_pos hq]
                          rfl
                        · rw [if_neg hq, if_neg hq]
                    | cons z zs => rfl
              · rw [if_neg hwait, if_neg hwait]
                by_cases hcc : strStarts line "clear_console" = true
                · rw [if_pos hcc, if_pos hcc]
                  cases (pySplitMax1 line).2 with
                  | none => rfl
                  | some restArg =>
                    simp only []
                    have e1 := resolveValue_ln (pyStrip restArg) inp ln1 ln2 st
                    cases hr1 : resolveValue (pyStrip restArg) inp ln1 st with
                    | error ea =>
                      cases hr2 : resolveValue (pyStrip restArg) inp ln2 st with
                      | error eb =>
                        rw [hr1, hr2] at e1
                        simp only [hr1, hr2]
                        exact eraseOut_fail_of _ _ _ (kind_of_eraseEx _ _ e1)
                      | ok vb =>
                        rw [hr1, hr2] at e1
                        exact absurd e1 (by simp [eraseEx])
                    | ok va =>
                      cases hr2 : resolveValue (pyStrip restArg) inp ln2 st with
                      | error eb =>
                        rw [hr1, hr2] at e1
                        exact absurd e1 (by simp [eraseEx])
                      | ok vb =>
                        rw [hr1, hr2] at e1
                        have hv : va = vb := by simpa [eraseEx] using e1
                        subst hv
                        simp only [hr1, hr2]
                        cases pyFloat va <;> rfl
                · rw [if_neg hcc, if_neg hcc]
                  cases lookupFn ctx.funcs line with
                  | some body =>
                    simp only []
                  | none =>
                    by_cases hein : strStarts line "einid cimidisiciriiipit" = true
                    · rw [if_pos hein, if_pos hein]
                    · rw [if_neg hein, if_neg hein]
                      rfl


theorem getD_snd_of_map : ∀ (L1 L2 : List (Nat × String)),
    L1.map Prod.snd = L2.map Prod.snd →
    ∀ i, (L1.getD i (0, "")).2 = (L2.getD i (0, "")).2 := by
  intro L1
  induction L1 with
  | nil =>
    intro L2 h i
    have h2 : L2 = [] := by
      cases L2 with
      | nil => rfl
      | cons b bs => exact absurd h.symm (by simp)
    subst h2
    rfl
  | cons a as ih =>
    intro L2 h i
    cases L2 with
    | nil => exact absurd h (by simp)
    | cons b bs =>
      simp only [List.map_cons, List.cons.injEq] at h
      cases i with
      | zero => simpa using h.1
      | succ j =>
        simp only [List.getD_cons_succ]
        exact ih bs h.2 j

theorem getQ_rel : ∀ (L1 L2 : List (Nat × String)),
    L1.map Prod.snd = L2.map Prod.snd →
    ∀ i : Nat, (L1[i]? = none ∧ L2[i]? = none) ∨
      (∃ p q : Nat × String, L1[i]? = some p ∧ L2[i]? = some q ∧ p.2 = q.2) := by
  intro L1
  induction L1 with
  | nil =>
    intro L2 h i
    have h2 : L2 = [] := by
      cases L2 with
      | nil => rfl
      | cons b bs => exact absurd h.symm (by simp)
    subst h2
    exact Or.inl ⟨by simp, by simp⟩
  | cons a as ih =>
    intro L2 h i
    cases L2 with
    | nil => exact absurd h (by simp)
    | cons b bs =>
      simp only [List.map_cons, List.cons.injEq] at h
      cases i with
      | zero =>
        exact Or.inr ⟨a, b, by simp, by simp, h.1⟩
      | succ j =>
        rcases ih bs h.2 j with ⟨h1, h2⟩ | ⟨p, q, h1, h2, h3⟩
        · exact Or.inl ⟨by simpa using h1, by simpa using h2⟩
        · exact Or.inr ⟨p, q, by simpa using h1, by simpa using h2, h3⟩

theorem length_of_map_snd (L1 L2 : List (Nat × String))
    (h : L1.map Prod.snd = L2.map Prod.snd) : L1.length = L2.length := by
  rw [← List.length_map L1 Prod.snd, h, List.length_map]

theorem findBlockLoop_cong (L1 L2 : List (Nat × String))
    (hmap : L1.map Prod.snd = L2.map Prod.snd) :
    ∀ (fuel total indent start i : Nat),
      findBlockLoop L1 total indent start fuel i =
        findBlockLoop L2 total indent start fuel i := by
  intro fuel
  induction fuel with
  | zero => intros; rfl
  | succ f ih =>
    intro total indent start i
    rw [findBlockLoop, findBlockLoop]
    rw [getD_snd_of_map L1 L2 hmap i]
    by_cases h1 : i < total
    · rw [if_pos h1, if_pos h1]
      by_cases h2 : pyStrip (L2.getD i (0, "")).2 = ""
      · rw [if_pos h2, if_pos h2]
      · rw [if_neg h2, if_neg h2]
        by_cases h3 : indentLevel (L2.getD i (0, "")).2 < indent ∧ start < i
        · rw [if_pos h3, if_pos h3]
        · rw [if_neg h3, if_neg h3]
          exact ih total indent start (i + 1)
    · rw [if_neg h1, if_neg h1]

theorem findBlock_cong (L1 L2 : List (Nat × String))
    (hmap : L1.map Prod.snd = L2.map Prod.snd) (j : Nat) :
    findBlock L1 j = findBlock L2 j := by
  unfold findBlock
  rw [length_of_map_snd L1 L2 hmap, getD_snd_of_map L1 L2 hmap j]
  by_cases h1 : L2.length ≤ j
  · rw [if_pos h1, if_pos h1]
  · rw [if_neg h1, if_neg h1]
    exact findBlockLoop_cong L1 L2 hmap _ _ _ _ _

theorem eraseOut_bind3 {c : Type} (X1 X2 : ExecOut (Nat × String × St))
    (k1 k2 : Nat → String → St → ExecOut c)
    (hX : eraseOut X1 = eraseOut X2)
    (hk : ∀ a b cc, eraseOut (k1 a b cc) = eraseOut (k2 a b cc)) :
    eraseOut (match X1 with
      | .ok (i2, inp2, st2) => k1 i2 inp2 st2
      | .fail e s => .fail e s
      | .halt s => .halt s
      | .fuelOut => .fuelOut) =
    eraseOut (match X2 with
      | .ok (i2, inp2, st2) => k2 i2 inp2 st2
      | .fail e s => .fail e s
      | .halt s => .halt s
      | .fuelOut => .fuelOut) := by
  cases X1 with
  | ok v1 =>
    cases X2 with
    | ok v2 =>
      have hv : v1 = v2 := by simpa [eraseOut] using hX
      subst hv
      obtain ⟨a, b, cc⟩ := v1
      exact hk a b cc
    | fail e2 s2 => exact absurd hX (by simp [eraseOut])
    | halt s2 => exact absurd hX (by simp [eraseOut])
    | fuelOut => exact absurd hX (by simp [eraseOut])
  | fail e1 s1 =>
    cases X2 with
    | ok v2 => exact absurd hX (by simp [eraseOut])
    | fail e2 s2 =>
      have hks : e1.kind = e2.kind ∧ s1 = s2 := by simpa [eraseOut] using hX
      show (ExecOut.fail ⟨e1.kind, none⟩ s1 : ExecOut c) = ExecOut.fail ⟨e2.kind, none⟩ s2
      rw [hks.1, hks.2]
    | halt s2 => exact absurd hX (by simp [eraseOut])
    | fuelOut => exact absurd hX (by simp [eraseOut])
  | halt s1 =>
    cases X2 with
    | ok v2 => exact absurd hX (by simp [eraseOut])
    | fail e2 s2 => exact absurd hX (by simp [eraseOut])
    | halt s2 =>
      have hs : s1 = s2 := by simpa [eraseOut] using hX
      show (ExecOut.halt s1 : ExecOut c) = ExecOut.halt s2
      rw [hs]
    | fuelOut => exact absurd hX (by simp [eraseOut])
  | fuelOut =>
    cases X2 with
    | ok v2 => exact absurd hX (by simp [eraseOut])
    | fail e2 s2 => exact absurd hX (by simp [eraseOut])
    | halt s2 => exact absurd hX (by simp [eraseOut])
    | fuelOut => rfl

theorem eraseOut_bind2 {c : Type} (X1 X2 : ExecOut (String × St))
    (k1 k2 : String → St → ExecOut c)
    (hX : eraseOut X1 = eraseOut X2)
    (hk : ∀ a b, eraseOut (k1 a b) = eraseOut (k2 a b)) :
    eraseOut (match X1 with
      | .ok (inp2, st2) => k1 inp2 st2
      | .fail e s => .fail e s
      | .halt s => .halt s
      | .fuelOut => .fuelOut) =
    eraseOut (match X2 with
      | .ok (inp2, st2) => k2 inp2 st2
      | .fail e s => .fail e s
      | .halt s => .halt s
      | .fuelOut => .fuelOut) := by
  cases X1 with
  | ok v1 =>
    cases X2 with
    | ok v2 =>
      have hv : v1 = v2 := by simpa [eraseOut] using hX
      subst hv
      obtain ⟨a, b⟩ := v1
      exact hk a b
    | fail e2 s2 => exact absurd hX (by simp [eraseOut])
    | halt s2 => exact absurd hX (by simp [eraseOut])
    | fuelOut => exact absurd hX (by simp [eraseOut])
  | fail e1 s1 =>
    cases X2 with
    | ok v2 => exact absurd hX (by simp [eraseOut])
    | fail e2 s2 =>
      have hks : e1.kind = e2.kind ∧ s1 = s2 := by simpa [eraseOut] using hX
      show (ExecOut.fail ⟨e1.kind, none⟩ s1 : ExecOut c) = ExecOut.fail ⟨e2.kind, none⟩ s2
      rw [hks.1, hks.2]
    | halt s2 => exact absurd hX (by simp [eraseOut])
    | fuelOut => exact absurd hX (by simp [eraseOut])
  | halt s1 =>
    cases X2 with
    | ok v2 => exact absurd hX (by simp [eraseOut])
    | fail e2 s2 => exact absurd hX (by simp [eraseOut])
    | halt s2 =>
      have hs : s1 = s2 := by simpa [eraseOut] using hX
      show (ExecOut.halt s1 : ExecOut c) = ExecOut.halt s2
      rw [hs]
    | fuelOut => exact absurd hX (by simp [eraseOut])
  | fuelOut =>
    cases X2 with
    | ok v2 => exact absurd hX (by simp [eraseOut])
    | fail e2 s2 => exact absurd hX (by simp [eraseOut])
    | halt s2 => exact absurd hX (by simp [eraseOut])
    | fuelOut => rfl

theorem relabAll (ctx : Ctx) (L1 L2 : List (Nat × String))
    (hmap : L1.map Prod.snd = L2.map Prod.snd) : ∀ (fuel : Nat),
    ((∀ i inp st, eraseOut (runLines fuel ctx L1 i inp st)
        = eraseOut (runLines fuel ctx L2 i inp st)) ∧
     (∀ i inp st d, eraseOut (execIfElse fuel ctx L1 i inp st d)
        = eraseOut (execIfElse fuel ctx L2 i inp st d)) ∧
     (∀ s0 ii idx ex inp st d, eraseOut (chainLoop fuel ctx L1 s0 ii idx ex inp st d)
        = eraseOut (chainLoop fuel ctx L2 s0 ii idx ex inp st d)) ∧
     (∀ cur bEnd inp st d, eraseOut (execBlock fuel ctx L1 cur bEnd inp st d)
        = eraseOut (execBlock fuel ctx L2 cur bEnd inp st d)) ∧
     (∀ i inp st d, eraseOut (execWhile fuel ctx L1 i inp st d)
        = eraseOut (execWhile fuel ctx L2 i inp st d)) ∧
     (∀ lh op rh n1 n2 bS bE c inp st d,
        eraseOut (whileLoop fuel ctx L1 lh op rh n1 bS bE c inp st d)
          = eraseOut (whileLoop fuel ctx L2 lh op rh n2 bS bE c inp st d))) := by
  have hlen := length_of_map_snd L1 L2 hmap
  intro fuel
  induction fuel with
  | zero =>
    exact ⟨fun _ _ _ => rfl, fun _ _ _ _ => rfl, fun _ _ _ _ _ _ _ => rfl,
      fun _ _ _ _ _ => rfl, fun _ _ _ _ => rfl, fun _ _ _ _ _ _ _ _ _ _ _ => rfl⟩
  | succ f ih =>
    obtain ⟨ihRL, ihIE, ihCL, ihEB, ihEW, ihWL⟩ := ih
    refine ⟨?_, ?_, ?_, ?_, ?_, ?_⟩
    -- runLines
    · intro i inp st
      simp only [runLines]
      have hs := getD_snd_of_map L1 L2 hmap i
      by_cases hi : i < L1.length
      · have hi2 : i < L2.length := hlen ▸ hi
        rw [if_pos hi, if_pos hi2]
        rw [← hs]
        by_cases h1 : (strStarts (L1.getD i (0, "")).2 "%if" ||
            decide ((L1.getD i (0, "")).2 = "%else")) = true
        · rw [if_pos h1, if_pos h1]
          exact eraseOut_bind3 _ _ _ _ (ihIE i inp st 0)
            (fun a b cc => ihRL a b cc)
        · rw [if_neg h1, if_neg h1]
          by_cases h2 : strStarts (L1.getD i (0, "")).2 "%while" = true
          · rw [if_pos h2, if_pos h2]
            exact eraseOut_bind3 _ _ _ _ (ihEW i inp st 0)
              (fun a b cc => ihRL a b cc)
          · rw [if_neg h2, if_neg h2]
            exact eraseOut_bind2 _ _ _ _
              (execLine_ln f ctx (L1.getD i (0, "")).2
                (L1.getD i (0, "")).1 (L2.getD i (0, "")).1 inp st)
              (fun a b => ihRL (i + 1) a b)
      · have hi2 : ¬ i < L2.length := fun hc => hi (by rw [hlen]; exact hc)
        rw [if_neg hi, if_neg hi2]
    -- execIfElse
    · intro i inp st d
      simp only [execIfElse]
      rcases getQ_rel L1 L2 hmap i with ⟨h1, h2⟩ | ⟨p, q, h1, h2, h3⟩
      · simp only [h1, h2]
      · simp only [h1, h2]
        by_cases hd16 : 16 ≤ d
        · rw [if_pos hd16, if_pos hd16]
          rfl
        · rw [if_neg hd16, if_neg hd16]
          rw [h3]
          exact ihCL i (indentLevel q.2) i false inp st d
    -- chainLoop
    · intro s0 ii idx ex inp st d
      simp only [chainLoop]
      have hsI := getD_snd_of_map L1 L2 hmap idx
      by_cases h1 : idx < L1.length
      · have h1b : idx < L2.length := hlen ▸ h1
        rw [if_pos h1, if_pos h1b]
        rw [← hsI]
        by_cases h2 : (pyStrip (L1.getD idx (0, "")).2 = "" ∨
            (indentLevel (L1.getD idx (0, "")).2 < ii ∧ s0 < idx))
        · rw [if_pos h2, if_pos h2]
        · rw [if_neg h2, if_neg h2]
          cases hmc : matchCond "%if" (pyStrip (L1.getD idx (0, "")).2) with
          | some lor =>
            obtain ⟨lh, op, rh⟩ := lor
            simp only [hmc]
            by_cases hex : ex = true
            · rw [if_pos hex, if_pos hex]
              rw [findBlock_cong L1 L2 hmap (idx + 1)]
              exact ihCL s0 ii (findBlock L2 (idx + 1)) true inp st d
            · rw [if_neg hex, if_neg hex]
              have hev := evalCondition_ln_t (pyStrip lh) (pyStrip op) (pyStrip rh)
                inp (L1.getD idx (0, "")).1 (L2.getD idx (0, "")).1 st
                (fun t => resolveValue_ln t inp _ _ st)
              cases hc1 : evalCondition (pyStrip lh) (pyStrip op) (pyStrip rh) inp
                  (L1.getD idx (0, "")).1 st with
              | error e1 =>
                cases hc2 : evalCondition (pyStrip lh) (pyStrip op) (pyStrip rh) inp
                    (L2.getD idx (0, "")).1 st with
                | error e2 =>
                  rw [hc1, hc2] at hev
                  exact eraseOut_fail_of _ _ _ (kind_of_eraseEx _ _ hev)
                | ok b2 =>
                  rw [hc1, hc2] at hev
                  exact absurd hev (by simp [eraseEx])
              | ok b1 =>
                cases hc2 : evalCondition (pyStrip lh) (pyStrip op) (pyStrip rh) inp
                    (L2.getD idx (0, "")).1 st with
                | error e2 =>
                  rw [hc1, hc2] at hev
                  exact absurd hev (by simp [eraseEx])
                | ok b2 =>
                  rw [hc1, hc2] at hev
                  have hb : b1 = b2 := by simpa [eraseEx] using hev
                  subst hb
                  simp only []
                  by_cases hbt : b1 = true
                  · rw [if_pos hbt, if_pos hbt]
                    rw [findBlock_cong L1 L2 hmap (idx + 1)]
                    exact eraseOut_bind2 _ _ _ _
                      (ihEB (idx + 1) (findBlock L2 (idx + 1)) inp st d)
                      (fun a b => ihCL s0 ii (findBlock L2 (idx + 1)) true a b d)
                  · rw [if_neg hbt, if_neg hbt]
                    rw [findBlock_cong L1 L2 hmap (idx + 1)]
                    exact ihCL s0 ii (findBlock L2 (idx + 1)) false inp st d
          | none =>
            simp only [hmc]
            by_cases helse : pyStrip (L1.getD idx (0, "")).2 = "%else"
            · rw [if_pos helse, if_pos helse]
              by_cases hex : ex = true
              · rw [if_pos hex, if_pos hex]
                rw [findBlock_cong L1 L2 hmap (idx + 1)]
                exact ihCL s0 ii (findBlock L2 (idx + 1)) true inp st d
              · rw [if_neg hex, if_neg hex]
                rw [findBlock_cong L1 L2 hmap (idx + 1)]
                exact eraseOut_bind2 _ _ _ _
                  (ihEB (idx + 1) (findBlock L2 (idx + 1)) inp st d)
                  (fun a b => ihCL s0 ii (findBlock L2 (idx + 1)) true a b d)
            · rw [if_neg helse, if_neg helse]
      · have h1b : ¬ idx < L2.length := fun hc => h1 (by rw [hlen]; exact hc)
        rw [if_neg h1, if_neg h1b]
    -- execBlock
    · intro cur bEnd inp st d
      simp only [execBlock]
      have hs := getD_snd_of_map L1 L2 hmap cur
      by_cases h1 : cur < bEnd
      · rw [if_pos h1, if_pos h1]
        rw [← hs]
        by_cases h2 : (strStarts (L1.getD cur (0, "")).2 "%if" ||
            decide ((L1.getD cur (0, "")).2 = "%else")) = true
        · rw [if_pos h2, if_pos h2]
          exact eraseOut_bind3 _ _ _ _ (ihIE cur inp st (d + 1))
            (fun a b cc => ihEB a bEnd b cc d)
        · rw [if_neg h2, if_neg h2]
          by_cases h3 : strStarts (L1.getD cur (0, "")).2 "%while" = true
          · rw [if_pos h3, if_pos h3]
            exact eraseOut_bind3 _ _ _ _ (ihEW cur inp st (d + 1))
              (fun a b cc => ihEB a bEnd b cc d)
          · rw [if_neg h3, if_neg h3]
            exact eraseOut_bind2 _ _ _ _
              (execLine_ln f ctx (L1.getD cur (0, "")).2
                (L1.getD cur (0, "")).1 (L2.getD cur (0, "")).1 inp st)
              (fun a b => ihEB (cur + 1) bEnd a b d)
      · rw [if_neg h1, if_neg h1]
    -- execWhile
    · intro i inp st d
      simp only [execWhile]
      rcases getQ_rel L1 L2 hmap i with ⟨h1, h2⟩ | ⟨p, q, h1, h2, h3⟩
      · simp only [h1, h2]
      · simp only [h1, h2]
        by_cases hd16 : 16 ≤ d
        · rw [if_pos hd16, if_pos hd16]
          rfl
        · rw [if_neg hd16, if_neg hd16]
          rw [h3]
          cases hmc : matchCond "%while" (pyStrip q.2) with
          | none => rfl
          | some lor =>
            obtain ⟨lh, op, rh⟩ := lor
            simp only [hmc]
            rw [findBlock_cong L1 L2 hmap (i + 1)]
            exact eraseOut_bind2 _ _
              (fun a b => .ok (findBlock L2 (i + 1), a, b))
              (fun a b => .ok (findBlock L2 (i + 1), a, b))
              (ihWL lh op rh p.1 q.1 (i + 1) (findBlock L2 (i + 1)) 0 inp st d)
              (fun a b => rfl)
    -- whileLoop
    · intro lh op rh n1 n2 bS bE c inp st d
      simp only [whileLoop]
      by_cases hcnt : 10000 < c + 1
      · rw [if_pos hcnt, if_pos hcnt]
        rfl
      · rw [if_neg hcnt, if_neg hcnt]
        have hev := evalCondition_ln_t lh op rh inp n1 n2 st
          (fun t => resolveValue_ln t inp _ _ st)
        cases hc1 : evalCondition lh op rh inp n1 st with
        | error e1 =>
          cases hc2 : evalCondition lh op rh inp n2 st with
          | error e2 =>
            rw [hc1, hc2] at hev
            exact eraseOut_fail_of _ _ _ (kind_of_eraseEx _ _ hev)
          | ok b2 =>
            rw [hc1, hc2] at hev
            exact absurd hev (by simp [eraseEx])
        | ok b1 =>
          cases hc2 : evalCondition lh op rh inp n2 st with
          | error e2 =>
            rw [hc1, hc2] at hev
            exact absurd hev (by simp [eraseEx])
          | ok b2 =>
            rw [hc1, hc2] at hev
            have hb : b1 = b2 := by simpa [eraseEx] using hev
            subst hb
            cases b1 with
            | false => rfl
            | true =>
              exact eraseOut_bind2 _ _ _ _ (ihEB bS bE inp st d)
                (fun a b => ihWL lh op rh n1 n2 bS bE (c + 1) a b d)

theorem numberFrom_map_snd : ∀ (body : List String) (a : Nat),
    (numberFrom a body).map Prod.snd = body := by
  intro body
  induction body with
  | nil => intro a; rfl
  | cons b bs ih =>
    intro a
    rw [numberFrom, List.map_cons, ih]

theorem dropWhile_head_false (p : Char → Bool) :
    ∀ (l : List Char) (c : Char) (r : List Char),
    l.dropWhile p = c :: r → p c = false := by
  intro l
  induction l with
  | nil => intro c r h; exact List.noConfusion h
  | cons a as ih =>
    intro c r h
    rw [List.dropWhile_cons] at h
    by_cases ha : p a = true
    · rw [if_pos ha] at h
      exact ih c r h
    · rw [if_neg ha] at h
      rw [Bool.not_eq_true] at ha
      injection h with h1 h2
      rw [← h1]
      exact ha

theorem dropTrailing_eq_self (p : Char → Bool) (l : List Char)
    (h : ∀ c r, l.reverse = c :: r → p c = false) : dropTrailing p l = l := by
  unfold dropTrailing
  rw [dropWhile_eq_self_of_head p l.reverse h, List.reverse_reverse]

theorem strip_last_not_ws (b : String) (hs : pyStrip b = b) :
    ∀ c r, b.data.reverse = c :: r → isPyWs c = false := by
  intro c r hrev
  have hd : pyStripL b.data = b.data := congrArg String.data hs
  unfold pyStripL at hd
  have hrev2 : b.data.reverse =
      (List.dropWhile isPyWs b.data).reverse.dropWhile isPyWs := by
    conv_lhs => rw [← hd]
    unfold dropTrailing
    rw [List.reverse_reverse]
  rw [hrev] at hrev2
  exact dropWhile_head_false isPyWs _ c r hrev2.symm

theorem strip_head_not_ws (b : String) (hs : pyStrip b = b) :
    ∀ c r, b.data = c :: r → isPyWs c = false := by
  intro c r hdd
  have hd : pyStripL b.data = b.data := congrArg String.data hs
  unfold pyStripL dropTrailing at hd
  have hpre : List.dropWhile isPyWs b.data = b.data ++
      (List.takeWhile isPyWs (List.dropWhile isPyWs b.data).reverse).reverse :=
    calc List.dropWhile isPyWs b.data
        = ((List.dropWhile isPyWs b.data).reverse).reverse :=
          (List.reverse_reverse _).symm
      _ = ((List.takeWhile isPyWs (List.dropWhile isPyWs b.data).reverse) ++
            (List.dropWhile isPyWs (List.dropWhile isPyWs b.data).reverse)).reverse := by
          rw [List.takeWhile_append_dropWhile]
      _ = (List.dropWhile isPyWs (List.dropWhile isPyWs b.data).reverse).reverse ++
            (List.takeWhile isPyWs (List.dropWhile isPyWs b.data).reverse).reverse := by
          rw [List.reverse_append]
      _ = b.data ++ _ := by rw [hd]
  obtain ⟨J, hpre2⟩ : ∃ J, List.dropWhile isPyWs b.data = b.data ++ J := ⟨_, hpre⟩
  refine dropWhile_head_false isPyWs b.data c (r ++ J) ?_
  rw [hpre2, hdd]
  rfl

theorem pyRstripNewline_eq_self (s : String)
    (h : ∀ c r, s.data.reverse = c :: r → isPyWs c = false) :
    pyRstripNewline s = s := by
  show (⟨dropTrailing (fun x => decide (x = '\r'))
    (dropTrailing (fun x => decide (x = '\n')) s.data)⟩ : String) = s
  rw [dropTrailing_eq_self _ s.data (fun c r hc => by
    have := h c r hc
    simp only [decide_eq_false_iff_not]
    intro he
    rw [he] at this
    exact absurd this (by decide))]
  rw [dropTrailing_eq_self _ s.data (fun c r hc => by
    have := h c r hc
    simp only [decide_eq_false_iff_not]
    intro he
    rw [he] at this
    exact absurd this (by decide))]

theorem pyStrip_tab (b : String) : pyStrip ("\t" ++ b) = pyStrip b := by
  show (⟨pyStripL ("\t" ++ b).data⟩ : String) = ⟨pyStripL b.data⟩
  rw [show ("\t" ++ b).data = '\t' :: b.data from rfl]
  unfold pyStripL
  rw [List.dropWhile_cons_of_pos (by decide)]

theorem parseAux_body (name : String) :
    ∀ (body : List String) (ln : Nat) (acc : List (Nat × String)) (rest : List String),
    (∀ b ∈ body, pyStrip b = b ∧ ¬ b = "" ∧ strStarts b "#" = false ∧
      pctFMatch b = none) →
    parseAux ln (some name) [(name, acc)] (body.map (fun b => "\t" ++ b) ++ rest)
      = parseAux (ln + body.length) (some name)
          [(name, acc ++ numberFrom ln body)] rest := by
  intro body
  induction body with
  | nil =>
    intro ln acc rest h
    simp [numberFrom]
  | cons b bs ih =>
    intro ln acc rest h
    obtain ⟨hs, hne, hh, hp⟩ := h b (by simp)
    have hbd : ∃ c r, b.data = c :: r := by
      cases hbdd : b.data with
      | nil => exact absurd (congrArg String.mk hbdd) hne
      | cons c r => exact ⟨c, r, rfl⟩
    obtain ⟨c, r, hcr⟩ := hbd
    have hbr : ∃ c2 r2, b.data.reverse = c2 :: r2 := by
      cases hbrr : b.data.reverse with
      | nil =>
        rw [hcr] at hbrr
        exact absurd hbrr (by simp)
      | cons c2 r2 => exact ⟨c2, r2, rfl⟩
    obtain ⟨c2, r2, hcr2⟩ := hbr
    have hraw : pyRstripNewline ("\t" ++ b) = "\t" ++ b := by
      apply pyRstripNewline_eq_self
      intro c3 r3 hrev
      rw [show ("\t" ++ b).data = '\t' :: b.data from rfl, List.reverse_cons,
        hcr2] at hrev
      injection hrev with h1 h2
      rw [← h1]
      exact strip_last_not_ws b hs c2 r2 hcr2
    have hstab : pyStrip ("\t" ++ b) = b := by rw [pyStrip_tab, hs]
    rw [List.map_cons, List.cons_append, parseAux]
    simp only [hraw, hstab]
    rw [if_neg (by simp [hne, hh])]
    rw [hp]
    rw [if_pos (by
      rw [show strStarts ("\t" ++ b) "\t" = true from by
        unfold strStarts
        rw [show ("\t" ++ b).data = '\t' :: b.data from rfl]
        simp [List.isPrefixOf]]
      simp)]
    rw [show fnsAppend [(name, acc)] name (ln, b) = [(name, acc ++ [(ln, b)])] from by
      unfold fnsAppend
      rw [if_pos rfl]]
    rw [ih (ln + 1) (acc ++ [(ln, b)]) rest (fun x hx => h x (by simp [hx]))]
    rw [show numberFrom ln (b :: bs) = (ln, b) :: numberFrom (ln + 1) bs from rfl]
    rw [List.append_assoc, List.singleton_append]
    rw [show ln + 1 + bs.length = ln + (bs.length + 1) from by omega]
    rfl

theorem parseAux_top (fns : List (String × List (Nat × String))) :
    ∀ (body : List String) (ln : Nat),
    (∀ b ∈ body, pyStrip b = b ∧ ¬ b = "" ∧ strStarts b "#" = false ∧
      pctFMatch b = none) →
    parseAux ln none fns body = (numberFrom ln body, fns) := by
  intro body
  induction body with
  | nil => intro ln h; rfl
  | cons b bs ih =>
    intro ln h
    obtain ⟨hs, hne, hh, hp⟩ := h b (by simp)
    have hbr : ∃ c2 r2, b.data.reverse = c2 :: r2 := by
      cases hbrr : b.data.reverse with
      | nil =>
        have : b.data = [] := by simpa using congrArg List.reverse hbrr
        exact absurd (congrArg String.mk this) hne
      | cons c2 r2 => exact ⟨c2, r2, rfl⟩
    obtain ⟨c2, r2, hcr2⟩ := hbr
    have hraw : pyRstripNewline b = b := by
      apply pyRstripNewline_eq_self
      intro c3 r3 hrev
      rw [hcr2] at hrev
      injection hrev with h1 h2
      rw [← h1]
      exact strip_last_not_ws b hs c2 r2 hcr2
    rw [parseAux]
    simp only [hraw, hs]
    rw [if_neg (by simp [hne, hh])]
    rw [hp]
    rw [ih (ln + 1) (fun x hx => h x (by simp [hx]))]
    rfl

theorem parseAux_dedent (name : String) (fns : List (String × List (Nat × String)))
    (body : List String) (ln : Nat)
    (h : ∀ b ∈ body, pyStrip b = b ∧ ¬ b = "" ∧ strStarts b "#" = false ∧
      pctFMatch b = none)
    (hB : body ≠ []) :
    parseAux ln (some name) fns body = (numberFrom ln body, fns) := by
  cases body with
  | nil => exact absurd rfl hB
  | cons b bs =>
    obtain ⟨hs, hne, hh, hp⟩ := h b (by simp)
    have hbr : ∃ c2 r2, b.data.reverse = c2 :: r2 := by
      cases hbrr : b.data.reverse with
      | nil =>
        have : b.data = [] := by simpa using congrArg List.reverse hbrr
        exact absurd (congrArg String.mk this) hne
      | cons c2 r2 => exact ⟨c2, r2, rfl⟩
    obtain ⟨c2, r2, hcr2⟩ := hbr
    have hraw : pyRstripNewline b = b := by
      apply pyRstripNewline_eq_self
      intro c3 r3 hrev
      rw [hcr2] at hrev
      injection hrev with h1 h2
      rw [← h1]
      exact strip_last_not_ws b hs c2 r2 hcr2
    have hbd : ∃ c r, b.data = c :: r := by
      cases hbdd : b.data with
      | nil => exact absurd (congrArg String.mk hbdd) hne
      | cons c r => exact ⟨c, r, rfl⟩
    obtain ⟨c, r, hcr⟩ := hbd
    rw [parseAux]
    simp only [hraw, hs]
    rw [if_neg (by simp [hne, hh])]
    rw [hp]
    rw [if_neg (by
      simp only [Bool.or_eq_true]
      rintro (h1 | h1)
      · exact absurd (strStarts_false_head b " " c r ' ' [] hcr rfl
          (fun he => by
            rw [he] at hcr
            exact absurd (strip_head_not_ws b hs ' ' r hcr) (by decide)) ▸ h1)
          (by simp)
      · exact absurd (strStarts_false_head b "\t" c r '\t' [] hcr rfl
          (fun he => by
            rw [he] at hcr
            exact absurd (strip_head_not_ws b hs '\t' r hcr) (by decide)) ▸ h1)
          (by simp))]
    rw [parseAux_top fns bs (ln + 1) (fun x hx => h x (by simp [hx]))]
    rfl

theorem parseScript_header (name : String) (body : List String) (tail : List String)
    (hh3 : pctFMatch ("%f " ++ name ++ ":") = some name)
    (hn : pyStrip name = name)
    (hbody : ∀ b ∈ body, pyStrip b = b ∧ ¬ b = "" ∧ strStarts b "#" = false ∧
      pctFMatch b = none) :
    parseScript (("%f " ++ name ++ ":") :: (body.map (fun b => "\t" ++ b) ++ tail))
      = parseAux (2 + body.length) (some name) [(name, numberFrom 2 body)] tail := by
  have hdata : ("%f " ++ name ++ ":").data
      = '%' :: 'f' :: ' ' :: (name.data ++ [':']) := by
    simp [String.data_append]
  have hh1 : pyRstripNewline ("%f " ++ name ++ ":") = "%f " ++ name ++ ":" := by
    apply pyRstripNewline_eq_self
    intro c r hrev
    rw [hdata] at hrev
    rw [show ('%' :: 'f' :: ' ' :: (name.data ++ [':']))
        = ('%' :: 'f' :: ' ' :: name.data) ++ [':'] from by simp, List.reverse_append]
      at hrev
    injection hrev with h1 h2
    rw [← h1]
    decide
  have hh2 : pyStrip ("%f " ++ name ++ ":") = "%f " ++ name ++ ":" := by
    show (⟨pyStripL ("%f " ++ name ++ ":").data⟩ : String) = _
    rw [hdata, pyStripL_eq_self]
    · exact congrArg String.mk hdata.symm
    · intro c r hc
      injection hc with h1 h2
      rw [← h1]
      decide
    · intro c r hc
      rw [show ('%' :: 'f' :: ' ' :: (name.data ++ [':']))
          = ('%' :: 'f' :: ' ' :: name.data) ++ [':'] from by simp,
        List.reverse_append] at hc
      injection hc with h1 h2
      rw [← h1]
      decide
  have hne : ¬ ("%f " ++ name ++ ":") = "" := by
    intro hcon
    have := congrArg String.data hcon
    rw [hdata] at this
    exact List.noConfusion this
  have hhash : strStarts ("%f " ++ name ++ ":") "#" = false :=
    strStarts_false_head _ "#" '%' _ '#' [] hdata rfl (by decide)
  rw [parseScript, parseAux]
  simp only [hh1, hh2]
  rw [if_neg (by simp [hne, hhash])]
  rw [hh3]
  simp only [hn]
  rw [show fnsSet [] name [] = [(name, [])] from rfl]
  rw [parseAux_body name body 2 [] tail hbody]
  rw [List.nil_append]

theorem runLines_succ (fuel : Nat) (ctx : Ctx) (lines : List (Nat × String))
    (i : Nat) (inp : String) (st : St) :
    runLines (fuel + 1) ctx lines i inp st =
      (if i < lines.length then
        let p := lines.getD i (0, "")
        if strStarts p.2 "%if" || p.2 = "%else" then
          match execIfElse fuel ctx lines i inp st 0 with
          | .ok (i2, inp2, st2) => runLines fuel ctx lines i2 inp2 st2
          | .fail e s => .fail e s
          | .halt s => .halt s
          | .fuelOut => .fuelOut
        else if strStarts p.2 "%while" then
          match execWhile fuel ctx lines i inp st 0 with
          | .ok (i2, inp2, st2) => runLines fuel ctx lines i2 inp2 st2
          | .fail e s => .fail e s
          | .halt s => .halt s
          | .fuelOut => .fuelOut
        else
          match execLine fuel ctx p.2 p.1 inp st with
          | .ok (inp2, st2) => runLines fuel ctx lines (i + 1) inp2 st2
          | .fail e s => .fail e s
          | .halt s => .halt s
          | .fuelOut => .fuelOut
      else .ok (inp, st)) := rfl

theorem execLine_call_eq (fuel : Nat) (ctx : Ctx) (line : String) (ln : Nat)
    (inp : String) (st : St) (fbody : List (Nat × String))
    (g1 : strStarts line "##" = false) (g2 : strStarts line "#" = false)
    (g3 : ¬ pyStrip line = "")
    (hma : matchAlias line = none) (hvt : matchVarType line = none)
    (hmas : matchAssign line = none) (hicq : icqMatch line = none)
    (hif : strStarts line "%if" = false) (helse : ¬ line = "%else")
    (hwh : strStarts line "%while" = false)
    (hwr : strStarts line "write" = false)
    (hsend : (strStarts line "send" && strIn line "%NL%") = false)
    (hmsg : strStarts line "msg" = false)
    (hwait : strStarts line "wait" = false)
    (hcc : strStarts line "clear_console" = false)
    (hlf : lookupFn ctx.funcs line = some fbody) :
    execLine (fuel + 1) ctx line ln inp st =
      (match runFunction fuel ctx line inp st with
       | .ok (inp2, st2) => .ok (inp2, st2)
       | .fail e s => .fail e s
       | .halt s => .halt s
       | .fuelOut => .fuelOut) := by
  simp only [execLine, g1, g2, g3, Bool.false_or, Bool.or_false, decide_eq_true_eq,
    if_false, hma, hvt, hmas, hicq, hif, decide_eq_false helse, hwh, hwr, hsend,
    hmsg, hwait, hcc, hlf, Bool.false_eq_true]

theorem runFunction_succ (fuel : Nat) (ctx : Ctx) (name : String) (inp : String)
    (st : St) (fbody : List (Nat × String))
    (hlf : lookupFn ctx.funcs name = some fbody) :
    runFunction (fuel + 1) ctx name inp st = runLines fuel ctx fbody 0 inp st := by
  show (match lookupFn ctx.funcs name with
    | none => ExecOut.fail ⟨.funcNotFound, none⟩ st
    | some body => runLines fuel ctx body 0 inp st) = _
  rw [hlf]

theorem ok_of_eraseOut {a : Type} (r : ExecOut a) (v : a)
    (h : eraseOut r = .ok v) : r = .ok v := by
  cases r with
  | ok w => exact h
  | fail e s => exact absurd h (by simp [eraseOut])
  | halt s => exact absurd h (by simp [eraseOut])
  | fuelOut => exact absurd h (by simp [eraseOut])

set_option maxHeartbeats 2000000 in
/-- C9 (amended): the inlining round trip holds for successful runs.  For a
script consisting of one subroutine definition and a single invocation of
it (the invocation naming no built-in statement form and the subroutine not
named Main), if the script runs to success producing final input value and
output X, then the variant script with the invocation line replaced by the
subroutine's body runs to the same X — identical output and identical
propagated input value.  (Failing runs differ in the reported line number,
as the counterexample shows.) -/
theorem c9_inline_roundtrip (toast : Bool) (name : String) (body : List String)
    (inp : String) (stdin : List String) (f : Nat) (X : String × St)
    (hn : pyStrip name = name) (hne : ¬ name = "")
    (hh2x : strStarts name "##" = false) (hh : strStarts name "#" = false)
    (hnp : pctFMatch name = none)
    (hma : matchAlias name = none) (hvt : matchVarType name = none)
    (hmas : matchAssign name = none) (hicq : icqMatch name = none)
    (hif : strStarts name "%if" = false) (helse : ¬ name = "%else")
    (hwh : strStarts name "%while" = false)
    (hwr : strStarts name "write" = false)
    (hsend : (strStarts name "send" && strIn name "%NL%") = false)
    (hmsg : strStarts name "msg" = false)
    (hwait : strStarts name "wait" = false)
    (hcc : strStarts name "clear_console" = false)
    (hnm : ¬ name = "Main")
    (hh3 : pctFMatch ("%f " ++ name ++ ":") = some name)
    (hbody : ∀ b ∈ body, pyStrip b = b ∧ ¬ b = "" ∧ strStarts b "#" = false ∧
      pctFMatch b = none)
    (hB : body ≠ [])
    (h1 : runScript (f + 3) toast
        (("%f " ++ name ++ ":") :: (body.map (fun b => "\t" ++ b) ++ [name]))
        inp stdin = .ok X) :
    runScript f toast
        (("%f " ++ name ++ ":") :: (body.map (fun b => "\t" ++ b) ++ body))
        inp stdin = .ok X := by
  have hp1 : parseScript (("%f " ++ name ++ ":") ::
      (body.map (fun b => "\t" ++ b) ++ [name]))
      = ([(2 + body.length, name)], [(name, numberFrom 2 body)]) := by
    rw [parseScript_header name body [name] hh3 hn hbody]
    rw [parseAux_dedent name [(name, numberFrom 2 body)] [name] (2 + body.length)
      (by
        intro b hb
        rw [List.mem_singleton] at hb
        subst hb
        exact ⟨hn, hne, hh, hnp⟩)
      (by simp)]
    rfl
  have hp2 : parseScript (("%f " ++ name ++ ":") ::
      (body.map (fun b => "\t" ++ b) ++ body))
      = (numberFrom (2 + body.length) body, [(name, numberFrom 2 body)]) := by
    rw [parseScript_header name body body hh3 hn hbody]
    rw [parseAux_dedent name [(name, numberFrom 2 body)] body (2 + body.length)
      hbody hB]
  have hlf : lookupFn [(name, numberFrom 2 body)] name = some (numberFrom 2 body) := by
    unfold lookupFn
    rw [if_pos rfl]
  have hlfm : lookupFn [(name, numberFrom 2 body)] "Main" = none := by
    unfold lookupFn
    rw [if_neg hnm]
    rfl
  have hg3 : ¬ pyStrip name = "" := by rw [hn]; exact hne
  have hRL1 : runLines (f + 3) ⟨[(name, numberFrom 2 body)], toast⟩
      [(2 + body.length, name)] 0 inp ⟨[], [], stdin⟩
      = (match runLines f ⟨[(name, numberFrom 2 body)], toast⟩ (numberFrom 2 body)
            0 inp ⟨[], [], stdin⟩ with
         | .ok (inp2, st2) => runLines (f + 2) ⟨[(name, numberFrom 2 body)], toast⟩
             [(2 + body.length, name)] 1 inp2 st2
         | .fail e s => .fail e s
         | .halt s => .halt s
         | .fuelOut => .fuelOut) := by
    rw [show f + 3 = (f + 2) + 1 from rfl, runLines_succ]
    rw [if_pos (by simp)]
    simp only [List.getD_cons_zero]
    rw [if_neg (by simp [hif, decide_eq_false helse])]
    rw [if_neg (by simp [hwh])]
    rw [show f + 2 = (f + 1) + 1 from rfl,
      execLine_call_eq (f + 1) ⟨[(name, numberFrom 2 body)], toast⟩ name
        (2 + body.length) inp ⟨[], [], stdin⟩ (numberFrom 2 body)
        hh2x hh hg3 hma hvt hmas hicq hif helse hwh hwr hsend hmsg hwait hcc hlf]
    rw [runFunction_succ f ⟨[(name, numberFrom 2 body)], toast⟩ name inp
      ⟨[], [], stdin⟩ (numberFrom 2 body) hlf]
    cases runLines f ⟨[(name, numberFrom 2 body)], toast⟩ (numberFrom 2 body)
        0 inp ⟨[], [], stdin⟩ <;> rfl
  simp only [runScript, hp1] at h1
  rw [hRL1] at h1
  cases hR : runLines f ⟨[(name, numberFrom 2 body)], toast⟩ (numberFrom 2 body)
      0 inp ⟨[], [], stdin⟩ with
  | ok p =>
    obtain ⟨inp2, st2⟩ := p
    rw [hR] at h1
    have hRL2 : runLines (f + 2) ⟨[(name, numberFrom 2 body)], toast⟩
        [(2 + body.length, name)] 1 inp2 st2 = .ok (inp2, st2) := by
      rw [show f + 2 = (f + 1) + 1 from rfl, runLines_succ]
      rw [if_neg (by simp)]
    simp only [hRL2, hlfm] at h1
    have hmapEq : (numberFrom 2 body).map Prod.snd
        = (numberFrom (2 + body.length) body).map Prod.snd := by
      rw [numberFrom_map_snd, numberFrom_map_snd]
    have hrel := (relabAll ⟨[(name, numberFrom 2 body)], toast⟩
      (numberFrom 2 body) (numberFrom (2 + body.length) body) hmapEq f).1
      0 inp ⟨[], [], stdin⟩
    rw [hR] at hrel
    have hR2 : runLines f ⟨[(name, numberFrom 2 body)], toast⟩
        (numberFrom (2 + body.length) body) 0 inp ⟨[], [], stdin⟩
        = .ok (inp2, st2) :=
      ok_of_eraseOut _ _ (by rw [← hrel]; rfl)
    simp only [runScript, hp2]
    rw [hR2]
    simp only [hlfm]
    exact h1
  | fail e s =>
    rw [hR] at h1
    exact absurd h1 (by simp)
  | halt s =>
    rw [hR] at h1
    exact absurd h1 (by simp)
  | fuelOut =>
    rw [hR] at h1
    exact absurd h1 (by simp)

/-- C9: counterexample to the inlining round trip as stated.  A script made
of a subroutine definition and one invocation, and the variant with the
invocation replaced by the body, produce different outputs when the body
fails: the error diagnostics carry the line number of the executed line,
which is the body's own line in the original script but the call site's
region in the inlined one. -/
theorem c9_counterexample :
    runScript 100 false ["%f Sub:", "\tx", "Sub"] "" [] =
      .fail ⟨.unknownCommand, some 2⟩ ⟨[], [], []⟩ ∧
    runScript 100 false ["%f Sub:", "\tx", "x"] "" [] =
      .fail ⟨.unknownCommand, some 3⟩ ⟨[], [], []⟩ ∧
    runScript 100 false ["%f Sub:", "\tx", "Sub"] "" [] ≠
      runScript 100 false ["%f Sub:", "\tx", "x"] "" [] := by
  refine ⟨by decide, by decide, by decide⟩

/-- Witness for `c9_inline_roundtrip` on a one-line subroutine that emits a
newline: both the original and the inlined script produce the same output. -/
theorem c9_witness :
    runScript 6 false ["%f Sub:", "\tsend %NL%x", "Sub"] "" [] =
      .ok ("", ⟨[], [.text "\n", .text "\n✔️ Script finished.\n"], []⟩) ∧
    runScript 3 false ["%f Sub:", "\tsend %NL%x", "send %NL%x"] "" [] =
      .ok ("", ⟨[], [.text "\n", .text "\n✔️ Script finished.\n"], []⟩) := by
  constructor
  · decide
  · exact c9_inline_roundtrip false "Sub" ["send %NL%x"] "" [] 3
      ("", ⟨[], [.text "\n", .text "\n✔️ Script finished.\n"], []⟩)
      (by decide) (by decide) (by decide) (by decide) (by decide) (by decide)
      (by decide) (by decide) (by decide) (by decide) (by decide) (by decide)
      (by decide) (by decide) (by decide) (by decide) (by decide) (by decide)
      (by decide)
      (by
        intro b hb
        rw [List.mem_singleton] at hb
        subst hb
        exact ⟨by decide, by decide, by decide, by decide⟩)
      (by decide)
      (by decide)


end CMDScript
